import Mathlib

/-!
Shallow embedding of the catalog/basket/order reconciliation core of the
`Diplom` ordering backend (Django app `users`), together with theorems
checking the natural-language specification against it.

The relational store is a `DB` structure of row lists in insertion order
with a single fresh-id allocator (`next_id`).  Django ORM operations are
translated as list operations: `filter(...).first()` is `List.find?`,
`get_or_create` is a lookup followed by an append of a fresh row,
`update(...)` is a pointwise `List.map`, `delete()` is a `List.filter`.
-/

/-- A `Shop` row (models.Shop): owner (unique), name, email,
base_shipping_price, is_open. -/
structure ShopRow where
  id : Nat
  owner_id : Nat
  name : String
  email : String
  base_shipping_price : Int
  is_open : Bool
  deriving DecidableEq, Repr

/-- A global `Category` row, deduplicated by name. -/
structure CategoryRow where
  id : Nat
  name : String
  deriving DecidableEq, Repr

/-- A `ShopCategory` row: shop-local alias of a global category with a
shop-local external_id. -/
structure ShopCategoryRow where
  id : Nat
  shop_id : Nat
  category_id : Nat
  external_id : Int
  deriving DecidableEq, Repr

/-- A global `Product` row, deduplicated by name. -/
structure ProductRow where
  id : Nat
  name : String
  deriving DecidableEq, Repr

/-- A `ProductInfo` row ("listing"): belongs to one shop and one
shop-category, references a product, and carries the partner's SKU id
(`external_id`), quantity, price and price_rrc. -/
structure ProductInfoRow where
  id : Nat
  shop_id : Nat
  shop_category_id : Nat
  product_id : Nat
  external_id : Int
  quantity : Int
  price : Int
  price_rrc : Int
  deriving DecidableEq, Repr

/-- A global `Parameter` row (attribute name pool). -/
structure ParameterRow where
  id : Nat
  name : String
  deriving DecidableEq, Repr

/-- A global `ValueOfParameter` row (attribute value pool). -/
structure ValueRow where
  id : Nat
  value : String
  deriving DecidableEq, Repr

/-- A `ProductParameter` row: joins a listing with a parameter name row and
a parameter value row. -/
structure ProductParameterRow where
  id : Nat
  product_info_id : Nat
  parameter_id : Nat
  value_id : Nat
  deriving DecidableEq, Repr

/-- A `Contact` row (soft-deleted by flag). -/
structure ContactRow where
  id : Nat
  user_id : Nat
  is_deleted : Bool
  deriving DecidableEq, Repr

/-- State of a `BuyerOrder`: `basket` while it is a draft basket, `accepted`
after checkout confirmation. -/
inductive BuyerOrderState where
  | basket
  | accepted
  deriving DecidableEq, Repr

/-- State of a `SellerOrder`. -/
inductive SellerOrderState where
  | basket
  | new
  | canceled
  | delivered
  deriving DecidableEq, Repr

/-- A `BuyerOrder` row ("basket/order"). -/
structure BuyerOrderRow where
  id : Nat
  user_id : Nat
  state : BuyerOrderState
  contact_id : Option Nat
  created_at : Option Nat
  deriving DecidableEq, Repr

/-- A `SellerOrder` row: one buyer order, one shop. -/
structure SellerOrderRow where
  id : Nat
  buyer_order_id : Nat
  shop_id : Nat
  state : SellerOrderState
  shipping_price : Int
  contact_id : Option Nat
  created_at : Option Nat
  deriving DecidableEq, Repr

/-- A `SellerOrderItem` row ("line item"), with the price snapshot taken at
basket-add time. -/
structure SellerOrderItemRow where
  id : Nat
  order_id : Nat
  product_info_id : Nat
  quantity : Int
  purchase_price : Int
  purchase_price_rrc : Int
  deriving DecidableEq, Repr

/-- The relational store: all tables of the core, in insertion order, plus
one fresh-id allocator used for every new row. -/
structure DB where
  shops : List ShopRow
  categories : List CategoryRow
  shop_categories : List ShopCategoryRow
  products : List ProductRow
  product_infos : List ProductInfoRow
  parameters : List ParameterRow
  param_values : List ValueRow
  product_parameters : List ProductParameterRow
  contacts : List ContactRow
  buyer_orders : List BuyerOrderRow
  seller_orders : List SellerOrderRow
  ordered_items : List SellerOrderItemRow
  next_id : Nat
  deriving DecidableEq, Repr

/-- The empty store. -/
def dbEmpty : DB :=
  ⟨[], [], [], [], [], [], [], [], [], [], [], [], 1⟩

/-- One attribute pair of a listing payload, as built by `import_products`
(`dict(zip(('parameter', 'value'), i))`). -/
structure ParamPair where
  parameter : String
  value : String
  deriving DecidableEq, Repr

/-- The `validated_data` of `PartnerProductInfoSerializer` for one listing:
external_id, shop-scoped category (external id and name), product name,
parameter pairs, price, price_rrc, quantity. -/
structure ValidatedProductInfo where
  external_id : Int
  category_external_id : Int
  category_name : String
  product_name : String
  product_parameters : List ParamPair
  price : Int
  price_rrc : Int
  quantity : Int
  deriving DecidableEq, Repr

/-- One entry of the payload's `categories` list; fields are `Option` so a
missing key models a Python `KeyError`. -/
structure CategorySource where
  id : Option Int
  name : Option String
  deriving DecidableEq, Repr

/-- One entry of the payload's `goods` list; fields are `Option` so a
missing key models a Python `KeyError`. -/
structure GoodSource where
  id : Option Int
  category : Option Int
  name : Option String
  parameters : Option (List ParamPair)
  price : Option Int
  price_rrc : Option Int
  quantity : Option Int
  deriving DecidableEq, Repr

/-- The decoded catalog payload handed to `import_products`: top-level keys
are `Option` so a missing key models a Python `KeyError`; `email` and
`shipping_price` are genuinely optional with defaults. -/
structure CatalogPayload where
  shop : Option String
  categories : Option (List CategorySource)
  goods : Option (List GoodSource)
  email : Option String
  shipping_price : Option Int
  deriving DecidableEq, Repr

/-- Structured result of `import_products` (the returned dict): `ok` carries
the shop id, every other constructor is one of the error dicts.
`conflictError` and `integrityError` model database-constraint failures
raised during the commit phase. -/
inductive ImportResult where
  | ok (shop_id : Nat)
  | parseError (invalid_field : String)
  | nameOccupied (shop_name : String)
  | categoryMatchError (key : String)
  | productParseError (invalid_field : String)
  | invalidProductInfo (product_info : GoodSource)
  | conflictError (category_external_id : Int)
  | integrityError (external_id : Int)
  deriving DecidableEq, Repr

/-- Python dict lookup for the `categories` mapping built by
`import_products`: with duplicate category ids the last entry wins. -/
def lookupLast (l : List (Int × String)) (k : Int) : Option String :=
  match l.reverse.find? (fun p => p.1 == k) with
  | some p => some p.2
  | none => none

/-- Stable insertion of a pair into a list sorted by parameter name,
placing the new pair after existing pairs with an equal name. -/
def insertByName (p : ParamPair) : List ParamPair → List ParamPair
  | [] => [p]
  | q :: qs =>
    if q.parameter ≤ p.parameter then q :: insertByName p qs else p :: q :: qs

/-- Python's stable `sorted(..., key=lambda x: x['parameter'])` on a list of
parameter pairs. -/
def sortParams (l : List ParamPair) : List ParamPair :=
  l.foldl (fun acc p => insertByName p acc) []

/-- The parameter pairs of a listing as serialized by
`PartnerProductInfoBriefSerializer`: the listing's `ProductParameter` rows
in insertion order, each rendered as the referenced parameter name and
value. -/
def paramPairsOf (db : DB) (pid : Nat) : List ParamPair :=
  (db.product_parameters.filter (fun pp => pp.product_info_id == pid)).map
    (fun pp =>
      ⟨(match db.parameters.find? (fun r => r.id == pp.parameter_id) with
        | some r => r.name
        | none => ""),
       (match db.param_values.find? (fun r => r.id == pp.value_id) with
        | some r => r.value
        | none => "")⟩)

/-- `Category.objects.get_or_create(name=...)`: returns the updated store
and the id of the found or created row. -/
def getOrCreateCategory (db : DB) (n : String) : DB × Nat :=
  match db.categories.find? (fun c => c.name == n) with
  | some c => (db, c.id)
  | none =>
    ({ db with
        categories := db.categories ++ [⟨db.next_id, n⟩],
        next_id := db.next_id + 1 }, db.next_id)

/-- `shop.categories.get_or_create(category=..., defaults={'external_id'})`.
Modelled from the spec: `models.py` is not under `src/`; per §4.1 step 7 a
`ShopCategory` external_id collision with a different category under the
same shop violates a unique constraint and is a conflict error naming the
external_id. -/
def getOrCreateShopCategory (db : DB) (sid cat_id : Nat) (ext : Int) :
    Except Int (DB × Nat) :=
  match db.shop_categories.find?
      (fun sc => sc.shop_id == sid && sc.category_id == cat_id) with
  | some sc => .ok (db, sc.id)
  | none =>
    if db.shop_categories.any (fun sc => sc.shop_id == sid && sc.external_id == ext) then
      .error ext
    else
      .ok ({ db with
              shop_categories := db.shop_categories ++ [⟨db.next_id, sid, cat_id, ext⟩],
              next_id := db.next_id + 1 }, db.next_id)

/-- `Product.objects.get_or_create(name=...)`. -/
def getOrCreateProduct (db : DB) (n : String) : DB × Nat :=
  match db.products.find? (fun p => p.name == n) with
  | some p => (db, p.id)
  | none =>
    ({ db with
        products := db.products ++ [⟨db.next_id, n⟩],
        next_id := db.next_id + 1 }, db.next_id)

/-- `Parameter.objects.get_or_create(name=...)`. -/
def getOrCreateParameter (db : DB) (n : String) : DB × Nat :=
  match db.parameters.find? (fun p => p.name == n) with
  | some p => (db, p.id)
  | none =>
    ({ db with
        parameters := db.parameters ++ [⟨db.next_id, n⟩],
        next_id := db.next_id + 1 }, db.next_id)

/-- `ValueOfParameter.objects.get_or_create(value=...)`. -/
def getOrCreateValue (db : DB) (v : String) : DB × Nat :=
  match db.param_values.find? (fun r => r.value == v) with
  | some r => (db, r.id)
  | none =>
    ({ db with
        param_values := db.param_values ++ [⟨db.next_id, v⟩],
        next_id := db.next_id + 1 }, db.next_id)

/-- `PartnerProductInfoUpdateSerializer.add_parameters` without
`replace_old`: for each pair, get-or-create the global parameter name row
and value row and append a `ProductParameter` join row. -/
def add_parameters (db : DB) (pid : Nat) (ps : List ParamPair) : DB :=
  ps.foldl
    (fun acc p =>
      let (db1, par_id) := getOrCreateParameter acc p.parameter
      let (db2, val_id) := getOrCreateValue db1 p.value
      { db2 with
          product_parameters :=
            db2.product_parameters ++ [⟨db2.next_id, pid, par_id, val_id⟩],
          next_id := db2.next_id + 1 })
    db

/-- Outcome of `PartnerProductInfoSerializer.create`: either the updated
store (the new listing is the last appended `ProductInfoRow`), a
`ValidationError` for a `ShopCategory` external_id conflict, or an
`IntegrityError` for a duplicate (shop, external_id) listing.  The error
constructors carry the store as mutated so far, since each ORM write has
already been committed when the exception is raised. -/
inductive CreateOutcome where
  | ok (db : DB)
  | conflict (db : DB) (category_external_id : Int)
  | integrity (db : DB) (external_id : Int)
  deriving DecidableEq, Repr

/-- `PartnerProductInfoSerializer.create(validated_data, shop)`: get or
create the global category, the shop's category alias, and the global
product, then insert the `ProductInfo` row and its parameter rows.
The uniqueness of (shop, external_id) for listings is enforced here.
Modelled from the spec: `models.py` is not under `src/`; §3 states a
`ProductInfo`'s external_id is unique within its shop, so a duplicate
insert raises an `IntegrityError`. -/
def create_product_info (db : DB) (sid : Nat) (v : ValidatedProductInfo) :
    CreateOutcome :=
  let (db1, cat_id) := getOrCreateCategory db v.category_name
  match getOrCreateShopCategory db1 sid cat_id v.category_external_id with
  | .error e => .conflict db1 e
  | .ok (db2, sc_id) =>
    let (db3, prod_id) := getOrCreateProduct db2 v.product_name
    if db3.product_infos.any
        (fun r => r.shop_id == sid && r.external_id == v.external_id) then
      .integrity db3 v.external_id
    else
      let pid := db3.next_id
      let db4 : DB :=
        { db3 with
            product_infos :=
              db3.product_infos ++
                [⟨pid, sid, sc_id, prod_id, v.external_id,
                  v.quantity, v.price, v.price_rrc⟩],
            next_id := db3.next_id + 1 }
      .ok (add_parameters db4 pid v.product_parameters)

/-- The optional fields of a partner listing update
(`fields_to_update` in `update_or_create` / `validated_data` in
`PartnerProductInfoUpdateSerializer.update`): only the present keys are
applied. -/
structure UpdateFields where
  quantity : Option Int
  price : Option Int
  price_rrc : Option Int
  product_parameters : Option (List ParamPair)
  deriving DecidableEq, Repr

/-- `PartnerProductInfoUpdateSerializer.update`: if `product_parameters`
is provided, wholesale-replace the listing's parameter rows; then apply
the provided scalar fields to the instance. -/
def serializer_update (db : DB) (inst_id : Nat) (f : UpdateFields) : DB :=
  let db1 :=
    match f.product_parameters with
    | none => db
    | some ps =>
      add_parameters
        { db with
            product_parameters :=
              db.product_parameters.filter
                (fun pp => pp.product_info_id != inst_id) }
        inst_id ps
  { db1 with
      product_infos :=
        db1.product_infos.map
          (fun r =>
            if r.id == inst_id then
              { r with
                  quantity := f.quantity.getD r.quantity,
                  price := f.price.getD r.price,
                  price_rrc := f.price_rrc.getD r.price_rrc }
            else r) }

/-- `PartnerProductInfoSerializer.update_or_create(validated_data, shop)`:
look up the listing by (shop, external_id); if present, diff only the
mutable fields (quantity, price, price_rrc, and the parameter sets sorted
by parameter name) and write only the changed ones — a no-op update is a
no-write; if absent, create the listing. -/
def update_or_create (db : DB) (sid : Nat) (v : ValidatedProductInfo) :
    CreateOutcome :=
  match db.product_infos.find?
      (fun r => r.shop_id == sid && r.external_id == v.external_id) with
  | some inst =>
    let oldP := sortParams (paramPairsOf db inst.id)
    let newP := sortParams v.product_parameters
    let f : UpdateFields :=
      { quantity := if inst.quantity != v.quantity then some v.quantity else none,
        price := if inst.price != v.price then some v.price else none,
        price_rrc := if inst.price_rrc != v.price_rrc then some v.price_rrc else none,
        product_parameters := if oldP != newP then some v.product_parameters else none }
    if f.quantity.isNone && f.price.isNone && f.price_rrc.isNone &&
        f.product_parameters.isNone then
      .ok db
    else
      .ok (serializer_update db inst.id f)
  | none => create_product_info db sid v

/-- Whether a listing with this external_id already exists in the shop
(`self.shop.product_infos.filter(external_id=value).exists()`). -/
def externalIdTaken (db : DB) (sid : Nat) (ext : Int) : Bool :=
  db.product_infos.any (fun r => r.shop_id == sid && r.external_id == ext)

/-- The field-level checks of `PartnerProductInfoSerializer.is_valid`:
the category name is a `CharField(max_length=50)` and the category
external_id an `IntegerField(min_value=1)` (`PartnerCategorySerializer`).
Modelled from the spec for the rest: `models.py` is not under `src/`, and
§4.1 step 5 lists the shared model-field invariants price non-negative,
quantity non-negative (price_rrc alike). -/
def sharedFieldChecks (v : ValidatedProductInfo) : Bool :=
  v.category_name.length ≤ 50 && 1 ≤ v.category_external_id &&
  0 ≤ v.quantity && 0 ≤ v.price && 0 ≤ v.price_rrc

/-- Full `PartnerProductInfoSerializer` validation: the shared field checks
plus `validate_external_id`, which rejects an already-taken external_id
only when the serializer is *not* in the importing context
(`if not self.is_importing and self.shop.product_infos.filter(...)`). -/
def productInfoValid (is_importing : Bool) (db : DB) (sid : Nat)
    (v : ValidatedProductInfo) : Bool :=
  sharedFieldChecks v && (is_importing || !externalIdTaken db sid v.external_id)

/-- The payload fields read by the parse step of `import_products`:
shop name, the category id-to-name mapping source, and the goods. -/
structure ParsedPayload where
  shop_name : String
  cats : List (Int × String)
  goods : List GoodSource
  deriving DecidableEq, Repr

/-- The parse step of `import_products` (the first `try` block): a missing
`shop`, `categories` or `goods` key, or a category entry missing `id` or
`name`, is a `KeyError` reported as a parse error naming the field. -/
def parsePayload (p : CatalogPayload) : Except ImportResult ParsedPayload :=
  match p.shop with
  | none => .error (.parseError "shop")
  | some shop_name =>
    match p.categories with
    | none => .error (.parseError "categories")
    | some cats_src =>
      match cats_src.mapM
          (fun c =>
            match c.id, c.name with
            | some i, some n => some (i, n)
            | none, _ => none
            | _, none => none) with
      | none =>
        .error (.parseError
          (if cats_src.any (fun c => c.id.isNone) then "id" else "name"))
      | some cats =>
        match p.goods with
        | none => .error (.parseError "goods")
        | some goods => .ok ⟨shop_name, cats, goods⟩

/-- Building the per-listing payload for one good (the second and third
`try` blocks of the loop): resolve the good's `category` id against the
submitted mapping (a missing key or unknown id is the category
parse-or-matching error), then read the required good fields in the order
the source reads them (a missing one is the product parse error naming
it), yielding the data handed to the serializer. -/
def buildGood (cats : List (Int × String)) (g : GoodSource) :
    Except ImportResult ValidatedProductInfo :=
  match g.category with
  | none => .error (.categoryMatchError "category")
  | some cid =>
    match lookupLast cats cid with
    | none => .error (.categoryMatchError (toString cid))
    | some cname =>
      match g.parameters with
      | none => .error (.productParseError "parameters")
      | some ps =>
        match g.id with
        | none => .error (.productParseError "id")
        | some ext =>
          match g.name with
          | none => .error (.productParseError "name")
          | some pname =>
            match g.price with
            | none => .error (.productParseError "price")
            | some price =>
              match g.price_rrc with
              | none => .error (.productParseError "price_rrc")
              | some price_rrc =>
                match g.quantity with
                | none => .error (.productParseError "quantity")
                | some q =>
                  .ok ⟨ext, cid, cname, pname, ps, price, price_rrc, q⟩

/-- The per-good loop of `import_products`: build each listing payload and
validate it through `PartnerProductInfoSerializer` in the importing
context; the first failure aborts with its structured error, echoing the
offending good on a validation failure. -/
def buildAll (cats : List (Int × String)) :
    List GoodSource → Except ImportResult (List ValidatedProductInfo)
  | [] => .ok []
  | g :: gs =>
    match buildGood cats g with
    | .error e => .error e
    | .ok v =>
      if productInfoValid true dbEmpty 0 v then
        match buildAll cats gs with
        | .error e => .error e
        | .ok vs => .ok (v :: vs)
      else
        .error (.invalidProductInfo g)

/-- `Shop.objects.get_or_create(owner_id=..., defaults={...})`: find the
owner's shop, else insert one with the given defaults unless the shop name
is already occupied.  Modelled from the spec for the constraint:
`models.py` is not under `src/`; §4.1 step 2 says a shop-name collision
with a different owner is the occupancy error (the failed insert commits
nothing), and the new shop's `is_open` default is taken as open. -/
def getOrCreateShop (db : DB) (uid : Nat) (n em : String) (ship : Int) :
    Except String (DB × Nat × Bool) :=
  match db.shops.find? (fun s => s.owner_id == uid) with
  | some s => .ok (db, s.id, false)
  | none =>
    if db.shops.any (fun s => s.name == n) then .error n
    else
      .ok ({ db with
              shops := db.shops ++ [⟨db.next_id, uid, n, em, ship, true⟩],
              next_id := db.next_id + 1 }, db.next_id, true)

/-- The bulk-create commit branch of `import_products`: create every
validated listing in order; a constraint failure stops the loop with the
store as mutated so far. -/
def createAll (db : DB) (sid : Nat) :
    List ValidatedProductInfo → DB × Option ImportResult
  | [] => (db, none)
  | v :: vs =>
    match create_product_info db sid v with
    | .ok db1 => createAll db1 sid vs
    | .conflict db1 e => (db1, some (.conflictError e))
    | .integrity db1 e => (db1, some (.integrityError e))

/-- The re-import commit branch of `import_products`: upsert every
validated listing in order; a constraint failure stops the loop with the
store as mutated so far. -/
def upsertAll (db : DB) (sid : Nat) :
    List ValidatedProductInfo → DB × Option ImportResult
  | [] => (db, none)
  | v :: vs =>
    match update_or_create db sid v with
    | .ok db1 => upsertAll db1 sid vs
    | .conflict db1 e => (db1, some (.conflictError e))
    | .integrity db1 e => (db1, some (.integrityError e))

/-- The celery task `import_products(user_id, user_email, json_data)`:
parse the payload, resolve-or-create the owner's shop (email defaulting to
the owner's email, shipping price to 300), build and validate every
listing payload, then commit: bulk-create into a fresh or empty catalog,
otherwise zero out the quantity of every existing listing absent from this
run and upsert every present one. -/
def run_import_products (db : DB) (uid : Nat) (user_email : String)
    (p : CatalogPayload) : DB × ImportResult :=
  match parsePayload p with
  | .error e => (db, e)
  | .ok pp =>
    let shop_email := p.email.getD user_email
    let ship := p.shipping_price.getD 300
    match getOrCreateShop db uid pp.shop_name shop_email ship with
    | .error n => (db, .nameOccupied n)
    | .ok (db1, sid, created) =>
      match buildAll pp.cats pp.goods with
      | .error e => (db1, e)
      | .ok vs =>
        if created || !(db1.product_infos.any (fun r => r.shop_id == sid)) then
          match createAll db1 sid vs with
          | (db2, some e) => (db2, e)
          | (db2, none) => (db2, .ok sid)
        else
          let keep := vs.map (fun v => v.external_id)
          let db2 : DB :=
            { db1 with
                product_infos :=
                  db1.product_infos.map
                    (fun r =>
                      if r.shop_id == sid && !(keep.contains r.external_id) then
                        { r with quantity := 0 }
                      else r) }
          match upsertAll db2 sid vs with
          | (db3, some e) => (db3, e)
          | (db3, none) => (db3, .ok sid)

/-- The buyer's current basket (`user.basket_object`).  Modelled from the
spec: the `User` model is not under `src/`; per §4.2/§4.3 and the
glossary, the basket is the user's single `BuyerOrder` in `basket`
state. -/
def basketObject (db : DB) (uid : Nat) : Option BuyerOrderRow :=
  db.buyer_orders.find?
    (fun b => b.user_id == uid && b.state == BuyerOrderState.basket)

/-- Result of `BasketView.post`: the persisted basket tree (identified by
the basket id) or the serializer validation failure. -/
inductive BasketPostResult where
  | ok (basket_id : Nat)
  | invalidItems
  deriving DecidableEq, Repr

/-- `SellerOrder.objects.get_or_create(buyer_order=..., shop=...,
state=basket, defaults={'shipping_price': shop.base_shipping_price})`. -/
def getOrCreateSellerOrder (db : DB) (bid : Nat) (s : ShopRow) : DB × Nat :=
  match db.seller_orders.find?
      (fun so => so.buyer_order_id == bid && so.shop_id == s.id &&
        so.state == SellerOrderState.basket) with
  | some so => (db, so.id)
  | none =>
    ({ db with
        seller_orders :=
          db.seller_orders ++
            [⟨db.next_id, bid, s.id, SellerOrderState.basket,
              s.base_shipping_price, none, none⟩],
        next_id := db.next_id + 1 }, db.next_id)

/-- `SellerOrderItem.objects.update_or_create(order=..., product_info=...,
defaults={'quantity', 'purchase_price', 'purchase_price_rrc'})`: the
defaults — including the price snapshot — are (re)written whether the line
item is found or created. -/
def upsertOrderItem (db : DB) (oid pid : Nat) (q pr prr : Int) : DB :=
  match db.ordered_items.find?
      (fun it => it.order_id == oid && it.product_info_id == pid) with
  | some it =>
    { db with
        ordered_items :=
          db.ordered_items.map
            (fun x =>
              if x.id == it.id then
                { x with quantity := q, purchase_price := pr,
                         purchase_price_rrc := prr }
              else x) }
  | none =>
    ({ db with
        ordered_items := db.ordered_items ++ [⟨db.next_id, oid, pid, q, pr, prr⟩],
        next_id := db.next_id + 1 })

/-- `BasketView.post(items)` for one buyer: create the basket-state
`BuyerOrder` first if absent, then validate the request items (each
`product_info` must be an existing listing id — a `PrimaryKeyRelatedField`
— and each quantity at least 1); on failure the 400 response leaves the
just-created basket behind.  On success, group the requested listings by
owning shop restricted to open shops, get-or-create one basket-state
`SellerOrder` per shop, and upsert one line item per listing, snapshotting
the listing's current price/price_rrc.  Duplicate item ids collapse to the
last occurrence (`validated_ordered_items` is a dict); the shop queryset's
join duplicates are dropped since the repeated pass rewrites identical
values. -/
def basket_post (db : DB) (uid : Nat) (items : List (Nat × Int)) :
    DB × BasketPostResult :=
  let st : DB × Nat :=
    match basketObject db uid with
    | some b => (db, b.id)
    | none =>
      ({ db with
          buyer_orders :=
            db.buyer_orders ++
              [⟨db.next_id, uid, BuyerOrderState.basket, none, none⟩],
          next_id := db.next_id + 1 }, db.next_id)
  let db1 := st.1
  let bid := st.2
  if items.all
      (fun it => db1.product_infos.any (fun r => r.id == it.1) && 1 ≤ it.2) then
    let pids := items.map (fun it => it.1)
    let qtyOf : Nat → Int := fun pid =>
      (Option.map (fun it => it.2) (items.reverse.find? (fun it => it.1 == pid))).getD 0
    let shops :=
      db1.shops.filter
        (fun s => s.is_open &&
          db1.product_infos.any (fun r => r.shop_id == s.id && pids.contains r.id))
    let db2 :=
      shops.foldl
        (fun acc s =>
          let o := getOrCreateSellerOrder acc bid s
          (db1.product_infos.filter
              (fun r => r.shop_id == s.id && pids.contains r.id)).foldl
            (fun acc2 r => upsertOrderItem acc2 o.2 r.id (qtyOf r.id) r.price r.price_rrc)
            o.1)
        db1
    (db2, .ok bid)
  else (db1, .invalidItems)

/-- Result of `OrderViewSet.create`: no basket to confirm, an invalid
contact, full acceptance (HTTP 201), or the degraded partial-acceptance
response (HTTP 206) carrying the per-item shortfall annotations as pairs
of line-item id and message. -/
inductive CheckoutResult where
  | noOrder
  | invalidContact
  | accepted (order_id : Nat)
  | degraded (order_id : Nat) (annotations : List (Nat × String))
  deriving DecidableEq, Repr

/-- The human-readable shortfall message attached to a rejected item. -/
def shortfallMsg (ordered avail : Int) : String :=
  "too many ordered. You ordered " ++ toString ordered ++
  " pcs, but only " ++ toString avail ++ " pcs in stock"

/-- All line items of a buyer order, walking its seller orders in store
order and each one's items in store order. -/
def basketItems (db : DB) (boid : Nat) : List SellerOrderItemRow :=
  (db.seller_orders.filter (fun so => so.buyer_order_id == boid)).flatMap
    (fun so => db.ordered_items.filter (fun it => it.order_id == so.id))

/-- The listing quantity seen by the checkout for a line item
(`PartnerProductInfoSerializer(ordered_item.product_info).data['quantity']`). -/
def availableQty (db : DB) (pid : Nat) : Int :=
  match db.product_infos.find? (fun r => r.id == pid) with
  | some r => r.quantity
  | none => 0

/-- The single linear checkout pass of `OrderViewSet.create`: for each line
item compute `available - requested`; a negative result flips the
acceptability flag and annotates the item; items seen while the flag still
holds have their post-decrement quantity staged. -/
def checkoutScan (db : DB) :
    List SellerOrderItemRow → Bool → Bool × List (Nat × Int) × List (Nat × String)
  | [], acc => (acc, [], [])
  | it :: rest, acc =>
    let avail := availableQty db it.product_info_id
    let res := avail - it.quantity
    if res < 0 then
      let t := checkoutScan db rest false
      (t.1, t.2.1, (it.id, shortfallMsg it.quantity avail) :: t.2.2)
    else if acc then
      let t := checkoutScan db rest acc
      (t.1, (it.product_info_id, res) :: t.2.1, t.2.2)
    else checkoutScan db rest acc

/-- `OrderViewSet.create`: confirm the buyer's basket-state order against a
contact.  Fail if there is no basket; reject an unknown or deleted contact
(`validate_contact_id`).  Run the linear quantity check; if fully
acceptable, write every staged listing quantity, move every child seller
order to `new` with the contact and the confirmation date, and move the
buyer order to `accepted`; otherwise mutate nothing and return the
partial-acceptance response with the shortfall annotations. -/
def order_create (db : DB) (uid cid now : Nat) : DB × CheckoutResult :=
  match db.buyer_orders.find?
      (fun b => b.user_id == uid && b.state == BuyerOrderState.basket) with
  | none => (db, .noOrder)
  | some order =>
    if !(db.contacts.any (fun c => c.id == cid && c.user_id == uid && !c.is_deleted)) then
      (db, .invalidContact)
    else
      let its := basketItems db order.id
      let sc := checkoutScan db its true
      if sc.1 then
        let db1 : DB :=
          { db with
              product_infos :=
                db.product_infos.map
                  (fun r =>
                    match sc.2.1.reverse.find? (fun u => u.1 == r.id) with
                    | some u => { r with quantity := u.2 }
                    | none => r),
              seller_orders :=
                db.seller_orders.map
                  (fun so =>
                    if so.buyer_order_id == order.id then
                      { so with contact_id := some cid,
                                state := SellerOrderState.new,
                                created_at := some now }
                    else so),
              buyer_orders :=
                db.buyer_orders.map
                  (fun b =>
                    if b.id == order.id then
                      { b with state := BuyerOrderState.accepted,
                               created_at := some now }
                    else b) }
        (db1, .accepted order.id)
      else (db, .degraded order.id sc.2.2)

/-- Result of `BasketView.delete`: a missing or empty id parameter, a
missing basket, unknown requested ids, the whole basket deleted (empty
response), or the surviving basket tree. -/
inductive BasketDeleteResult where
  | paramError
  | noBasket
  | unknownIds (ids : List Nat)
  | emptyOk
  | ok (basket_id : Nat)
  deriving DecidableEq, Repr

/-- The listing ids referenced by a seller order's line items. -/
def orderedPids (db : DB) (so_id : Nat) : List Nat :=
  (db.ordered_items.filter (fun it => it.order_id == so_id)).map
    (fun it => it.product_info_id)

/-- Python set equality of two id collections. -/
def eqAsSets (a b : List Nat) : Bool :=
  a.all (fun x => b.contains x) && b.all (fun x => a.contains x)

/-- The per-seller-order loop of `BasketView.delete`: for each seller order
intersect its listing ids with the remaining delete set; skip on empty
intersection; mark the whole seller order when all its listing ids are
covered, else mark exactly the matching line items; consume the
intersection and stop once the delete set is exhausted.  Returns the
marked seller-order ids and line-item ids. -/
def pruneScan (db : DB) :
    List SellerOrderRow → List Nat → List Nat × List Nat
  | [], _ => ([], [])
  | so :: rest, ids =>
    let pids := orderedPids db so.id
    let inter := pids.filter (fun p => ids.contains p)
    if inter.isEmpty then pruneScan db rest ids
    else
      let ids' := ids.filter (fun i => !inter.contains i)
      let t := if ids'.isEmpty then ([], []) else pruneScan db rest ids'
      if pids.all (fun p => inter.contains p) then (so.id :: t.1, t.2)
      else
        (t.1,
         ((db.ordered_items.filter
             (fun it => it.order_id == so.id && inter.contains it.product_info_id)).map
           (fun it => it.id)) ++ t.2)

/-- `BasketView.delete` after the query-string parsing (the requested
listing ids arrive as a collection; an absent or empty collection is the
parameter error): resolve the caller's basket, reject ids not ordered
anywhere in it; if the requested set equals the full ordered set on a
basket-state basket, cascade-delete the whole `BuyerOrder`; otherwise run
the pruning loop and delete the marked seller orders (with their items,
by cascade) and line items. -/
def basket_delete (db : DB) (uid : Nat) (ids_to_del : List Nat) :
    DB × BasketDeleteResult :=
  if ids_to_del.isEmpty then (db, .paramError)
  else
    match db.buyer_orders.find?
        (fun b => b.user_id == uid && b.state == BuyerOrderState.basket) with
    | none => (db, .noBasket)
    | some basket =>
      let sos := db.seller_orders.filter (fun so => so.buyer_order_id == basket.id)
      let all_ordered := sos.flatMap (fun so => orderedPids db so.id)
      let unknown := ids_to_del.filter (fun i => !all_ordered.contains i)
      if !unknown.isEmpty then (db, .unknownIds unknown)
      else if basket.state == BuyerOrderState.basket &&
          eqAsSets ids_to_del all_ordered then
        ({ db with
            buyer_orders := db.buyer_orders.filter (fun b => b.id != basket.id),
            seller_orders :=
              db.seller_orders.filter (fun so => so.buyer_order_id != basket.id),
            ordered_items :=
              db.ordered_items.filter
                (fun it => !(sos.any (fun so => so.id == it.order_id))) },
         .emptyOk)
      else
        let t := pruneScan db sos ids_to_del
        ({ db with
            seller_orders := db.seller_orders.filter (fun so => !t.1.contains so.id),
            ordered_items :=
              db.ordered_items.filter
                (fun it => !t.1.contains it.order_id && !t.2.contains it.id) },
         .ok basket.id)

/-- The fresh-id allocator is strictly ahead of every id-valued field
stored in the catalog tables (row ids and foreign keys). -/
structure IdsBelow (db : DB) : Prop where
  shops_lt : ∀ r ∈ db.shops, r.id < db.next_id
  categories_lt : ∀ r ∈ db.categories, r.id < db.next_id
  shop_categories_lt : ∀ r ∈ db.shop_categories,
    r.id < db.next_id ∧ r.shop_id < db.next_id ∧ r.category_id < db.next_id
  products_lt : ∀ r ∈ db.products, r.id < db.next_id
  product_infos_lt : ∀ r ∈ db.product_infos,
    r.id < db.next_id ∧ r.shop_id < db.next_id ∧
    r.shop_category_id < db.next_id ∧ r.product_id < db.next_id
  parameters_lt : ∀ r ∈ db.parameters, r.id < db.next_id
  param_values_lt : ∀ r ∈ db.param_values, r.id < db.next_id
  product_parameters_lt : ∀ r ∈ db.product_parameters,
    r.id < db.next_id ∧ r.product_info_id < db.next_id ∧
    r.parameter_id < db.next_id ∧ r.value_id < db.next_id

/-- Catalog well-formedness: the fresh-id allocator is strictly ahead of
every stored id, and primary keys are unique per table — what the
relational store's sequences and primary-key constraints guarantee. -/
structure WF (db : DB) : Prop where
  below : IdsBelow db
  nd_shops : (db.shops.map ShopRow.id).Nodup
  nd_categories : (db.categories.map CategoryRow.id).Nodup
  nd_shop_categories : (db.shop_categories.map ShopCategoryRow.id).Nodup
  nd_products : (db.products.map ProductRow.id).Nodup
  nd_product_infos : (db.product_infos.map ProductInfoRow.id).Nodup
  nd_parameters : (db.parameters.map ParameterRow.id).Nodup
  nd_param_values : (db.param_values.map ValueRow.id).Nodup
  nd_product_parameters : (db.product_parameters.map ProductParameterRow.id).Nodup

/-- The listing of a shop with a given external id, as `update_or_create`
looks it up. -/
def listingFor (db : DB) (sid : Nat) (ext : Int) : Option ProductInfoRow :=
  db.product_infos.find? (fun r => r.shop_id == sid && r.external_id == ext)

/-- The shop's listing for this validated payload exists and already holds
exactly the payload's mutable fields (so the upsert is a no-write). -/
def listingMatches (db : DB) (sid : Nat) (v : ValidatedProductInfo) : Prop :=
  ∃ r, listingFor db sid v.external_id = some r ∧
    r.quantity = v.quantity ∧ r.price = v.price ∧ r.price_rrc = v.price_rrc ∧
    sortParams (paramPairsOf db r.id) = sortParams v.product_parameters

/-- Every listing of the shop whose external id is outside `keep` is
soft-delisted (quantity zero). -/
def zeroedOutside (db : DB) (sid : Nat) (keep : List Int) : Prop :=
  ∀ r ∈ db.product_infos, r.shop_id = sid → r.external_id ∉ keep → r.quantity = 0

/-- The four global pools are deduplicated by natural key. -/
structure NamesDedup (db : DB) : Prop where
  categories : db.categories.Pairwise (fun a b => a.name ≠ b.name)
  products : db.products.Pairwise (fun a b => a.name ≠ b.name)
  parameters : db.parameters.Pairwise (fun a b => a.name ≠ b.name)
  param_values : db.param_values.Pairwise (fun a b => a.value ≠ b.value)

/-- The listing references a global product row of this name. -/
def ProductRef (db : DB) (r : ProductInfoRow) (n : String) : Prop :=
  ∃ pr ∈ db.products, pr.id = r.product_id ∧ pr.name = n

/-- The listing references, through its shop category, a global category
row of this name. -/
def CategoryRef (db : DB) (r : ProductInfoRow) (n : String) : Prop :=
  ∃ sc ∈ db.shop_categories, sc.id = r.shop_category_id ∧
    ∃ c ∈ db.categories, c.id = sc.category_id ∧ c.name = n

/-- The listing carries a parameter row referencing a global parameter name
row and value row holding this pair. -/
def ParamRef (db : DB) (r : ProductInfoRow) (p : ParamPair) : Prop :=
  ∃ pp ∈ db.product_parameters, pp.product_info_id = r.id ∧
    (∃ par ∈ db.parameters, par.id = pp.parameter_id ∧ par.name = p.parameter) ∧
    (∃ vv ∈ db.param_values, vv.id = pp.value_id ∧ vv.value = p.value)

/-- The shop has a listing for this validated payload referencing global
rows for its product name, category name and every parameter pair. -/
def ShopGoodRefs (db : DB) (sid : Nat) (v : ValidatedProductInfo) : Prop :=
  ∃ r ∈ db.product_infos, r.shop_id = sid ∧ r.external_id = v.external_id ∧
    ProductRef db r v.product_name ∧ CategoryRef db r v.category_name ∧
    ∀ p ∈ v.product_parameters, ParamRef db r p

/-- What one commit-phase step over shop `sid` and run external-ids `exts`
may do to the store: it only grows the allocator and the global tables,
never touches shops, contacts or orders, retains every listing (touching
only those of this shop and run), and preserves listing matches,
reference chains and name dedup for everything outside the touched set. -/
def UpsertStep (sid : Nat) (exts : List Int) (db db' : DB) : Prop :=
  db.next_id ≤ db'.next_id ∧
  db'.shops = db.shops ∧
  db'.contacts = db.contacts ∧
  db'.buyer_orders = db.buyer_orders ∧
  db'.seller_orders = db.seller_orders ∧
  db'.ordered_items = db.ordered_items ∧
  (WF db → WF db') ∧
  (∀ r ∈ db.product_infos,
    (r.shop_id = sid ∧ r.external_id ∈ exts ∧
      ∃ r' ∈ db'.product_infos, r'.id = r.id ∧ r'.shop_id = r.shop_id ∧
        r'.external_id = r.external_id ∧ r'.product_id = r.product_id ∧
        r'.shop_category_id = r.shop_category_id) ∨
    r ∈ db'.product_infos) ∧
  (∀ r' ∈ db'.product_infos,
    (r'.shop_id = sid ∧ r'.external_id ∈ exts) ∨ r' ∈ db.product_infos) ∧
  (∀ sid' w, (sid' ≠ sid ∨ w.external_id ∉ exts) →
    listingMatches db sid' w → listingMatches db' sid' w) ∧
  (∀ sid' w, (sid' ≠ sid ∨ w.external_id ∉ exts) →
    ShopGoodRefs db sid' w → ShopGoodRefs db' sid' w) ∧
  (NamesDedup db → NamesDedup db')

/-- The error kinds of the validate phase of `import_products` — the four
error dicts named by the specification's failure contract (missing
top-level key, unknown category id, missing good field, listing
validation failure). -/
def isValidationPhaseError : ImportResult → Bool
  | .parseError _ => true
  | .categoryMatchError _ => true
  | .productParseError _ => true
  | .invalidProductInfo _ => true
  | _ => false

/-- The external ids announced by a payload's goods, in order. -/
def payloadExtIds (p : CatalogPayload) : List Int :=
  (p.goods.getD []).filterMap GoodSource.id

/-- Fixture: a well-formed good (external id 10, category 1, one colour
parameter). -/
def gBall : GoodSource :=
  ⟨some 10, some 1, some "Ball", some [⟨"color", "red"⟩], some 100, some 150, some 5⟩

/-- Fixture: the same good with a different parameter value. -/
def gBlue : GoodSource :=
  ⟨some 10, some 1, some "Ball", some [⟨"color", "blue"⟩], some 100, some 150, some 5⟩

/-- Fixture: a one-good catalog payload for shop `A`. -/
def payloadA : CatalogPayload :=
  ⟨some "A", some [⟨some 1, some "Toys"⟩], some [gBall], none, none⟩

/-- Fixture: a payload whose good references a category id missing from the
submitted category list. -/
def payloadBadCat : CatalogPayload :=
  ⟨some "A", some [], some [gBall], none, none⟩

/-- Fixture: a payload listing the same external id twice with differing
parameters. -/
def payloadDup : CatalogPayload :=
  ⟨some "A", some [⟨some 1, some "Toys"⟩], some [gBall, gBlue], none, none⟩

/-- Fixture: the store after owner 7 successfully imports `payloadA`
(shop id 1, listing id 5 with quantity 5 and price 100). -/
def dbShopA : DB := (run_import_products dbEmpty 7 "u@x" payloadA).1

/-- Fixture: `dbShopA` with a basket of buyer 20 holding one line item that
requests 9 units of listing 5 while only 5 are in stock. -/
def dbBasketShortfall : DB :=
  { dbShopA with
      contacts := [⟨30, 20, false⟩],
      buyer_orders := [⟨9, 20, BuyerOrderState.basket, none, none⟩],
      seller_orders := [⟨10, 9, 1, SellerOrderState.basket, 300, none, none⟩],
      ordered_items := [⟨11, 10, 5, 9, 100, 150⟩],
      next_id := 31 }

/-- Fixture: a basket of buyer 20 spanning two shops — seller order 10
(shop 1, line item 11 for listing 5) and seller order 12 (shop 2, line
item 13 for listing 6). -/
def dbTwoShopBasket : DB :=
  { dbEmpty with
      shops := [⟨1, 7, "A", "a@x", 300, true⟩, ⟨2, 8, "B", "b@x", 250, true⟩],
      categories := [⟨3, "Toys"⟩],
      shop_categories := [⟨4, 1, 3, 1⟩, ⟨40, 2, 3, 1⟩],
      products := [⟨41, "Ball"⟩],
      product_infos :=
        [⟨5, 1, 4, 41, 10, 5, 100, 150⟩, ⟨6, 2, 40, 41, 11, 5, 90, 120⟩],
      buyer_orders := [⟨9, 20, BuyerOrderState.basket, none, none⟩],
      seller_orders :=
        [⟨10, 9, 1, SellerOrderState.basket, 300, none, none⟩,
         ⟨12, 9, 2, SellerOrderState.basket, 250, none, none⟩],
      ordered_items := [⟨11, 10, 5, 1, 100, 150⟩, ⟨13, 12, 6, 2, 90, 120⟩],
      next_id := 50 }

/-- Fixture: a good with external id 7 naming product `Ball` and no
parameters. -/
def gBall7 : GoodSource :=
  ⟨some 7, some 1, some "Ball", some [], some 100, some 150, some 5⟩

/-- Fixture: the same external id naming product `Chair`. -/
def gChair7 : GoodSource :=
  ⟨some 7, some 1, some "Chair", some [], some 100, some 150, some 5⟩

/-- Fixture: first shop's payload referencing product `Ball`. -/
def payloadS1Ball : CatalogPayload :=
  ⟨some "S1", some [⟨some 1, some "Toys"⟩], some [gBall7], none, none⟩

/-- Fixture: second shop's payload referencing product `Chair` under the
same external id. -/
def payloadS2Chair : CatalogPayload :=
  ⟨some "S2", some [⟨some 1, some "Toys"⟩], some [gChair7], none, none⟩

/-- Fixture: second shop's re-import payload renaming its good to `Ball`. -/
def payloadS2Ball : CatalogPayload :=
  ⟨some "S2", some [⟨some 1, some "Toys"⟩], some [gBall7], none, none⟩

/-- Fixture: owner 1 imported `Ball`, then owner 2 imported `Chair` (both
external id 7 in their own shops). -/
def dbTwoShops : DB :=
  (run_import_products
    (run_import_products dbEmpty 1 "a@x" payloadS1Ball).1 2 "b@x" payloadS2Chair).1

/-- What a successful `import_products` run guarantees, relating the input
store to the output store. -/
structure RunPost (db db' : DB) (uid : Nat) (uem : String)
    (p : CatalogPayload) (sid : Nat) : Prop where
  wf : WF db'
  sid_lt : sid < db'.next_id
  shop_find : ∃ s, db'.shops.find? (fun s => s.owner_id == uid) = some s ∧
    s.id = sid
  contacts_eq : db'.contacts = db.contacts
  buyer_orders_eq : db'.buyer_orders = db.buyer_orders
  seller_orders_eq : db'.seller_orders = db.seller_orders
  ordered_items_eq : db'.ordered_items = db.ordered_items
  shop_created : db.shops.find? (fun s => s.owner_id == uid) = none →
    ∃ name, p.shop = some name ∧ sid = db.next_id ∧
      db'.shops = db.shops ++
        [⟨sid, uid, name, p.email.getD uem, p.shipping_price.getD 300, true⟩]
  shop_kept : ∀ s0, db.shops.find? (fun s => s.owner_id == uid) = some s0 →
    db'.shops = db.shops ∧ sid = s0.id
  listings : ∃ pp vs, parsePayload p = .ok pp ∧
    buildAll pp.cats pp.goods = .ok vs ∧
    vs.map (fun v => v.external_id) = payloadExtIds p ∧
    (∀ v ∈ vs, listingMatches db' sid v) ∧
    (∀ v ∈ vs, listingFor db sid v.external_id = none → ShopGoodRefs db' sid v)
  zeroed : zeroedOutside db' sid (payloadExtIds p)
  retained : ∀ r ∈ db.product_infos, ∃ r' ∈ db'.product_infos,
    r'.id = r.id ∧ r'.shop_id = r.shop_id ∧ r'.external_id = r.external_id
  refs_preserved : ∀ sid' w, sid' ≠ sid →
    ShopGoodRefs db sid' w → ShopGoodRefs db' sid' w
  dedup : NamesDedup db → NamesDedup db'

/-- Fixture: a second good (external id 11, no parameters). -/
def gCar : GoodSource :=
  ⟨some 11, some 1, some "Car", some [], some 200, some 250, some 3⟩

/-- Fixture: a re-import payload for shop `A` listing only `gCar`, so the
earlier `gBall` listing is absent from the run. -/
def payloadB : CatalogPayload :=
  ⟨some "A", some [⟨some 1, some "Toys"⟩], some [gCar], none, none⟩

/-- Fixture: a good whose built listing fails the shared field checks
(negative price). -/
def gNegPrice : GoodSource :=
  ⟨some 12, some 1, some "X", some [], some (-5), some 1, some 1⟩

/-- Fixture: the validated payload of `gBall` — its external id 10 is
already taken in shop 1 of `dbShopA`. -/
def vTaken : ValidatedProductInfo :=
  ⟨10, 1, "Toys", "Ball", [⟨"color", "red"⟩], 100, 150, 5⟩

/-- Fixture: the store after buyer 20 put 2 units of listing 5 in the
basket. -/
def dbBasketA : DB := (basket_post dbShopA 20 [(5, 2)]).1

/-- Fixture: `dbBasketA` with listing 5's price raised from 100 to 120
after the item was already in the basket. -/
def dbPriceBump : DB :=
  { dbBasketA with
      product_infos :=
        dbBasketA.product_infos.map
          (fun r => if r.id == 5 then { r with price := 120 } else r) }

/-- Fixture: shop `A` closed (`is_open = false`). -/
def dbShopClosed : DB :=
  { dbShopA with shops := [⟨1, 7, "A", "u@x", 300, false⟩] }

/-- A seller order fully covered by a delete request: its listing-id set is
nonempty-intersected and wholly contained in the requested ids (the
pruner's whole-order deletion condition, stated against the original
request). -/
def fullCover (db : DB) (ids : List Nat) (so : SellerOrderRow) : Bool :=
  !((orderedPids db so.id).filter (fun p => ids.contains p)).isEmpty &&
  (orderedPids db so.id).all (fun p => ids.contains p)

/-- A seller order partially covered by a delete request: some but not all
of its listing ids are requested. -/
def partCover (db : DB) (ids : List Nat) (so : SellerOrderRow) : Bool :=
  !((orderedPids db so.id).filter (fun p => ids.contains p)).isEmpty &&
  !((orderedPids db so.id).all (fun p => ids.contains p))

/-- Looking a row up by key finds exactly the member when keys are unique. -/
theorem find?_key_of_mem {α : Type} (key : α → Nat) {l : List α}
    (hnd : (l.map key).Nodup) {r : α} (hr : r ∈ l) :
    l.find? (fun x => key x == key r) = some r := by
  induction l with
  | nil => cases hr
  | cons a l ih =>
    simp only [List.map_cons, List.nodup_cons] at hnd
    rcases List.mem_cons.mp hr with h | h
    · subst h
      exact List.find?_cons_of_pos _ (by simp)
    · have hne : key a ≠ key r := by
        intro he
        exact hnd.1 (he ▸ List.mem_map_of_mem key h)
      rw [List.find?_cons_of_neg _ (by simp [hne])]
      exact ih hnd.2 h

/-- A successful lookup is unaffected by rows appended behind it. -/
theorem find?_append_some {α : Type} {p : α → Bool} {l l' : List α} {r : α}
    (h : l.find? p = some r) : (l ++ l').find? p = some r := by
  rw [List.find?_append, h]; rfl

/-- A failed lookup falls through to the appended rows. -/
theorem find?_append_none {α : Type} {p : α → Bool} {l l' : List α}
    (h : l.find? p = none) : (l ++ l').find? p = l'.find? p := by
  rw [List.find?_append, h]; rfl


/-- `getOrCreateParameter` leaves every other table alone, only appends
fresh-id rows to the parameter pool, returns an id resolving to the
requested name, and preserves well-formedness and name dedup. -/
theorem getOrCreateParameter_spec {db db' : DB} {n : String} {i : Nat}
    (h : getOrCreateParameter db n = (db', i)) :
    db'.shops = db.shops ∧ db'.categories = db.categories ∧
    db'.shop_categories = db.shop_categories ∧ db'.products = db.products ∧
    db'.product_infos = db.product_infos ∧ db'.param_values = db.param_values ∧
    db'.product_parameters = db.product_parameters ∧
    db'.contacts = db.contacts ∧ db'.buyer_orders = db.buyer_orders ∧
    db'.seller_orders = db.seller_orders ∧ db'.ordered_items = db.ordered_items ∧
    db.next_id ≤ db'.next_id ∧
    (∃ l, db'.parameters = db.parameters ++ l ∧ ∀ r ∈ l, db.next_id ≤ r.id) ∧
    (WF db → WF db' ∧ i < db'.next_id ∧
      db'.parameters.find? (fun x => x.id == i) = some ⟨i, n⟩) ∧
    (NamesDedup db → NamesDedup db') := by
  cases hf : db.parameters.find? (fun p => p.name == n) with
  | some c =>
    simp only [getOrCreateParameter, hf, Prod.mk.injEq] at h
    obtain ⟨rfl, rfl⟩ := h
    have hcm := List.mem_of_find?_eq_some hf
    have hcn : c.name = n := by
      have := List.find?_some hf; simpa using this
    refine ⟨rfl, rfl, rfl, rfl, rfl, rfl, rfl, rfl, rfl, rfl, rfl, le_refl _,
      ⟨[], by simp, by simp⟩, ?_, fun hd => hd⟩
    intro hwf
    refine ⟨hwf, hwf.below.parameters_lt c hcm, ?_⟩
    have hfind := find?_key_of_mem ParameterRow.id hwf.nd_parameters hcm
    have hc : (⟨c.id, n⟩ : ParameterRow) = c := by
      cases c; simp_all
    rw [hc]
    exact hfind
  | none =>
    simp only [getOrCreateParameter, hf, Prod.mk.injEq] at h
    obtain ⟨rfl, rfl⟩ := h
    have hnot : ∀ r ∈ db.parameters, ¬(r.name = n) := by
      intro r hr he
      have := List.find?_eq_none.mp hf r hr
      simp [he] at this
    refine ⟨rfl, rfl, rfl, rfl, rfl, rfl, rfl, rfl, rfl, rfl, rfl,
      by simp, ⟨[⟨db.next_id, n⟩], rfl, by simp⟩, ?_, ?_⟩
    · intro hwf
      have hib := hwf.below
      refine ⟨⟨⟨?_, ?_, ?_, ?_, ?_, ?_, ?_, ?_⟩, ?_, ?_, ?_, ?_, ?_, ?_, ?_, ?_⟩, ?_, ?_⟩
      · exact fun r hr => Nat.lt_succ_of_lt (hib.shops_lt r hr)
      · exact fun r hr => Nat.lt_succ_of_lt (hib.categories_lt r hr)
      · exact fun r hr => by have := hib.shop_categories_lt r hr; dsimp only; omega
      · exact fun r hr => Nat.lt_succ_of_lt (hib.products_lt r hr)
      · exact fun r hr => by have := hib.product_infos_lt r hr; dsimp only; omega
      · intro r hr
        rcases List.mem_append.mp hr with hr | hr
        · exact Nat.lt_succ_of_lt (hib.parameters_lt r hr)
        · simp at hr; subst hr; simp
      · exact fun r hr => Nat.lt_succ_of_lt (hib.param_values_lt r hr)
      · exact fun r hr => by have := hib.product_parameters_lt r hr; dsimp only; omega
      · exact hwf.nd_shops
      · exact hwf.nd_categories
      · exact hwf.nd_shop_categories
      · exact hwf.nd_products
      · exact hwf.nd_product_infos
      · show ((db.parameters ++ [(⟨db.next_id, n⟩ : ParameterRow)]).map ParameterRow.id).Nodup
        rw [List.map_append, List.nodup_append]
        refine ⟨hwf.nd_parameters, by simp, ?_⟩
        intro a ha
        obtain ⟨r, hr, hra⟩ := List.mem_map.mp ha
        have := hib.parameters_lt r hr
        simp
        omega
      · exact hwf.nd_param_values
      · exact hwf.nd_product_parameters
      · show db.next_id < db.next_id + 1
        simp
      · show (db.parameters ++ [(⟨db.next_id, n⟩ : ParameterRow)]).find?
            (fun x => x.id == db.next_id) = some (⟨db.next_id, n⟩ : ParameterRow)
        have hnone : db.parameters.find? (fun x => x.id == db.next_id) = none := by
          apply List.find?_eq_none.mpr
          intro r hr
          have := hib.parameters_lt r hr
          simp
          omega
        rw [find?_append_none hnone]
        simp [List.find?]
    · intro hd
      refine ⟨hd.categories, hd.products, ?_, hd.param_values⟩
      show (db.parameters ++ [(⟨db.next_id, n⟩ : ParameterRow)]).Pairwise
        (fun a b => a.name ≠ b.name)
      rw [List.pairwise_append]
      refine ⟨hd.parameters, by simp, ?_⟩
      intro a ha b hb
      simp at hb
      subst hb
      simpa using hnot a ha

/-- `getOrCreateValue` leaves every other table alone, only appends fresh-id rows
to its pool, returns an id resolving to the requested key, and preserves
well-formedness and name dedup. -/
theorem getOrCreateValue_spec {db db' : DB} {n : String} {i : Nat}
    (h : getOrCreateValue db n = (db', i)) :
    db'.shops = db.shops ∧
    db'.categories = db.categories ∧
    db'.shop_categories = db.shop_categories ∧
    db'.products = db.products ∧
    db'.product_infos = db.product_infos ∧
    db'.parameters = db.parameters ∧
    db'.product_parameters = db.product_parameters ∧
    db'.contacts = db.contacts ∧
    db'.buyer_orders = db.buyer_orders ∧
    db'.seller_orders = db.seller_orders ∧
    db'.ordered_items = db.ordered_items ∧
    db.next_id ≤ db'.next_id ∧
    (∃ l, db'.param_values = db.param_values ++ l ∧ ∀ r ∈ l, db.next_id ≤ r.id) ∧
    (WF db → WF db' ∧ i < db'.next_id ∧
      db'.param_values.find? (fun x => x.id == i) = some ⟨i, n⟩) ∧
    (NamesDedup db → NamesDedup db') := by
  cases hf : db.param_values.find? (fun p => p.value == n) with
  | some c =>
    simp only [getOrCreateValue, hf, Prod.mk.injEq] at h
    obtain ⟨rfl, rfl⟩ := h
    have hcm := List.mem_of_find?_eq_some hf
    have hcn : c.value = n := by
      have := List.find?_some hf; simpa using this
    refine ⟨rfl, rfl, rfl, rfl, rfl, rfl, rfl, rfl, rfl, rfl, rfl, le_refl _,
      ⟨[], by simp, by simp⟩, ?_, fun hd => hd⟩
    intro hwf
    refine ⟨hwf, hwf.below.param_values_lt c hcm, ?_⟩
    have hfind := find?_key_of_mem ValueRow.id hwf.nd_param_values hcm
    have hc : (⟨c.id, n⟩ : ValueRow) = c := by
      cases c; simp_all
    rw [hc]
    exact hfind
  | none =>
    simp only [getOrCreateValue, hf, Prod.mk.injEq] at h
    obtain ⟨rfl, rfl⟩ := h
    have hnot : ∀ r ∈ db.param_values, ¬(r.value = n) := by
      intro r hr he
      have := List.find?_eq_none.mp hf r hr
      simp [he] at this
    refine ⟨rfl, rfl, rfl, rfl, rfl, rfl, rfl, rfl, rfl, rfl, rfl,
      by simp, ⟨[⟨db.next_id, n⟩], rfl, by simp⟩, ?_, ?_⟩
    · intro hwf
      have hib := hwf.below
      refine ⟨⟨⟨?_, ?_, ?_, ?_, ?_, ?_, ?_, ?_⟩, ?_, ?_, ?_, ?_, ?_, ?_, ?_, ?_⟩, ?_, ?_⟩
      · exact fun r hr => Nat.lt_succ_of_lt (hib.shops_lt r hr)
      · exact fun r hr => Nat.lt_succ_of_lt (hib.categories_lt r hr)
      · exact fun r hr => by have := hib.shop_categories_lt r hr; dsimp only; omega
      · exact fun r hr => Nat.lt_succ_of_lt (hib.products_lt r hr)
      · exact fun r hr => by have := hib.product_infos_lt r hr; dsimp only; omega
      · exact fun r hr => Nat.lt_succ_of_lt (hib.parameters_lt r hr)
      · intro r hr
        rcases List.mem_append.mp hr with hr | hr
        · exact Nat.lt_succ_of_lt (hib.param_values_lt r hr)
        · simp at hr; subst hr; simp
      · exact fun r hr => by have := hib.product_parameters_lt r hr; dsimp only; omega
      · exact hwf.nd_shops
      · exact hwf.nd_categories
      · exact hwf.nd_shop_categories
      · exact hwf.nd_products
      · exact hwf.nd_product_infos
      · exact hwf.nd_parameters
      · show ((db.param_values ++ [(⟨db.next_id, n⟩ : ValueRow)]).map ValueRow.id).Nodup
        rw [List.map_append, List.nodup_append]
        refine ⟨hwf.nd_param_values, by simp, ?_⟩
        intro a ha
        obtain ⟨r, hr, hra⟩ := List.mem_map.mp ha
        have := hib.param_values_lt r hr
        simp
        omega
      · exact hwf.nd_product_parameters
      · show db.next_id < db.next_id + 1
        simp
      · show (db.param_values ++ [(⟨db.next_id, n⟩ : ValueRow)]).find?
            (fun x => x.id == db.next_id) = some (⟨db.next_id, n⟩ : ValueRow)
        have hnone : db.param_values.find? (fun x => x.id == db.next_id) = none := by
          apply List.find?_eq_none.mpr
          intro r hr
          have := hib.param_values_lt r hr
          simp
          omega
        rw [find?_append_none hnone]
        simp [List.find?]
    · intro hd
      refine ⟨hd.categories, hd.products, hd.parameters, ?_⟩
      show (db.param_values ++ [(⟨db.next_id, n⟩ : ValueRow)]).Pairwise
        (fun a b => a.value ≠ b.value)
      rw [List.pairwise_append]
      refine ⟨hd.param_values, by simp, ?_⟩
      intro a ha b hb
      simp at hb
      subst hb
      simpa using hnot a ha


/-- `getOrCreateCategory` leaves every other table alone, only appends fresh-id rows
to its pool, returns an id resolving to the requested key, and preserves
well-formedness and name dedup. -/
theorem getOrCreateCategory_spec {db db' : DB} {n : String} {i : Nat}
    (h : getOrCreateCategory db n = (db', i)) :
    db'.shops = db.shops ∧
    db'.shop_categories = db.shop_categories ∧
    db'.products = db.products ∧
    db'.product_infos = db.product_infos ∧
    db'.parameters = db.parameters ∧
    db'.param_values = db.param_values ∧
    db'.product_parameters = db.product_parameters ∧
    db'.contacts = db.contacts ∧
    db'.buyer_orders = db.buyer_orders ∧
    db'.seller_orders = db.seller_orders ∧
    db'.ordered_items = db.ordered_items ∧
    db.next_id ≤ db'.next_id ∧
    (∃ l, db'.categories = db.categories ++ l ∧ ∀ r ∈ l, db.next_id ≤ r.id) ∧
    (WF db → WF db' ∧ i < db'.next_id ∧
      db'.categories.find? (fun x => x.id == i) = some ⟨i, n⟩) ∧
    (NamesDedup db → NamesDedup db') := by
  cases hf : db.categories.find? (fun p => p.name == n) with
  | some c =>
    simp only [getOrCreateCategory, hf, Prod.mk.injEq] at h
    obtain ⟨rfl, rfl⟩ := h
    have hcm := List.mem_of_find?_eq_some hf
    have hcn : c.name = n := by
      have := List.find?_some hf; simpa using this
    refine ⟨rfl, rfl, rfl, rfl, rfl, rfl, rfl, rfl, rfl, rfl, rfl, le_refl _,
      ⟨[], by simp, by simp⟩, ?_, fun hd => hd⟩
    intro hwf
    refine ⟨hwf, hwf.below.categories_lt c hcm, ?_⟩
    have hfind := find?_key_of_mem CategoryRow.id hwf.nd_categories hcm
    have hc : (⟨c.id, n⟩ : CategoryRow) = c := by
      cases c; simp_all
    rw [hc]
    exact hfind
  | none =>
    simp only [getOrCreateCategory, hf, Prod.mk.injEq] at h
    obtain ⟨rfl, rfl⟩ := h
    have hnot : ∀ r ∈ db.categories, ¬(r.name = n) := by
      intro r hr he
      have := List.find?_eq_none.mp hf r hr
      simp [he] at this
    refine ⟨rfl, rfl, rfl, rfl, rfl, rfl, rfl, rfl, rfl, rfl, rfl,
      by simp, ⟨[⟨db.next_id, n⟩], rfl, by simp⟩, ?_, ?_⟩
    · intro hwf
      have hib := hwf.below
      refine ⟨⟨⟨?_, ?_, ?_, ?_, ?_, ?_, ?_, ?_⟩, ?_, ?_, ?_, ?_, ?_, ?_, ?_, ?_⟩, ?_, ?_⟩
      · exact fun r hr => Nat.lt_succ_of_lt (hib.shops_lt r hr)
      · intro r hr
        rcases List.mem_append.mp hr with hr | hr
        · exact Nat.lt_succ_of_lt (hib.categories_lt r hr)
        · simp at hr; subst hr; simp
      · exact fun r hr => by have := hib.shop_categories_lt r hr; dsimp only; omega
      · exact fun r hr => Nat.lt_succ_of_lt (hib.products_lt r hr)
      · exact fun r hr => by have := hib.product_infos_lt r hr; dsimp only; omega
      · exact fun r hr => Nat.lt_succ_of_lt (hib.parameters_lt r hr)
      · exact fun r hr => Nat.lt_succ_of_lt (hib.param_values_lt r hr)
      · exact fun r hr => by have := hib.product_parameters_lt r hr; dsimp only; omega
      · exact hwf.nd_shops
      · show ((db.categories ++ [(⟨db.next_id, n⟩ : CategoryRow)]).map CategoryRow.id).Nodup
        rw [List.map_append, List.nodup_append]
        refine ⟨hwf.nd_categories, by simp, ?_⟩
        intro a ha
        obtain ⟨r, hr, hra⟩ := List.mem_map.mp ha
        have := hib.categories_lt r hr
        simp
        omega
      · exact hwf.nd_shop_categories
      · exact hwf.nd_products
      · exact hwf.nd_product_infos
      · exact hwf.nd_parameters
      · exact hwf.nd_param_values
      · exact hwf.nd_product_parameters
      · show db.next_id < db.next_id + 1
        simp
      · show (db.categories ++ [(⟨db.next_id, n⟩ : CategoryRow)]).find?
            (fun x => x.id == db.next_id) = some (⟨db.next_id, n⟩ : CategoryRow)
        have hnone : db.categories.find? (fun x => x.id == db.next_id) = none := by
          apply List.find?_eq_none.mpr
          intro r hr
          have := hib.categories_lt r hr
          simp
          omega
        rw [find?_append_none hnone]
        simp [List.find?]
    · intro hd
      refine ⟨?_, hd.products, hd.parameters, hd.param_values⟩
      show (db.categories ++ [(⟨db.next_id, n⟩ : CategoryRow)]).Pairwise
        (fun a b => a.name ≠ b.name)
      rw [List.pairwise_append]
      refine ⟨hd.categories, by simp, ?_⟩
      intro a ha b hb
      simp at hb
      subst hb
      simpa using hnot a ha


/-- `getOrCreateProduct` leaves every other table alone, only appends fresh-id rows
to its pool, returns an id resolving to the requested key, and preserves
well-formedness and name dedup. -/
theorem getOrCreateProduct_spec {db db' : DB} {n : String} {i : Nat}
    (h : getOrCreateProduct db n = (db', i)) :
    db'.shops = db.shops ∧
    db'.categories = db.categories ∧
    db'.shop_categories = db.shop_categories ∧
    db'.product_infos = db.product_infos ∧
    db'.parameters = db.parameters ∧
    db'.param_values = db.param_values ∧
    db'.product_parameters = db.product_parameters ∧
    db'.contacts = db.contacts ∧
    db'.buyer_orders = db.buyer_orders ∧
    db'.seller_orders = db.seller_orders ∧
    db'.ordered_items = db.ordered_items ∧
    db.next_id ≤ db'.next_id ∧
    (∃ l, db'.products = db.products ++ l ∧ ∀ r ∈ l, db.next_id ≤ r.id) ∧
    (WF db → WF db' ∧ i < db'.next_id ∧
      db'.products.find? (fun x => x.id == i) = some ⟨i, n⟩) ∧
    (NamesDedup db → NamesDedup db') := by
  cases hf : db.products.find? (fun p => p.name == n) with
  | some c =>
    simp only [getOrCreateProduct, hf, Prod.mk.injEq] at h
    obtain ⟨rfl, rfl⟩ := h
    have hcm := List.mem_of_find?_eq_some hf
    have hcn : c.name = n := by
      have := List.find?_some hf; simpa using this
    refine ⟨rfl, rfl, rfl, rfl, rfl, rfl, rfl, rfl, rfl, rfl, rfl, le_refl _,
      ⟨[], by simp, by simp⟩, ?_, fun hd => hd⟩
    intro hwf
    refine ⟨hwf, hwf.below.products_lt c hcm, ?_⟩
    have hfind := find?_key_of_mem ProductRow.id hwf.nd_products hcm
    have hc : (⟨c.id, n⟩ : ProductRow) = c := by
      cases c; simp_all
    rw [hc]
    exact hfind
  | none =>
    simp only [getOrCreateProduct, hf, Prod.mk.injEq] at h
    obtain ⟨rfl, rfl⟩ := h
    have hnot : ∀ r ∈ db.products, ¬(r.name = n) := by
      intro r hr he
      have := List.find?_eq_none.mp hf r hr
      simp [he] at this
    refine ⟨rfl, rfl, rfl, rfl, rfl, rfl, rfl, rfl, rfl, rfl, rfl,
      by simp, ⟨[⟨db.next_id, n⟩], rfl, by simp⟩, ?_, ?_⟩
    · intro hwf
      have hib := hwf.below
      refine ⟨⟨⟨?_, ?_, ?_, ?_, ?_, ?_, ?_, ?_⟩, ?_, ?_, ?_, ?_, ?_, ?_, ?_, ?_⟩, ?_, ?_⟩
      · exact fun r hr => Nat.lt_succ_of_lt (hib.shops_lt r hr)
      · exact fun r hr => Nat.lt_succ_of_lt (hib.categories_lt r hr)
      · exact fun r hr => by have := hib.shop_categories_lt r hr; dsimp only; omega
      · intro r hr
        rcases List.mem_append.mp hr with hr | hr
        · exact Nat.lt_succ_of_lt (hib.products_lt r hr)
        · simp at hr; subst hr; simp
      · exact fun r hr => by have := hib.product_infos_lt r hr; dsimp only; omega
      · exact fun r hr => Nat.lt_succ_of_lt (hib.parameters_lt r hr)
      · exact fun r hr => Nat.lt_succ_of_lt (hib.param_values_lt r hr)
      · exact fun r hr => by have := hib.product_parameters_lt r hr; dsimp only; omega
      · exact hwf.nd_shops
      · exact hwf.nd_categories
      · exact hwf.nd_shop_categories
      · show ((db.products ++ [(⟨db.next_id, n⟩ : ProductRow)]).map ProductRow.id).Nodup
        rw [List.map_append, List.nodup_append]
        refine ⟨hwf.nd_products, by simp, ?_⟩
        intro a ha
        obtain ⟨r, hr, hra⟩ := List.mem_map.mp ha
        have := hib.products_lt r hr
        simp
        omega
      · exact hwf.nd_product_infos
      · exact hwf.nd_parameters
      · exact hwf.nd_param_values
      · exact hwf.nd_product_parameters
      · show db.next_id < db.next_id + 1
        simp
      · show (db.products ++ [(⟨db.next_id, n⟩ : ProductRow)]).find?
            (fun x => x.id == db.next_id) = some (⟨db.next_id, n⟩ : ProductRow)
        have hnone : db.products.find? (fun x => x.id == db.next_id) = none := by
          apply List.find?_eq_none.mpr
          intro r hr
          have := hib.products_lt r hr
          simp
          omega
        rw [find?_append_none hnone]
        simp [List.find?]
    · intro hd
      refine ⟨hd.categories, ?_, hd.parameters, hd.param_values⟩
      show (db.products ++ [(⟨db.next_id, n⟩ : ProductRow)]).Pairwise
        (fun a b => a.name ≠ b.name)
      rw [List.pairwise_append]
      refine ⟨hd.products, by simp, ?_⟩
      intro a ha b hb
      simp at hb
      subst hb
      simpa using hnot a ha

/-- `getOrCreateShopCategory` (success case) leaves every other table
alone, only appends a fresh-id alias row for this shop, and returns an id
resolving to a row joining the shop and the category. -/
theorem getOrCreateShopCategory_spec {db db' : DB} {sid cat_id : Nat}
    {ext : Int} {i : Nat}
    (h : getOrCreateShopCategory db sid cat_id ext = .ok (db', i))
    (hsid : sid < db.next_id) (hcat : cat_id < db.next_id) :
    db'.shops = db.shops ∧ db'.categories = db.categories ∧
    db'.products = db.products ∧ db'.product_infos = db.product_infos ∧
    db'.parameters = db.parameters ∧ db'.param_values = db.param_values ∧
    db'.product_parameters = db.product_parameters ∧
    db'.contacts = db.contacts ∧ db'.buyer_orders = db.buyer_orders ∧
    db'.seller_orders = db.seller_orders ∧ db'.ordered_items = db.ordered_items ∧
    db.next_id ≤ db'.next_id ∧
    (∃ l, db'.shop_categories = db.shop_categories ++ l ∧
      ∀ r ∈ l, db.next_id ≤ r.id ∧ r.shop_id = sid) ∧
    (∃ sc ∈ db'.shop_categories, sc.id = i ∧ sc.shop_id = sid ∧
      sc.category_id = cat_id) ∧
    (WF db → WF db' ∧ i < db'.next_id) ∧
    (NamesDedup db → NamesDedup db') := by
  cases hf : db.shop_categories.find?
      (fun sc => sc.shop_id == sid && sc.category_id == cat_id) with
  | some c =>
    simp only [getOrCreateShopCategory, hf, Except.ok.injEq, Prod.mk.injEq] at h
    obtain ⟨rfl, rfl⟩ := h
    have hcm := List.mem_of_find?_eq_some hf
    have hcp := List.find?_some hf
    simp at hcp
    refine ⟨rfl, rfl, rfl, rfl, rfl, rfl, rfl, rfl, rfl, rfl, rfl, le_refl _,
      ⟨[], by simp, by simp⟩, ⟨c, hcm, rfl, hcp.1, hcp.2⟩, ?_, fun hd => hd⟩
    intro hwf
    exact ⟨hwf, (hwf.below.shop_categories_lt c hcm).1⟩
  | none =>
    by_cases hocc : db.shop_categories.any
        (fun sc => sc.shop_id == sid && sc.external_id == ext)
    · simp only [getOrCreateShopCategory, hf, hocc, if_true] at h
      cases h
    · simp only [getOrCreateShopCategory, hf, hocc, if_false, Except.ok.injEq,
        Prod.mk.injEq] at h
      obtain ⟨rfl, rfl⟩ := h
      refine ⟨rfl, rfl, rfl, rfl, rfl, rfl, rfl, rfl, rfl, rfl, rfl,
        by simp, ⟨[⟨db.next_id, sid, cat_id, ext⟩], rfl, by simp⟩,
        ⟨⟨db.next_id, sid, cat_id, ext⟩, by simp, rfl, rfl, rfl⟩, ?_, ?_⟩
      · intro hwf
        have hib := hwf.below
        refine ⟨⟨⟨?_, ?_, ?_, ?_, ?_, ?_, ?_, ?_⟩, ?_, ?_, ?_, ?_, ?_, ?_, ?_, ?_⟩, ?_⟩
        · exact fun r hr => Nat.lt_succ_of_lt (hib.shops_lt r hr)
        · exact fun r hr => Nat.lt_succ_of_lt (hib.categories_lt r hr)
        · intro r hr
          rcases List.mem_append.mp hr with hr | hr
          · have := hib.shop_categories_lt r hr; dsimp only; omega
          · simp at hr; subst hr; dsimp only; omega
        · exact fun r hr => Nat.lt_succ_of_lt (hib.products_lt r hr)
        · exact fun r hr => by have := hib.product_infos_lt r hr; dsimp only; omega
        · exact fun r hr => Nat.lt_succ_of_lt (hib.parameters_lt r hr)
        · exact fun r hr => Nat.lt_succ_of_lt (hib.param_values_lt r hr)
        · exact fun r hr => by have := hib.product_parameters_lt r hr; dsimp only; omega
        · exact hwf.nd_shops
        · exact hwf.nd_categories
        · show ((db.shop_categories ++ [(⟨db.next_id, sid, cat_id, ext⟩ : ShopCategoryRow)]).map
              ShopCategoryRow.id).Nodup
          rw [List.map_append, List.nodup_append]
          refine ⟨hwf.nd_shop_categories, by simp, ?_⟩
          intro a ha
          obtain ⟨r, hr, hra⟩ := List.mem_map.mp ha
          have := (hib.shop_categories_lt r hr).1
          simp
          omega
        · exact hwf.nd_products
        · exact hwf.nd_product_infos
        · exact hwf.nd_parameters
        · exact hwf.nd_param_values
        · exact hwf.nd_product_parameters
        · show db.next_id < db.next_id + 1
          simp
      · intro hd
        exact ⟨hd.categories, hd.products, hd.parameters, hd.param_values⟩

/-- Looking a row up by an id below a bound is unaffected by rows whose ids
sit at or above the bound. -/
theorem find?_id_stable {α : Type} (key : α → Nat) {l l2 : List α} {j bound : Nat}
    (hj : j < bound) (hl2 : ∀ r ∈ l2, bound ≤ key r) :
    (l ++ l2).find? (fun x => key x == j) = l.find? (fun x => key x == j) := by
  rw [List.find?_append]
  cases hf : l.find? (fun x => key x == j) with
  | some c => rfl
  | none =>
    show (l2.find? fun x => key x == j) = none
    apply List.find?_eq_none.mpr
    intro r hr
    have := hl2 r hr
    simp
    omega

/-- `add_parameters` leaves the non-pool tables alone, only appends
fresh rows to the parameter/value pools and to this listing's parameter
join rows, renders this listing's parameter pairs as the old ones followed
by the added ones, leaves other listings' pairs alone, and preserves
well-formedness and name dedup. -/
theorem add_parameters_spec :
    ∀ {ps : List ParamPair} {db : DB} {pid : Nat}, pid < db.next_id →
    (add_parameters db pid ps).shops = db.shops ∧
    (add_parameters db pid ps).categories = db.categories ∧
    (add_parameters db pid ps).shop_categories = db.shop_categories ∧
    (add_parameters db pid ps).products = db.products ∧
    (add_parameters db pid ps).product_infos = db.product_infos ∧
    (add_parameters db pid ps).contacts = db.contacts ∧
    (add_parameters db pid ps).buyer_orders = db.buyer_orders ∧
    (add_parameters db pid ps).seller_orders = db.seller_orders ∧
    (add_parameters db pid ps).ordered_items = db.ordered_items ∧
    db.next_id ≤ (add_parameters db pid ps).next_id ∧
    (∃ l, (add_parameters db pid ps).parameters = db.parameters ++ l ∧
      ∀ r ∈ l, db.next_id ≤ r.id) ∧
    (∃ l, (add_parameters db pid ps).param_values = db.param_values ++ l ∧
      ∀ r ∈ l, db.next_id ≤ r.id) ∧
    (∃ l, (add_parameters db pid ps).product_parameters = db.product_parameters ++ l ∧
      ∀ r ∈ l, db.next_id ≤ r.id ∧ r.product_info_id = pid) ∧
    (WF db → WF (add_parameters db pid ps) ∧
      paramPairsOf (add_parameters db pid ps) pid = paramPairsOf db pid ++ ps ∧
      (∀ q, q ≠ pid → paramPairsOf (add_parameters db pid ps) q = paramPairsOf db q) ∧
      (∀ p ∈ ps, ∃ pp ∈ (add_parameters db pid ps).product_parameters,
        pp.product_info_id = pid ∧
        (∃ par ∈ (add_parameters db pid ps).parameters,
          par.id = pp.parameter_id ∧ par.name = p.parameter) ∧
        (∃ vv ∈ (add_parameters db pid ps).param_values,
          vv.id = pp.value_id ∧ vv.value = p.value))) ∧
    (NamesDedup db → NamesDedup (add_parameters db pid ps)) := by
  intro ps
  induction ps with
  | nil =>
    intro db pid hpid
    have hnil : add_parameters db pid [] = db := rfl
    rw [hnil]
    refine ⟨rfl, rfl, rfl, rfl, rfl, rfl, rfl, rfl, rfl, le_refl _,
      ⟨[], by simp, by simp⟩, ⟨[], by simp, by simp⟩, ⟨[], by simp, by simp⟩,
      fun hwf => ⟨hwf, by simp, fun q hq => rfl, by simp⟩, fun hd => hd⟩
  | cons p ps ih =>
    intro db pid hpid
    obtain ⟨db1, par_id, h1⟩ :
        ∃ t1 t2, getOrCreateParameter db p.parameter = (t1, t2) := ⟨_, _, rfl⟩
    obtain ⟨db2, val_id, h2⟩ :
        ∃ t1 t2, getOrCreateValue db1 p.value = (t1, t2) := ⟨_, _, rfl⟩
    have s1 := getOrCreateParameter_spec h1
    have s2 := getOrCreateValue_spec h2
    obtain ⟨e1shops, e1cats, e1sc, e1prod, e1pi, e1pv, e1pp, e1c, e1bo, e1so,
      e1oi, e1n, ⟨l1, e1par, hl1⟩, w1, d1⟩ := s1
    obtain ⟨e2shops, e2cats, e2sc, e2prod, e2pi, e2par, e2pp, e2c, e2bo, e2so,
      e2oi, e2n, ⟨l2, e2pv, hl2⟩, w2, d2⟩ := s2
    set db3 : DB :=
      { db2 with
          product_parameters :=
            db2.product_parameters ++ [⟨db2.next_id, pid, par_id, val_id⟩],
          next_id := db2.next_id + 1 } with hdb3
    have hstep : add_parameters db pid (p :: ps) = add_parameters db3 pid ps := by
      simp [add_parameters, h1, h2, hdb3]
    have hpid3 : pid < db3.next_id := by
      have : db.next_id ≤ db2.next_id := le_trans e1n e2n
      simp [hdb3]
      omega
    have sih := @ih db3 pid hpid3
    obtain ⟨i1, i2, i3, i4, i5, i6, i7, i8, i9, i10, ⟨m1, i11, hm1⟩,
      ⟨m2, i12, hm2⟩, ⟨m3, i13, hm3⟩, i14, i15⟩ := sih
    rw [hstep]
    have e3pp : db3.product_parameters =
        db.product_parameters ++ [⟨db2.next_id, pid, par_id, val_id⟩] := by
      simp [hdb3, e2pp, e1pp]
    have e3par : db3.parameters = db.parameters ++ l1 := by
      simp [hdb3, e2par, e1par]
    have e3pv : db3.param_values = db.param_values ++ l2 := by
      simp [hdb3, e2pv, e1pv]
    have hl2' : ∀ r ∈ l2, db.next_id ≤ r.id := fun r hr => le_trans e1n (hl2 r hr)
    have h12n : db.next_id ≤ db2.next_id := le_trans e1n e2n
    have h3n : db.next_id ≤ db3.next_id := by simp [hdb3]; omega
    refine ⟨?_, ?_, ?_, ?_, ?_, ?_, ?_, ?_, ?_, ?_, ?_, ?_, ?_, ?_, ?_⟩
    · rw [i1]; simp [hdb3, e2shops, e1shops]
    · rw [i2]; simp [hdb3, e2cats, e1cats]
    · rw [i3]; simp [hdb3, e2sc, e1sc]
    · rw [i4]; simp [hdb3, e2prod, e1prod]
    · rw [i5]; simp [hdb3, e2pi, e1pi]
    · rw [i6]; simp [hdb3, e2c, e1c]
    · rw [i7]; simp [hdb3, e2bo, e1bo]
    · rw [i8]; simp [hdb3, e2so, e1so]
    · rw [i9]; simp [hdb3, e2oi, e1oi]
    · exact le_trans h3n i10
    · refine ⟨l1 ++ m1, ?_, ?_⟩
      · rw [i11, e3par, List.append_assoc]
      · intro r hr
        rcases List.mem_append.mp hr with hr | hr
        · exact hl1 r hr
        · exact le_trans h3n (hm1 r hr)
    · refine ⟨l2 ++ m2, ?_, ?_⟩
      · rw [i12, e3pv, List.append_assoc]
      · intro r hr
        rcases List.mem_append.mp hr with hr | hr
        · exact hl2' r hr
        · exact le_trans h3n (hm2 r hr)
    · refine ⟨⟨db2.next_id, pid, par_id, val_id⟩ :: m3, ?_, ?_⟩
      · rw [i13, e3pp, List.append_assoc]
        rfl
      · intro r hr
        rcases List.mem_cons.mp hr with hr | hr
        · subst hr
          exact ⟨h12n, rfl⟩
        · have := hm3 r hr
          exact ⟨le_trans h3n this.1, this.2⟩
    · intro hwf
      obtain ⟨hwf1, hi1, hfind1⟩ := w1 hwf
      obtain ⟨hwf2, hi2, hfind2⟩ := w2 hwf1
      have hwf3 : WF db3 := by
        have hib := hwf2.below
        refine ⟨⟨?_, ?_, ?_, ?_, ?_, ?_, ?_, ?_⟩, ?_, ?_, ?_, ?_, ?_, ?_, ?_, ?_⟩
        · exact fun r hr => Nat.lt_succ_of_lt (hib.shops_lt r hr)
        · exact fun r hr => Nat.lt_succ_of_lt (hib.categories_lt r hr)
        · exact fun r hr => by have := hib.shop_categories_lt r hr; dsimp only; omega
        · exact fun r hr => Nat.lt_succ_of_lt (hib.products_lt r hr)
        · exact fun r hr => by have := hib.product_infos_lt r hr; dsimp only; omega
        · exact fun r hr => Nat.lt_succ_of_lt (hib.parameters_lt r hr)
        · exact fun r hr => Nat.lt_succ_of_lt (hib.param_values_lt r hr)
        · intro r hr
          rcases List.mem_append.mp hr with hr | hr
          · have := hib.product_parameters_lt r hr; dsimp only; omega
          · simp at hr; subst hr
            have hb2 : pid < db2.next_id := lt_of_lt_of_le hpid h12n
            dsimp only
            omega
        · exact hwf2.nd_shops
        · exact hwf2.nd_categories
        · exact hwf2.nd_shop_categories
        · exact hwf2.nd_products
        · exact hwf2.nd_product_infos
        · exact hwf2.nd_parameters
        · exact hwf2.nd_param_values
        · show ((db2.product_parameters ++
              [(⟨db2.next_id, pid, par_id, val_id⟩ : ProductParameterRow)]).map
              ProductParameterRow.id).Nodup
          rw [List.map_append, List.nodup_append]
          refine ⟨hwf2.nd_product_parameters, by simp, ?_⟩
          intro a ha
          obtain ⟨r, hr, hra⟩ := List.mem_map.mp ha
          have := (hwf2.below.product_parameters_lt r hr).1
          simp
          omega
      obtain ⟨ihwf, ihpairs, ihq, ihrefs⟩ := i14 hwf3
      have hrender3 : paramPairsOf db3 pid = paramPairsOf db pid ++ [p] := by
        unfold paramPairsOf
        rw [e3pp, List.filter_append]
        have hnewf : List.filter
            (fun pp => pp.product_info_id == pid)
            [(⟨db2.next_id, pid, par_id, val_id⟩ : ProductParameterRow)] =
            [⟨db2.next_id, pid, par_id, val_id⟩] := by simp
        rw [hnewf, List.map_append]
        congr 1
        · apply List.map_congr_left
          intro pp hpp
          have hppm := List.mem_of_mem_filter hpp
          have hbound := hwf.below.product_parameters_lt pp hppm
          have hparstab :
              db3.parameters.find? (fun r => r.id == pp.parameter_id) =
              db.parameters.find? (fun r => r.id == pp.parameter_id) := by
            rw [e3par]
            exact find?_id_stable ParameterRow.id hbound.2.2.1 hl1
          have hvalstab :
              db3.param_values.find? (fun r => r.id == pp.value_id) =
              db.param_values.find? (fun r => r.id == pp.value_id) := by
            rw [e3pv]
            exact find?_id_stable ValueRow.id hbound.2.2.2 hl2'
          rw [hparstab, hvalstab]
        · have hfind1' :
              db3.parameters.find? (fun x => x.id == par_id) = some ⟨par_id, p.parameter⟩ := by
            have : db3.parameters = db1.parameters := by simp [hdb3, e2par]
            rw [this]; exact hfind1
          have hfind2' :
              db3.param_values.find? (fun x => x.id == val_id) = some ⟨val_id, p.value⟩ := by
            have : db3.param_values = db2.param_values := by simp [hdb3]
            rw [this]; exact hfind2
          simp [hfind1', hfind2']
      have hrender3q : ∀ q, q ≠ pid → paramPairsOf db3 q = paramPairsOf db q := by
        intro q hq
        unfold paramPairsOf
        rw [e3pp, List.filter_append]
        have hnewf : List.filter (fun pp => pp.product_info_id == q)
            [(⟨db2.next_id, pid, par_id, val_id⟩ : ProductParameterRow)] = [] := by
          simp
          omega
        rw [hnewf, List.append_nil]
        apply List.map_congr_left
        intro pp hpp
        have hppm := List.mem_of_mem_filter hpp
        have hbound := hwf.below.product_parameters_lt pp hppm
        have hparstab :
            db3.parameters.find? (fun r => r.id == pp.parameter_id) =
            db.parameters.find? (fun r => r.id == pp.parameter_id) := by
          rw [e3par]
          exact find?_id_stable ParameterRow.id hbound.2.2.1 hl1
        have hvalstab :
            db3.param_values.find? (fun r => r.id == pp.value_id) =
            db.param_values.find? (fun r => r.id == pp.value_id) := by
          rw [e3pv]
          exact find?_id_stable ValueRow.id hbound.2.2.2 hl2'
        rw [hparstab, hvalstab]
      refine ⟨ihwf, ?_, ?_, ?_⟩
      · rw [ihpairs, hrender3, List.append_assoc]
        rfl
      · intro q hq
        rw [ihq q hq, hrender3q q hq]
      · intro pr hpr
        rcases List.mem_cons.mp hpr with hpr | hpr
        · subst hpr
          have hppmem : (⟨db2.next_id, pid, par_id, val_id⟩ : ProductParameterRow) ∈
              (add_parameters db3 pid ps).product_parameters := by
            rw [i13, e3pp]
            simp
          refine ⟨⟨db2.next_id, pid, par_id, val_id⟩, hppmem, rfl, ?_, ?_⟩
          · have hfind1' :
                db3.parameters.find? (fun x => x.id == par_id) =
                some ⟨par_id, pr.parameter⟩ := by
              have : db3.parameters = db1.parameters := by simp [hdb3, e2par]
              rw [this]; exact hfind1
            have : (add_parameters db3 pid ps).parameters = db3.parameters ++ m1 := i11
            have hs : (add_parameters db3 pid ps).parameters.find?
                (fun x => x.id == par_id) = some ⟨par_id, pr.parameter⟩ := by
              rw [this]
              exact find?_append_some hfind1'
            exact ⟨⟨par_id, pr.parameter⟩, List.mem_of_find?_eq_some hs, rfl, rfl⟩
          · have hfind2' :
                db3.param_values.find? (fun x => x.id == val_id) =
                some ⟨val_id, pr.value⟩ := by
              have : db3.param_values = db2.param_values := by simp [hdb3]
              rw [this]; exact hfind2
            have hs : (add_parameters db3 pid ps).param_values.find?
                (fun x => x.id == val_id) = some ⟨val_id, pr.value⟩ := by
              rw [i12]
              exact find?_append_some hfind2'
            exact ⟨⟨val_id, pr.value⟩, List.mem_of_find?_eq_some hs, rfl, rfl⟩
        · exact ihrefs pr hpr
    · intro hd
      have hd2 := d2 (d1 hd)
      exact i15 ⟨hd2.categories, hd2.products, hd2.parameters, hd2.param_values⟩

/-- A successful `PartnerProductInfoSerializer.create` appends exactly one
listing row holding the validated fields, touches no other shop's data and
no order data, renders the new listing's parameters as the validated
pairs, leaves every previously stored listing's parameter pairs alone, and
establishes the global-row references for the new listing. -/
theorem create_product_info_spec {db db' : DB} {sid : Nat}
    {v : ValidatedProductInfo}
    (h : create_product_info db sid v = .ok db')
    (hwf : WF db) (hsid : sid < db.next_id) :
    db'.shops = db.shops ∧ db'.contacts = db.contacts ∧
    db'.buyer_orders = db.buyer_orders ∧ db'.seller_orders = db.seller_orders ∧
    db'.ordered_items = db.ordered_items ∧
    db.next_id ≤ db'.next_id ∧
    (∃ l, db'.categories = db.categories ++ l ∧ ∀ r ∈ l, db.next_id ≤ r.id) ∧
    (∃ l, db'.shop_categories = db.shop_categories ++ l ∧
      ∀ r ∈ l, db.next_id ≤ r.id ∧ r.shop_id = sid) ∧
    (∃ l, db'.products = db.products ++ l ∧ ∀ r ∈ l, db.next_id ≤ r.id) ∧
    (∃ l, db'.parameters = db.parameters ++ l ∧ ∀ r ∈ l, db.next_id ≤ r.id) ∧
    (∃ l, db'.param_values = db.param_values ++ l ∧ ∀ r ∈ l, db.next_id ≤ r.id) ∧
    (∃ l, db'.product_parameters = db.product_parameters ++ l ∧
      ∀ r ∈ l, db.next_id ≤ r.id) ∧
    WF db' ∧
    (NamesDedup db → NamesDedup db') ∧
    (∀ q, q < db.next_id → paramPairsOf db' q = paramPairsOf db q) ∧
    (∃ row, db'.product_infos = db.product_infos ++ [row] ∧
      row.shop_id = sid ∧ row.external_id = v.external_id ∧
      row.quantity = v.quantity ∧ row.price = v.price ∧
      row.price_rrc = v.price_rrc ∧ db.next_id ≤ row.id ∧
      paramPairsOf db' row.id = v.product_parameters ∧
      ProductRef db' row v.product_name ∧ CategoryRef db' row v.category_name ∧
      (∀ p ∈ v.product_parameters, ParamRef db' row p)) := by
  obtain ⟨db1, cat_id, h1⟩ :
      ∃ t1 t2, getOrCreateCategory db v.category_name = (t1, t2) := ⟨_, _, rfl⟩
  have s1 := getOrCreateCategory_spec h1
  obtain ⟨e1shops, e1sc, e1prod, e1pi, e1par, e1pv, e1pp, e1c, e1bo, e1so,
    e1oi, e1n, ⟨l1, e1cats, hl1⟩, w1, d1⟩ := s1
  obtain ⟨hwf1, hcatlt, hcatfind⟩ := w1 hwf
  cases hsc : getOrCreateShopCategory db1 sid cat_id v.category_external_id with
  | error e =>
    rw [create_product_info] at h
    rw [h1] at h
    simp only [hsc] at h
    exact CreateOutcome.noConfusion h
  | ok t =>
    obtain ⟨db2, sc_id⟩ := t
    have s2 := getOrCreateShopCategory_spec hsc
      (lt_of_lt_of_le hsid e1n) hcatlt
    obtain ⟨e2shops, e2cats, e2prod, e2pi, e2par, e2pv, e2pp, e2c, e2bo, e2so,
      e2oi, e2n, ⟨l2, e2sc, hl2⟩, ⟨scrow, hscmem, hscid, hscshop, hsccat⟩,
      w2, d2⟩ := s2
    obtain ⟨hwf2, hsclt⟩ := w2 hwf1
    obtain ⟨db3, prod_id, h3⟩ :
        ∃ t1 t2, getOrCreateProduct db2 v.product_name = (t1, t2) := ⟨_, _, rfl⟩
    have s3 := getOrCreateProduct_spec h3
    obtain ⟨e3shops, e3cats, e3sc, e3pi, e3par, e3pv, e3pp, e3c, e3bo, e3so,
      e3oi, e3n, ⟨l3, e3prod, hl3⟩, w3, d3⟩ := s3
    obtain ⟨hwf3, hprodlt, hprodfind⟩ := w3 hwf2
    by_cases hta : db3.product_infos.any
        (fun r => r.shop_id == sid && r.external_id == v.external_id)
    · rw [create_product_info] at h
      rw [h1] at h
      simp only [hsc, h3, hta, if_true] at h
      exact CreateOutcome.noConfusion h
    · rw [create_product_info] at h
      rw [h1] at h
      simp only [hsc, h3, hta, Bool.false_eq_true, if_false,
        CreateOutcome.ok.injEq] at h
      set pid := db3.next_id with hpid
      set row : ProductInfoRow :=
        ⟨pid, sid, sc_id, prod_id, v.external_id, v.quantity, v.price, v.price_rrc⟩
        with hrow
      set db4 : DB :=
        { db3 with
            product_infos := db3.product_infos ++ [row],
            next_id := db3.next_id + 1 } with hdb4
      have e12n : db.next_id ≤ db2.next_id := le_trans e1n e2n
      have e13n : db.next_id ≤ db3.next_id := le_trans e12n e3n
      have hwf4 : WF db4 := by
        have hib := hwf3.below
        refine ⟨⟨?_, ?_, ?_, ?_, ?_, ?_, ?_, ?_⟩, ?_, ?_, ?_, ?_, ?_, ?_, ?_, ?_⟩
        · exact fun r hr => Nat.lt_succ_of_lt (hib.shops_lt r hr)
        · exact fun r hr => Nat.lt_succ_of_lt (hib.categories_lt r hr)
        · exact fun r hr => by have := hib.shop_categories_lt r hr; dsimp only; omega
        · exact fun r hr => Nat.lt_succ_of_lt (hib.products_lt r hr)
        · intro r hr
          rcases List.mem_append.mp hr with hr | hr
          · have := hib.product_infos_lt r hr; dsimp only; omega
          · simp at hr; subst hr
            have hsid3 : sid < db3.next_id := lt_of_lt_of_le hsid e13n
            refine ⟨by dsimp only; omega, by dsimp only [hrow]; omega,
              by dsimp only [hrow]; omega, by dsimp only [hrow]; omega⟩
        · exact fun r hr => Nat.lt_succ_of_lt (hib.parameters_lt r hr)
        · exact fun r hr => Nat.lt_succ_of_lt (hib.param_values_lt r hr)
        · exact fun r hr => by have := hib.product_parameters_lt r hr; dsimp only; omega
        · exact hwf3.nd_shops
        · exact hwf3.nd_categories
        · exact hwf3.nd_shop_categories
        · exact hwf3.nd_products
        · show ((db3.product_infos ++ [row]).map ProductInfoRow.id).Nodup
          rw [List.map_append, List.nodup_append]
          refine ⟨hwf3.nd_product_infos, by simp, ?_⟩
          intro a ha
          obtain ⟨r, hr, hra⟩ := List.mem_map.mp ha
          have := (hwf3.below.product_infos_lt r hr).1
          simp [hrow]
          omega
        · exact hwf3.nd_parameters
        · exact hwf3.nd_param_values
        · exact hwf3.nd_product_parameters
      have hpid4 : pid < db4.next_id := by simp [hdb4]
      have sadd := @add_parameters_spec v.product_parameters db4 pid hpid4
      obtain ⟨a1, a2, a3, a4, a5, a6, a7, a8, a9, a10, ⟨m1, a11, hm1⟩,
        ⟨m2, a12, hm2⟩, ⟨m3, a13, hm3⟩, a14, a15⟩ := sadd
      obtain ⟨hwf', hpairs', hq', hrefs'⟩ := a14 hwf4
      subst h
      have e4n : db.next_id ≤ db4.next_id := by simp [hdb4]; omega
      refine ⟨?_, ?_, ?_, ?_, ?_, ?_, ?_, ?_, ?_, ?_, ?_, ?_, ?_, ?_, ?_, ?_⟩
      · rw [a1]; simp [hdb4, e3shops, e2shops, e1shops]
      · rw [a6]; simp [hdb4, e3c, e2c, e1c]
      · rw [a7]; simp [hdb4, e3bo, e2bo, e1bo]
      · rw [a8]; simp [hdb4, e3so, e2so, e1so]
      · rw [a9]; simp [hdb4, e3oi, e2oi, e1oi]
      · exact le_trans e4n a10
      · refine ⟨l1, ?_, hl1⟩
        rw [a2]
        simp [hdb4, e3cats, e2cats, e1cats]
      · refine ⟨l2, ?_, ?_⟩
        · rw [a3]
          simp [hdb4, e3sc, e2sc, e1sc]
        · intro r hr
          have := hl2 r hr
          exact ⟨le_trans e1n this.1, this.2⟩
      · refine ⟨l3, ?_, ?_⟩
        · rw [a4]
          simp [hdb4, e3prod, e2prod, e1prod]
        · intro r hr
          exact le_trans e12n (hl3 r hr)
      · refine ⟨m1, ?_, fun r hr => le_trans e4n (hm1 r hr)⟩
        rw [a11]
        simp [hdb4, e3par, e2par, e1par]
      · refine ⟨m2, ?_, fun r hr => le_trans e4n (hm2 r hr)⟩
        rw [a12]
        simp [hdb4, e3pv, e2pv, e1pv]
      · refine ⟨m3, ?_, fun r hr => le_trans e4n (hm3 r hr).1⟩
        rw [a13]
        simp [hdb4, e3pp, e2pp, e1pp]
      · exact hwf'
      · intro hd
        have hd3 := d3 (d2 (d1 hd))
        exact a15 ⟨hd3.categories, hd3.products, hd3.parameters, hd3.param_values⟩
      · intro q hq
        have hqpid : q ≠ pid := by omega
        rw [hq' q hqpid]
        unfold paramPairsOf
        have e4pp : db4.product_parameters = db.product_parameters := by
          simp [hdb4, e3pp, e2pp, e1pp]
        have e4par : db4.parameters = db.parameters := by
          simp [hdb4, e3par, e2par, e1par]
        have e4pv : db4.param_values = db.param_values := by
          simp [hdb4, e3pv, e2pv, e1pv]
        rw [e4pp, e4par, e4pv]
      · refine ⟨row, ?_, rfl, rfl, rfl, rfl, rfl, by simp [hrow]; omega, ?_, ?_, ?_, ?_⟩
        · rw [a5]
          simp [hdb4, e3pi, e2pi, e1pi]
        · have hempty : paramPairsOf db4 pid = [] := by
            unfold paramPairsOf
            have : db4.product_parameters.filter
                (fun pp => pp.product_info_id == pid) = [] := by
              apply List.filter_eq_nil_iff.mpr
              intro pp hpp
              have e4pp : db4.product_parameters = db.product_parameters := by
                simp [hdb4, e3pp, e2pp, e1pp]
              rw [e4pp] at hpp
              have := (hwf.below.product_parameters_lt pp hpp).2.1
              simp [hpid]
              omega
            rw [this]
            rfl
          have : paramPairsOf (add_parameters db4 pid v.product_parameters) pid =
              [] ++ v.product_parameters := by
            rw [hpairs', hempty]
          simpa [hrow] using this
        · show ProductRef (add_parameters db4 pid v.product_parameters) row v.product_name
          have hmem3 := List.mem_of_find?_eq_some hprodfind
          refine ⟨⟨prod_id, v.product_name⟩, ?_, rfl, rfl⟩
          rw [a4]
          show (⟨prod_id, v.product_name⟩ : ProductRow) ∈ db3.products
          exact hmem3
        · show CategoryRef (add_parameters db4 pid v.product_parameters) row v.category_name
          refine ⟨scrow, ?_, ?_, ⟨cat_id, v.category_name⟩, ?_, ?_, rfl⟩
          · rw [a3]
            show scrow ∈ db3.shop_categories
            rw [e3sc]
            exact hscmem
          · simp [hrow, hscid]
          · rw [a2]
            have hmem1 := List.mem_of_find?_eq_some hcatfind
            show (⟨cat_id, v.category_name⟩ : CategoryRow) ∈ db3.categories
            rw [e3cats, e2cats]
            exact hmem1
          · exact hsccat.symm
        · intro p hp
          obtain ⟨pp, hppmem, hpppid, hpar, hval⟩ := hrefs' p hp
          exact ⟨pp, hppmem, by simp [hrow, hpppid], hpar, hval⟩

/-- Two rows of a table with unique keys and the same key are the same row. -/
theorem eq_of_mem_key {α : Type} (key : α → Nat) {l : List α}
    (hnd : (l.map key).Nodup) {a b : α} (ha : a ∈ l) (hb : b ∈ l)
    (hk : key a = key b) : a = b := by
  have := find?_key_of_mem key hnd ha
  have hb' := find?_key_of_mem key hnd hb
  rw [hk] at this
  rw [this] at hb'
  exact (Option.some.injEq _ _).mp hb'

/-- Dropping a listing's parameter join rows keeps the store well-formed. -/
theorem WF_filter_pp {db : DB} (hwf : WF db) (g : ProductParameterRow → Bool) :
    WF { db with product_parameters := db.product_parameters.filter g } := by
  refine ⟨⟨?_, ?_, ?_, ?_, ?_, ?_, ?_, ?_⟩, hwf.nd_shops, hwf.nd_categories,
    hwf.nd_shop_categories, hwf.nd_products, hwf.nd_product_infos,
    hwf.nd_parameters, hwf.nd_param_values, ?_⟩
  · exact hwf.below.shops_lt
  · exact hwf.below.categories_lt
  · exact hwf.below.shop_categories_lt
  · exact hwf.below.products_lt
  · exact hwf.below.product_infos_lt
  · exact hwf.below.parameters_lt
  · exact hwf.below.param_values_lt
  · exact fun r hr => hwf.below.product_parameters_lt r (List.mem_of_mem_filter hr)
  · show ((db.product_parameters.filter g).map ProductParameterRow.id).Nodup
    exact ((List.filter_sublist _).map ProductParameterRow.id).nodup
      hwf.nd_product_parameters

/-- Parameter pairs of other listings are untouched by dropping one
listing's join rows. -/
theorem paramPairs_filter_ne {db : DB} {pid q : Nat} (hq : q ≠ pid) :
    paramPairsOf
      { db with product_parameters :=
          db.product_parameters.filter (fun x => x.product_info_id != pid) } q =
    paramPairsOf db q := by
  unfold paramPairsOf
  congr 1
  show (db.product_parameters.filter (fun x => x.product_info_id != pid)).filter
      (fun pp => pp.product_info_id == q) = _
  rw [List.filter_filter]
  apply List.filter_congr
  intro pp hpp
  by_cases h : pp.product_info_id = q
  · simp [h, hq]
  · simp [h]

/-- The filtered store holds no join rows for the dropped listing. -/
theorem paramPairs_filter_self {db : DB} {pid : Nat} :
    paramPairsOf
      { db with product_parameters :=
          db.product_parameters.filter (fun x => x.product_info_id != pid) } pid = [] := by
  unfold paramPairsOf
  have : (db.product_parameters.filter (fun x => x.product_info_id != pid)).filter
      (fun pp => pp.product_info_id == pid) = [] := by
    rw [List.filter_filter]
    apply List.filter_eq_nil_iff.mpr
    intro pp hpp
    simp
  rw [this]
  rfl

/-- The scalar-field write of `PartnerProductInfoUpdateSerializer.update`
keeps row ids and the store well-formed. -/
theorem WF_scalar_map {db : DB} {inst_id : Nat} {f : UpdateFields} (hwf : WF db) :
    WF { db with product_infos := db.product_infos.map (fun r =>
      if r.id == inst_id then
        { r with quantity := f.quantity.getD r.quantity,
                 price := f.price.getD r.price,
                 price_rrc := f.price_rrc.getD r.price_rrc }
      else r) } := by
  have hid : (db.product_infos.map (fun r =>
      if r.id == inst_id then
        { r with quantity := f.quantity.getD r.quantity,
                 price := f.price.getD r.price,
                 price_rrc := f.price_rrc.getD r.price_rrc }
      else r)).map ProductInfoRow.id = db.product_infos.map ProductInfoRow.id := by
    rw [List.map_map]
    apply List.map_congr_left
    intro r hr
    simp only [Function.comp_apply]
    split <;> rfl
  refine ⟨⟨?_, ?_, ?_, ?_, ?_, ?_, ?_, ?_⟩, hwf.nd_shops, hwf.nd_categories,
    hwf.nd_shop_categories, hwf.nd_products, ?_, hwf.nd_parameters,
    hwf.nd_param_values, hwf.nd_product_parameters⟩
  · exact hwf.below.shops_lt
  · exact hwf.below.categories_lt
  · exact hwf.below.shop_categories_lt
  · exact hwf.below.products_lt
  · intro r' hr'
    obtain ⟨r, hr, hrr⟩ := List.mem_map.mp hr'
    have hb := hwf.below.product_infos_lt r hr
    subst hrr
    split
    · exact ⟨hb.1, hb.2.1, hb.2.2.1, hb.2.2.2⟩
    · exact hb
  · exact hwf.below.parameters_lt
  · exact hwf.below.param_values_lt
  · exact hwf.below.product_parameters_lt
  · show (_ : List Nat).Nodup
    rw [hid]
    exact hwf.nd_product_infos

/-- `PartnerProductInfoUpdateSerializer.update` (as driven by
`update_or_create`): replaces the instance's parameter rows when a
parameter list is provided, rewrites only the provided scalar fields of
the instance row, and leaves every other table, listing and parameter
pairing alone. -/
theorem serializer_update_spec {db : DB} {inst_id : Nat} {f : UpdateFields}
    (hwf : WF db) (hinst_lt : inst_id < db.next_id) :
    (serializer_update db inst_id f).shops = db.shops ∧
    (serializer_update db inst_id f).categories = db.categories ∧
    (serializer_update db inst_id f).shop_categories = db.shop_categories ∧
    (serializer_update db inst_id f).products = db.products ∧
    (serializer_update db inst_id f).contacts = db.contacts ∧
    (serializer_update db inst_id f).buyer_orders = db.buyer_orders ∧
    (serializer_update db inst_id f).seller_orders = db.seller_orders ∧
    (serializer_update db inst_id f).ordered_items = db.ordered_items ∧
    db.next_id ≤ (serializer_update db inst_id f).next_id ∧
    WF (serializer_update db inst_id f) ∧
    (NamesDedup db → NamesDedup (serializer_update db inst_id f)) ∧
    (serializer_update db inst_id f).product_infos = db.product_infos.map (fun r =>
      if r.id == inst_id then
        { r with quantity := f.quantity.getD r.quantity,
                 price := f.price.getD r.price,
                 price_rrc := f.price_rrc.getD r.price_rrc }
      else r) ∧
    paramPairsOf (serializer_update db inst_id f) inst_id =
      (match f.product_parameters with
       | some ps => ps
       | none => paramPairsOf db inst_id) ∧
    (∀ q, q ≠ inst_id →
      paramPairsOf (serializer_update db inst_id f) q = paramPairsOf db q) ∧
    (∀ pp ∈ db.product_parameters, pp.product_info_id ≠ inst_id →
      pp ∈ (serializer_update db inst_id f).product_parameters) ∧
    (∃ l, (serializer_update db inst_id f).parameters = db.parameters ++ l) ∧
    (∃ l, (serializer_update db inst_id f).param_values = db.param_values ++ l) := by
  cases hfp : f.product_parameters with
  | none =>
    have hsu : serializer_update db inst_id f =
        { db with product_infos := db.product_infos.map (fun r =>
          if r.id == inst_id then
            { r with quantity := f.quantity.getD r.quantity,
                     price := f.price.getD r.price,
                     price_rrc := f.price_rrc.getD r.price_rrc }
          else r) } := by
      unfold serializer_update
      rw [hfp]
    rw [hsu]
    refine ⟨rfl, rfl, rfl, rfl, rfl, rfl, rfl, rfl, le_refl _,
      WF_scalar_map hwf, fun hd => ⟨hd.categories, hd.products, hd.parameters,
        hd.param_values⟩, rfl, ?_, fun q hq => rfl, fun pp hp _ => hp,
      ⟨[], by simp⟩, ⟨[], by simp⟩⟩
    rfl
  | some ps =>
    set dbF : DB :=
      { db with product_parameters :=
          db.product_parameters.filter (fun x => x.product_info_id != inst_id) }
      with hdbF
    have hwfF : WF dbF := WF_filter_pp hwf _
    have hFn : dbF.next_id = db.next_id := rfl
    have hpidF : inst_id < dbF.next_id := by rw [hFn]; exact hinst_lt
    have sadd := @add_parameters_spec ps dbF inst_id hpidF
    obtain ⟨a1, a2, a3, a4, a5, a6, a7, a8, a9, a10, ⟨m1, a11, hm1⟩,
      ⟨m2, a12, hm2⟩, ⟨m3, a13, hm3⟩, a14, a15⟩ := sadd
    obtain ⟨hwf1, hpairs1, hq1, hrefs1⟩ := a14 hwfF
    have hsu : serializer_update db inst_id f =
        { add_parameters dbF inst_id ps with
            product_infos := (add_parameters dbF inst_id ps).product_infos.map (fun r =>
              if r.id == inst_id then
                { r with quantity := f.quantity.getD r.quantity,
                         price := f.price.getD r.price,
                         price_rrc := f.price_rrc.getD r.price_rrc }
              else r) } := by
      unfold serializer_update
      rw [hfp]
    rw [hsu]
    have hpiF : (add_parameters dbF inst_id ps).product_infos = db.product_infos := a5
    refine ⟨a1, a2, a3, a4, a6, a7, a8, a9, by dsimp only; exact a10,
      ?_, ?_, ?_, ?_, ?_, ?_, ?_, ?_⟩
    · exact WF_scalar_map hwf1
    · intro hd
      have hdF : NamesDedup dbF :=
        ⟨hd.categories, hd.products, hd.parameters, hd.param_values⟩
      have hd1 := a15 hdF
      exact ⟨hd1.categories, hd1.products, hd1.parameters, hd1.param_values⟩
    · show (add_parameters dbF inst_id ps).product_infos.map _ = _
      rw [hpiF]
    · show paramPairsOf _ inst_id = ps
      have : paramPairsOf { add_parameters dbF inst_id ps with
          product_infos := (add_parameters dbF inst_id ps).product_infos.map (fun r =>
            if r.id == inst_id then
              { r with quantity := f.quantity.getD r.quantity,
                       price := f.price.getD r.price,
                       price_rrc := f.price_rrc.getD r.price_rrc }
            else r) } inst_id = paramPairsOf (add_parameters dbF inst_id ps) inst_id := rfl
      rw [this, hpairs1, paramPairs_filter_self]
      rfl
    · intro q hq
      have : paramPairsOf { add_parameters dbF inst_id ps with
          product_infos := (add_parameters dbF inst_id ps).product_infos.map (fun r =>
            if r.id == inst_id then
              { r with quantity := f.quantity.getD r.quantity,
                       price := f.price.getD r.price,
                       price_rrc := f.price_rrc.getD r.price_rrc }
            else r) } q = paramPairsOf (add_parameters dbF inst_id ps) q := rfl
      rw [this, hq1 q hq, paramPairs_filter_ne hq]
    · intro pp hp hne
      show pp ∈ (add_parameters dbF inst_id ps).product_parameters
      rw [a13]
      apply List.mem_append.mpr
      left
      show pp ∈ dbF.product_parameters
      apply List.mem_filter.mpr
      refine ⟨hp, ?_⟩
      simp [hne]
    · exact ⟨m1, a11⟩
    · exact ⟨m2, a12⟩

/-- An `isNone` guard on an if-some expression refutes its condition. -/
theorem isNone_ite_some {α : Type} {c : Prop} [Decidable c] {a : α}
    (h : (if c then some a else none).isNone = true) : ¬c := by
  by_cases hc : c
  · rw [if_pos hc] at h
    simp at h
  · exact hc

/-- An upsert into a listing that already holds the payload's mutable
fields writes nothing. -/
theorem update_or_create_noop {db : DB} {sid : Nat} {v : ValidatedProductInfo}
    (hm : listingMatches db sid v) : update_or_create db sid v = .ok db := by
  obtain ⟨r, hfind, hq, hp, hpr, hpar⟩ := hm
  unfold listingFor at hfind
  unfold update_or_create
  rw [hfind]
  simp [hq, hp, hpr, hpar]

/-- A successful upsert leaves the store related to its input by one
commit step over this listing's external id, makes the listing match the
payload, and — when the listing is newly created — establishes its
global-row references. -/
theorem update_or_create_spec {db db' : DB} {sid : Nat} {v : ValidatedProductInfo}
    (h : update_or_create db sid v = .ok db')
    (hwf : WF db) (hsid : sid < db.next_id) :
    listingMatches db' sid v ∧
    UpsertStep sid [v.external_id] db db' ∧
    (listingFor db sid v.external_id = none → ShopGoodRefs db' sid v) := by
  cases hfind : db.product_infos.find?
      (fun r => r.shop_id == sid && r.external_id == v.external_id) with
  | some inst =>
    have hinstm := List.mem_of_find?_eq_some hfind
    have hinstp := List.find?_some hfind
    simp only [Bool.and_eq_true, beq_iff_eq] at hinstp
    obtain ⟨hinsts, hinste⟩ := hinstp
    have hinstlt : inst.id < db.next_id :=
      (hwf.below.product_infos_lt inst hinstm).1
    unfold update_or_create at h
    rw [hfind] at h
    split at h
    case h_2 htriv =>
      cases htriv
    case h_1 inst2 hinj =>
      injection hinj with hinj
      subst hinj
      by_cases hnoop : inst.quantity = v.quantity ∧ inst.price = v.price ∧
          inst.price_rrc = v.price_rrc ∧
          sortParams (paramPairsOf db inst.id) = sortParams v.product_parameters
      case pos =>
        obtain ⟨hq, hp, hpr, hpar⟩ := hnoop
        rw [if_pos (by simp [hq, hp, hpr, hpar])] at h
        rw [CreateOutcome.ok.injEq] at h
        subst h
        refine ⟨⟨inst, hfind, hq, hp, hpr, hpar⟩, ?_, ?_⟩
        · exact ⟨le_refl _, rfl, rfl, rfl, rfl, rfl, fun w => w,
            fun r hr => Or.inr hr, fun r hr => Or.inr hr,
            fun sid' w _ hm => hm, fun sid' w _ hm => hm, fun d => d⟩
        · intro habs
          unfold listingFor at habs
          rw [habs] at hfind
          cases hfind
      case neg =>
        have hcneg : ¬((if inst.quantity != v.quantity
              then some v.quantity else none).isNone &&
            (if inst.price != v.price then some v.price else none).isNone &&
            (if inst.price_rrc != v.price_rrc then some v.price_rrc else none).isNone &&
            (if sortParams (paramPairsOf db inst.id) != sortParams v.product_parameters
             then some v.product_parameters else none).isNone) = true := by
          intro hcc
          simp only [Bool.and_eq_true] at hcc
          obtain ⟨⟨⟨hc1, hc2⟩, hc3⟩, hc4⟩ := hcc
          exact hnoop ⟨by simpa using isNone_ite_some hc1,
            by simpa using isNone_ite_some hc2,
            by simpa using isNone_ite_some hc3,
            by simpa using isNone_ite_some hc4⟩
        rw [if_neg hcneg] at h
        rw [CreateOutcome.ok.injEq] at h
        subst h
        set f : UpdateFields :=
          { quantity := if inst.quantity != v.quantity then some v.quantity else none,
            price := if inst.price != v.price then some v.price else none,
            price_rrc := if inst.price_rrc != v.price_rrc then some v.price_rrc else none,
            product_parameters :=
              if sortParams (paramPairsOf db inst.id) != sortParams v.product_parameters
              then some v.product_parameters else none } with hf
        obtain ⟨s1, s2, s3, s4, s5, s6, s7, s8, s9, swf, sdedup, spi, spairs,
          sq, sppmem, ⟨lp, slp⟩, ⟨lv, slv⟩⟩ :=
          @serializer_update_spec db inst.id f hwf hinstlt
        set g : ProductInfoRow → ProductInfoRow := fun r =>
          if r.id == inst.id then
            { r with quantity := f.quantity.getD r.quantity,
                     price := f.price.getD r.price,
                     price_rrc := f.price_rrc.getD r.price_rrc }
          else r with hg
        have hgid : ∀ r, (g r).id = r.id := by
          intro r
          rw [hg]
          dsimp only
          split <;> rfl
        have hgshop : ∀ r, (g r).shop_id = r.shop_id := by
          intro r
          rw [hg]
          dsimp only
          split <;> rfl
        have hgext : ∀ r, (g r).external_id = r.external_id := by
          intro r
          rw [hg]
          dsimp only
          split <;> rfl
        have hgprod : ∀ r, (g r).product_id = r.product_id := by
          intro r
          rw [hg]
          dsimp only
          split <;> rfl
        have hgsc : ∀ r, (g r).shop_category_id = r.shop_category_id := by
          intro r
          rw [hg]
          dsimp only
          split <;> rfl
        have hgother : ∀ r, r.id ≠ inst.id → g r = r := by
          intro r hr
          rw [hg]
          dsimp only
          rw [if_neg (by simpa using hr)]
        have hfindmap : ∀ (sid' : Nat) (ext' : Int),
            (serializer_update db inst.id f).product_infos.find?
              (fun r => r.shop_id == sid' && r.external_id == ext') =
            (db.product_infos.find?
              (fun r => r.shop_id == sid' && r.external_id == ext')).map g := by
          intro sid' ext'
          have hpi' : (serializer_update db inst.id f).product_infos =
              db.product_infos.map g := spi
          rw [hpi', List.find?_map]
          have hpg : ((fun r : ProductInfoRow =>
                r.shop_id == sid' && r.external_id == ext') ∘ g) =
              (fun r : ProductInfoRow => r.shop_id == sid' && r.external_id == ext') := by
            funext r
            rw [Function.comp_apply, hgshop, hgext]
          rw [hpg]
        have hginst : (g inst).quantity = v.quantity ∧ (g inst).price = v.price ∧
            (g inst).price_rrc = v.price_rrc := by
          rw [hg]
          dsimp only
          rw [if_pos (by simp)]
          refine ⟨?_, ?_, ?_⟩
          · by_cases hq : inst.quantity = v.quantity <;> simp [hf, hq]
          · by_cases hq : inst.price = v.price <;> simp [hf, hq]
          · by_cases hq : inst.price_rrc = v.price_rrc <;> simp [hf, hq]
        have hpairs' : sortParams (paramPairsOf (serializer_update db inst.id f) inst.id) =
            sortParams v.product_parameters := by
          rw [spairs]
          by_cases hpar : sortParams (paramPairsOf db inst.id) =
              sortParams v.product_parameters
          · rw [hf]
            dsimp only
            rw [if_neg (by simpa using hpar)]
            exact hpar
          · rw [hf]
            dsimp only
            rw [if_pos (by simpa using hpar)]
        have hne_of_guard : ∀ (sid' : Nat) (w : ValidatedProductInfo)
            (r : ProductInfoRow), r ∈ db.product_infos →
            (sid' ≠ sid ∨ w.external_id ∉ [v.external_id]) →
            r.shop_id = sid' → r.external_id = w.external_id → r.id ≠ inst.id := by
          intro sid' w r hrm hguard hrs hre hid
          have : r = inst := eq_of_mem_key ProductInfoRow.id hwf.nd_product_infos hrm hinstm hid
          subst this
          rcases hguard with hguard | hguard
          · exact hguard (hrs ▸ hinsts.symm ▸ rfl)
          · apply hguard
            simp [← hre, hinste]
        refine ⟨?_, ?_, ?_⟩
        · refine ⟨g inst, ?_, hginst.1, hginst.2.1, hginst.2.2, ?_⟩
          · unfold listingFor
            rw [hfindmap sid v.external_id, hfind]
            rfl
          · rw [hgid]
            exact hpairs'
        · refine ⟨s9, s1, s5, s6, s7, s8, fun _ => swf, ?_, ?_, ?_, ?_, sdedup⟩
          · intro r hr
            by_cases hid : r.id = inst.id
            · have hreq : r = inst :=
                eq_of_mem_key ProductInfoRow.id hwf.nd_product_infos hr hinstm hid
              subst hreq
              left
              refine ⟨hinsts, by simp [hinste],
                ⟨g r, ?_, hgid r, hgshop r, hgext r, hgprod r, hgsc r⟩⟩
              rw [spi]
              exact List.mem_map_of_mem g hr
            · right
              rw [spi, ← hgother r hid]
              exact List.mem_map_of_mem g hr
          · intro r' hr'
            rw [spi] at hr'
            obtain ⟨r, hr, hrr⟩ := List.mem_map.mp hr'
            by_cases hid : r.id = inst.id
            · have hreq : r = inst :=
                eq_of_mem_key ProductInfoRow.id hwf.nd_product_infos hr hinstm hid
              subst hreq
              left
              constructor
              · rw [← hrr, hgshop]
                exact hinsts
              · rw [← hrr, hgext]
                simp [hinste]
            · right
              rw [← hrr, hgother r hid]
              exact hr
          · intro sid' w hguard hm
            obtain ⟨rw_, hfw, hq, hp, hpr, hpar⟩ := hm
            unfold listingFor at hfw
            have hrwm := List.mem_of_find?_eq_some hfw
            have hrwp := List.find?_some hfw
            simp only [Bool.and_eq_true, beq_iff_eq] at hrwp
            have hrid : rw_.id ≠ inst.id :=
              hne_of_guard sid' w rw_ hrwm hguard hrwp.1 hrwp.2
            refine ⟨rw_, ?_, hq, hp, hpr, ?_⟩
            · unfold listingFor
              rw [hfindmap sid' w.external_id, hfw]
              show some (g rw_) = some rw_
              rw [hgother rw_ hrid]
            · rw [sq rw_.id hrid]
              exact hpar
          · intro sid' w hguard hm
            obtain ⟨r, hrm, hrs, hre, hprodr, hcatr, hparsr⟩ := hm
            have hrid : r.id ≠ inst.id :=
              hne_of_guard sid' w r hrm hguard hrs hre
            refine ⟨r, ?_, hrs, hre, ?_, ?_, ?_⟩
            · rw [spi, ← hgother r hrid]
              exact List.mem_map_of_mem g hrm
            · obtain ⟨pr, hprm, ha, hb⟩ := hprodr
              exact ⟨pr, by rw [s4]; exact hprm, ha, hb⟩
            · obtain ⟨sc, hscm, ha, c, hcm, hb, hc⟩ := hcatr
              exact ⟨sc, by rw [s3]; exact hscm, ha, c, by rw [s2]; exact hcm, hb, hc⟩
            · intro p hp
              obtain ⟨pp, hppm, ha, ⟨par, hparm, hb, hc⟩, ⟨vv, hvm, hd, he⟩⟩ :=
                hparsr p hp
              refine ⟨pp, sppmem pp hppm (by rw [ha]; exact hrid), ha,
                ⟨par, ?_, hb, hc⟩, ⟨vv, ?_, hd, he⟩⟩
              · rw [slp]
                exact List.mem_append.mpr (Or.inl hparm)
              · rw [slv]
                exact List.mem_append.mpr (Or.inl hvm)
        · intro habs
          unfold listingFor at habs
          rw [habs] at hfind
          cases hfind
  | none =>
    unfold update_or_create at h
    rw [hfind] at h
    have hcreate : create_product_info db sid v = .ok db' := h
    obtain ⟨c1, c2, c3, c4, c5, c6, ⟨lc, hlc, hlcb⟩, ⟨lsc, hlsc, hlscb⟩,
      ⟨lpr, hlpr, hlprb⟩, ⟨lpa, hlpa, hlpab⟩, ⟨lpv, hlpv, hlpvb⟩,
      ⟨lpp, hlpp, hlppb⟩, cwf, cdedup, cq, row, hrowpi, hrs, hre, hrq, hrp,
      hrpr, hrid, hrpairs, hrprod, hrcat, hrparam⟩ :=
      create_product_info_spec hcreate hwf hsid
    have hfind' : db'.product_infos.find?
        (fun r => r.shop_id == sid && r.external_id == v.external_id) = some row := by
      rw [hrowpi, find?_append_none hfind]
      simp [List.find?, hrs, hre]
    refine ⟨⟨row, hfind', hrq, hrp, hrpr, by rw [hrpairs]⟩, ?_, ?_⟩
    · refine ⟨c6, c1, c2, c3, c4, c5, fun _ => cwf, ?_, ?_, ?_, ?_, cdedup⟩
      · intro r hr
        right
        rw [hrowpi]
        exact List.mem_append.mpr (Or.inl hr)
      · intro r' hr'
        rw [hrowpi] at hr'
        rcases List.mem_append.mp hr' with hr' | hr'
        · exact Or.inr hr'
        · simp at hr'
          subst hr'
          exact Or.inl ⟨hrs, by simp [hre]⟩
      · intro sid' w hguard hm
        obtain ⟨rw_, hfw, hq, hp, hpr, hpar⟩ := hm
        unfold listingFor at hfw
        have hrwm := List.mem_of_find?_eq_some hfw
        refine ⟨rw_, ?_, hq, hp, hpr, ?_⟩
        · unfold listingFor
          rw [hrowpi]
          exact find?_append_some hfw
        · rw [cq rw_.id ((hwf.below.product_infos_lt rw_ hrwm).1)]
          exact hpar
      · intro sid' w hguard hm
        obtain ⟨r, hrm, hrs', hre', hprodr, hcatr, hparsr⟩ := hm
        refine ⟨r, ?_, hrs', hre', ?_, ?_, ?_⟩
        · rw [hrowpi]
          exact List.mem_append.mpr (Or.inl hrm)
        · obtain ⟨pr, hprm, ha, hb⟩ := hprodr
          exact ⟨pr, by rw [hlpr]; exact List.mem_append.mpr (Or.inl hprm), ha, hb⟩
        · obtain ⟨sc, hscm, ha, c, hcm, hb, hc⟩ := hcatr
          exact ⟨sc, by rw [hlsc]; exact List.mem_append.mpr (Or.inl hscm), ha, c,
            by rw [hlc]; exact List.mem_append.mpr (Or.inl hcm), hb, hc⟩
        · intro p hp
          obtain ⟨pp, hppm, ha, ⟨par, hparm, hb, hc⟩, ⟨vv, hvm, hd, he⟩⟩ :=
            hparsr p hp
          exact ⟨pp, by rw [hlpp]; exact List.mem_append.mpr (Or.inl hppm), ha,
            ⟨par, by rw [hlpa]; exact List.mem_append.mpr (Or.inl hparm), hb, hc⟩,
            ⟨vv, by rw [hlpv]; exact List.mem_append.mpr (Or.inl hvm), hd, he⟩⟩
    · intro hnone
      exact ⟨row, by rw [hrowpi]; simp, hrs, hre, hrprod, hrcat, hrparam⟩

/-- A commit step relates every store to itself. -/
theorem upsertStep_refl (sid : Nat) (exts : List Int) (db : DB) :
    UpsertStep sid exts db db :=
  ⟨le_refl _, rfl, rfl, rfl, rfl, rfl, fun w => w, fun r hr => Or.inr hr,
   fun r hr => Or.inr hr, fun sid' w _ hm => hm, fun sid' w _ hm => hm, fun d => d⟩

/-- Commit steps compose. -/
theorem upsertStep_trans {sid : Nat} {exts : List Int} {db1 db2 db3 : DB}
    (ha : UpsertStep sid exts db1 db2) (hb : UpsertStep sid exts db2 db3) :
    UpsertStep sid exts db1 db3 := by
  obtain ⟨a1, a2, a3, a4, a5, a6, a7, a8, a9, a10, a11, a12⟩ := ha
  obtain ⟨b1, b2, b3, b4, b5, b6, b7, b8, b9, b10, b11, b12⟩ := hb
  refine ⟨le_trans a1 b1, b2.trans a2, b3.trans a3, b4.trans a4, b5.trans a5,
    b6.trans a6, fun w => b7 (a7 w), ?_, ?_,
    fun sid' w hg hm => b10 sid' w hg (a10 sid' w hg hm),
    fun sid' w hg hm => b11 sid' w hg (a11 sid' w hg hm),
    fun d => b12 (a12 d)⟩
  · intro r hr
    rcases a8 r hr with ⟨hs, he, r', hr', hid, hsh, hex, hpr, hsc⟩ | hin
    · rcases b8 r' hr' with ⟨_, _, r'', hr'', hid2, hsh2, hex2, hpr2, hsc2⟩ | hin2
      · exact Or.inl ⟨hs, he, r'', hr'', by rw [hid2, hid], by rw [hsh2, hsh],
          by rw [hex2, hex], by rw [hpr2, hpr], by rw [hsc2, hsc]⟩
      · exact Or.inl ⟨hs, he, r', hin2, hid, hsh, hex, hpr, hsc⟩
    · rcases b8 r hin with ⟨hs, he, r', hr', hid, hsh, hex, hpr, hsc⟩ | hin2
      · exact Or.inl ⟨hs, he, r', hr', hid, hsh, hex, hpr, hsc⟩
      · exact Or.inr hin2
  · intro r' hr'
    rcases b9 r' hr' with hcase | hin
    · exact Or.inl hcase
    · exact a9 r' hin

/-- A commit step over a smaller external-id set is one over a larger. -/
theorem upsertStep_widen {sid : Nat} {exts exts' : List Int} {db db' : DB}
    (ha : UpsertStep sid exts db db') (hsub : ∀ x ∈ exts, x ∈ exts') :
    UpsertStep sid exts' db db' := by
  obtain ⟨a1, a2, a3, a4, a5, a6, a7, a8, a9, a10, a11, a12⟩ := ha
  refine ⟨a1, a2, a3, a4, a5, a6, a7, ?_, ?_, ?_, ?_, a12⟩
  · intro r hr
    rcases a8 r hr with ⟨hs, he, hex⟩ | hin
    · exact Or.inl ⟨hs, hsub _ he, hex⟩
    · exact Or.inr hin
  · intro r' hr'
    rcases a9 r' hr' with ⟨hs, he⟩ | hin
    · exact Or.inl ⟨hs, hsub _ he⟩
    · exact Or.inr hin
  · intro sid' w hg hm
    refine a10 sid' w ?_ hm
    rcases hg with hg | hg
    · exact Or.inl hg
    · exact Or.inr (fun hx => hg (hsub _ hx))
  · intro sid' w hg hm
    refine a11 sid' w ?_ hm
    rcases hg with hg | hg
    · exact Or.inl hg
    · exact Or.inr (fun hx => hg (hsub _ hx))

/-- Upserting listings that all already match is a no-write. -/
theorem upsertAll_noop : ∀ {vs : List ValidatedProductInfo} {db : DB} {sid : Nat},
    (∀ v ∈ vs, listingMatches db sid v) → upsertAll db sid vs = (db, none) := by
  intro vs
  induction vs with
  | nil => intro db sid _; rfl
  | cons v vs ih =>
    intro db sid hm
    have h1 : update_or_create db sid v = .ok db :=
      update_or_create_noop (hm v (List.mem_cons_self v vs))
    show (match update_or_create db sid v with
      | .ok db1 => upsertAll db1 sid vs
      | .conflict db1 e => (db1, some (.conflictError e))
      | .integrity db1 e => (db1, some (.integrityError e))) = (db, none)
    rw [h1]
    exact ih (fun w hw => hm w (List.mem_cons_of_mem v hw))

/-- Conjunct accessors for `UpsertStep`. -/
theorem upsertStep_next {sid : Nat} {exts : List Int} {db db' : DB}
    (h : UpsertStep sid exts db db') : db.next_id ≤ db'.next_id := h.1

/-- Well-formedness transport along a commit step. -/
theorem upsertStep_wf {sid : Nat} {exts : List Int} {db db' : DB}
    (h : UpsertStep sid exts db db') : WF db → WF db' :=
  h.2.2.2.2.2.2.1

/-- Listing-match preservation along a commit step. -/
theorem upsertStep_matches {sid : Nat} {exts : List Int} {db db' : DB}
    (h : UpsertStep sid exts db db') :
    ∀ sid' w, (sid' ≠ sid ∨ w.external_id ∉ exts) →
      listingMatches db sid' w → listingMatches db' sid' w :=
  h.2.2.2.2.2.2.2.2.2.1

/-- Reference-chain preservation along a commit step. -/
theorem upsertStep_refs {sid : Nat} {exts : List Int} {db db' : DB}
    (h : UpsertStep sid exts db db') :
    ∀ sid' w, (sid' ≠ sid ∨ w.external_id ∉ exts) →
      ShopGoodRefs db sid' w → ShopGoodRefs db' sid' w :=
  h.2.2.2.2.2.2.2.2.2.2.1

/-- Provenance of listings after a commit step. -/
theorem upsertStep_new {sid : Nat} {exts : List Int} {db db' : DB}
    (h : UpsertStep sid exts db db') :
    ∀ r' ∈ db'.product_infos,
      (r'.shop_id = sid ∧ r'.external_id ∈ exts) ∨ r' ∈ db.product_infos :=
  h.2.2.2.2.2.2.2.2.1

/-- Retention of listings along a commit step. -/
theorem upsertStep_old {sid : Nat} {exts : List Int} {db db' : DB}
    (h : UpsertStep sid exts db db') :
    ∀ r ∈ db.product_infos,
      (r.shop_id = sid ∧ r.external_id ∈ exts ∧
        ∃ r' ∈ db'.product_infos, r'.id = r.id ∧ r'.shop_id = r.shop_id ∧
          r'.external_id = r.external_id ∧ r'.product_id = r.product_id ∧
          r'.shop_category_id = r.shop_category_id) ∨
      r ∈ db'.product_infos :=
  h.2.2.2.2.2.2.2.1

/-- A successful re-import commit loop is one commit step over the run's
external ids, leaves each upserted listing matching its payload, and
establishes the reference chains of every listing the run created. -/
theorem upsertAll_spec : ∀ {vs : List ValidatedProductInfo} {db db' : DB} {sid : Nat},
    upsertAll db sid vs = (db', none) → WF db → sid < db.next_id →
    (vs.map (fun v => v.external_id)).Nodup →
    UpsertStep sid (vs.map (fun v => v.external_id)) db db' ∧
    (∀ v ∈ vs, listingMatches db' sid v) ∧
    (∀ v ∈ vs, listingFor db sid v.external_id = none → ShopGoodRefs db' sid v) := by
  intro vs
  induction vs with
  | nil =>
    intro db db' sid h hwf hsid hnd
    have hdb : db = db' := congrArg Prod.fst h
    subst hdb
    exact ⟨upsertStep_refl _ _ _, by simp, by simp⟩
  | cons v vs ih =>
    intro db db' sid h hwf hsid hnd
    simp only [List.map_cons, List.nodup_cons] at hnd
    obtain ⟨hvnot, hndtail⟩ := hnd
    simp only [upsertAll] at h
    cases houc : update_or_create db sid v with
    | ok db1 =>
      rw [houc] at h
      obtain ⟨hm1, hstep1, hrefs1⟩ := update_or_create_spec houc hwf hsid
      have hwf1 : WF db1 := upsertStep_wf hstep1 hwf
      have hsid1 : sid < db1.next_id := lt_of_lt_of_le hsid (upsertStep_next hstep1)
      obtain ⟨hstepR, hmatchR, hrefsR⟩ := ih h hwf1 hsid1 hndtail
      have hstep : UpsertStep sid
          (v.external_id :: vs.map (fun v => v.external_id)) db db' := by
        refine upsertStep_trans (upsertStep_widen hstep1 ?_)
          (upsertStep_widen hstepR ?_)
        · intro x hx
          simp at hx
          simp [hx]
        · intro x hx
          exact List.mem_cons_of_mem _ hx
      refine ⟨hstep, ?_, ?_⟩
      · intro w hw
        rcases List.mem_cons.mp hw with rfl | hw
        · exact upsertStep_matches hstepR sid w (Or.inr (by simpa using hvnot)) hm1
        · exact hmatchR w hw
      · intro w hw hnonew
        rcases List.mem_cons.mp hw with rfl | hw
        · exact upsertStep_refs hstepR sid w (Or.inr (by simpa using hvnot))
            (hrefs1 hnonew)
        · apply hrefsR w hw
          apply List.find?_eq_none.mpr
          intro r hr hp
          simp only [Bool.and_eq_true, beq_iff_eq] at hp
          rcases upsertStep_new hstep1 r hr with ⟨hs, he⟩ | hin
          · simp only [List.mem_singleton] at he
            apply hvnot
            have hmem : w.external_id ∈ vs.map (fun v => v.external_id) :=
              List.mem_map_of_mem _ hw
            rw [← hp.2, he] at hmem
            exact hmem
          · have := List.find?_eq_none.mp hnonew r hin
            simp [hp.1, hp.2] at this
    | conflict db1 e =>
      rw [houc] at h
      simp at h
    | integrity db1 e =>
      rw [houc] at h
      simp at h

/-- An upsert into a shop with no listing under this external id is
exactly the serializer's create. -/
theorem update_eq_create_of_none {db : DB} {sid : Nat} {v : ValidatedProductInfo}
    (hn : listingFor db sid v.external_id = none) :
    update_or_create db sid v = create_product_info db sid v := by
  unfold listingFor at hn
  unfold update_or_create
  rw [hn]

/-- When no listing of the run pre-exists, the bulk-create loop and the
upsert loop agree. -/
theorem createAll_eq_upsertAll : ∀ {vs : List ValidatedProductInfo} {db : DB} {sid : Nat},
    WF db → sid < db.next_id → (vs.map (fun v => v.external_id)).Nodup →
    (∀ v ∈ vs, listingFor db sid v.external_id = none) →
    createAll db sid vs = upsertAll db sid vs := by
  intro vs
  induction vs with
  | nil => intro db sid _ _ _ _; rfl
  | cons v vs ih =>
    intro db sid hwf hsid hnd hnone
    simp only [List.map_cons, List.nodup_cons] at hnd
    obtain ⟨hvnot, hndtail⟩ := hnd
    have hv := hnone v (List.mem_cons_self v vs)
    have heq := update_eq_create_of_none hv
    simp only [createAll, upsertAll]
    rw [← heq]
    cases houc : update_or_create db sid v with
    | ok db1 =>
      obtain ⟨hm1, hstep1, hrefs1⟩ := update_or_create_spec houc hwf hsid
      have hwf1 := upsertStep_wf hstep1 hwf
      have hsid1 : sid < db1.next_id := lt_of_lt_of_le hsid (upsertStep_next hstep1)
      have hnone1 : ∀ w ∈ vs, listingFor db1 sid w.external_id = none := by
        intro w hw
        apply List.find?_eq_none.mpr
        intro r hr hp
        simp only [Bool.and_eq_true, beq_iff_eq] at hp
        rcases upsertStep_new hstep1 r hr with ⟨hs, he⟩ | hin
        · simp only [List.mem_singleton] at he
          apply hvnot
          have hmem : w.external_id ∈ vs.map (fun v => v.external_id) :=
            List.mem_map_of_mem _ hw
          rw [← hp.2, he] at hmem
          exact hmem
        · have := List.find?_eq_none.mp (hnone w (List.mem_cons_of_mem v hw)) r hin
          simp [hp.1, hp.2] at this
      exact ih hwf1 hsid1 hndtail hnone1
    | conflict db1 e =>
      rfl
    | integrity db1 e =>
      rfl

/-- A listing row whose quantity is already zero is unchanged by the
zero-write. -/
theorem zero_write_id {r : ProductInfoRow} (h : r.quantity = 0) :
    { r with quantity := 0 } = r := by
  cases r
  simp_all

/-- The zero-out update of `import_products` is the identity on a store
whose stray listings are already zeroed. -/
theorem zero_map_id {db : DB} {sid : Nat} {keep : List Int}
    (hz : zeroedOutside db sid keep) :
    db.product_infos.map
      (fun r => if r.shop_id == sid && !(keep.contains r.external_id) then
        { r with quantity := 0 } else r) = db.product_infos := by
  have : ∀ r ∈ db.product_infos,
      (if r.shop_id == sid && !(keep.contains r.external_id) then
        { r with quantity := 0 } else r) = r := by
    intro r hr
    by_cases hc : (r.shop_id == sid && !(keep.contains r.external_id)) = true
    · rw [if_pos hc]
      simp only [Bool.and_eq_true, beq_iff_eq, Bool.not_eq_true] at hc
      have hnk : r.external_id ∉ keep := by
        simpa using hc.2
      exact zero_write_id (hz r hr hc.1 hnk)
    · rw [if_neg hc]
  calc db.product_infos.map _ = db.product_infos.map (fun r => r) :=
        List.map_congr_left this
    _ = db.product_infos := List.map_id' _

/-- `Shop.objects.get_or_create(owner_id=...)` (success case): the found
or created shop resolves by owner; only a fresh-id shop row may be
appended, every other table is untouched, and the defaults are written
only on creation. -/
theorem getOrCreateShop_spec {db db' : DB} {uid : Nat} {n em : String}
    {ship : Int} {sid : Nat} {created : Bool}
    (h : getOrCreateShop db uid n em ship = .ok (db', sid, created)) :
    db'.categories = db.categories ∧ db'.shop_categories = db.shop_categories ∧
    db'.products = db.products ∧ db'.product_infos = db.product_infos ∧
    db'.parameters = db.parameters ∧ db'.param_values = db.param_values ∧
    db'.product_parameters = db.product_parameters ∧
    db'.contacts = db.contacts ∧ db'.buyer_orders = db.buyer_orders ∧
    db'.seller_orders = db.seller_orders ∧ db'.ordered_items = db.ordered_items ∧
    db.next_id ≤ db'.next_id ∧
    (∃ s, db'.shops.find? (fun s => s.owner_id == uid) = some s ∧ s.id = sid) ∧
    (created = false →
      db' = db ∧ ∃ s0, db.shops.find? (fun s => s.owner_id == uid) = some s0 ∧
        s0.id = sid) ∧
    (created = true →
      db.shops.find? (fun s => s.owner_id == uid) = none ∧ sid = db.next_id ∧
      db'.next_id = db.next_id + 1 ∧
      db'.shops = db.shops ++ [⟨sid, uid, n, em, ship, true⟩]) ∧
    (WF db → WF db' ∧ sid < db'.next_id) ∧
    (NamesDedup db → NamesDedup db') := by
  cases hf : db.shops.find? (fun s => s.owner_id == uid) with
  | some s =>
    simp only [getOrCreateShop, hf, Except.ok.injEq, Prod.mk.injEq] at h
    obtain ⟨rfl, rfl, rfl⟩ := h
    refine ⟨rfl, rfl, rfl, rfl, rfl, rfl, rfl, rfl, rfl, rfl, rfl, le_refl _,
      ⟨s, hf, rfl⟩, fun _ => ⟨rfl, s, rfl, rfl⟩, by simp, ?_, fun d => d⟩
    intro hwf
    exact ⟨hwf, hwf.below.shops_lt s (List.mem_of_find?_eq_some hf)⟩
  | none =>
    by_cases hocc : db.shops.any (fun s => s.name == n)
    · simp only [getOrCreateShop, hf, hocc, if_true] at h
      exact Except.noConfusion h
    · simp only [getOrCreateShop, hf, hocc, Bool.false_eq_true, if_false,
        Except.ok.injEq, Prod.mk.injEq] at h
      obtain ⟨rfl, rfl, rfl⟩ := h
      have hfind' : (db.shops ++ [(⟨db.next_id, uid, n, em, ship, true⟩ : ShopRow)]).find?
          (fun s => s.owner_id == uid) = some ⟨db.next_id, uid, n, em, ship, true⟩ := by
        rw [find?_append_none hf]
        simp [List.find?]
      refine ⟨rfl, rfl, rfl, rfl, rfl, rfl, rfl, rfl, rfl, rfl, rfl, by simp,
        ⟨⟨db.next_id, uid, n, em, ship, true⟩, hfind', rfl⟩,
        by simp, fun _ => ⟨rfl, rfl, rfl, rfl⟩, ?_,
        fun d => ⟨d.categories, d.products, d.parameters, d.param_values⟩⟩
      intro hwf
      have hib := hwf.below
      refine ⟨⟨⟨?_, ?_, ?_, ?_, ?_, ?_, ?_, ?_⟩, ?_, hwf.nd_categories,
        hwf.nd_shop_categories, hwf.nd_products, hwf.nd_product_infos,
        hwf.nd_parameters, hwf.nd_param_values, hwf.nd_product_parameters⟩, ?_⟩
      · intro r hr
        rcases List.mem_append.mp hr with hr | hr
        · exact Nat.lt_succ_of_lt (hib.shops_lt r hr)
        · simp at hr; subst hr; simp
      · exact fun r hr => Nat.lt_succ_of_lt (hib.categories_lt r hr)
      · exact fun r hr => by have := hib.shop_categories_lt r hr; dsimp only; omega
      · exact fun r hr => Nat.lt_succ_of_lt (hib.products_lt r hr)
      · exact fun r hr => by have := hib.product_infos_lt r hr; dsimp only; omega
      · exact fun r hr => Nat.lt_succ_of_lt (hib.parameters_lt r hr)
      · exact fun r hr => Nat.lt_succ_of_lt (hib.param_values_lt r hr)
      · exact fun r hr => by have := hib.product_parameters_lt r hr; dsimp only; omega
      · show ((db.shops ++ [(⟨db.next_id, uid, n, em, ship, true⟩ : ShopRow)]).map
            ShopRow.id).Nodup
        rw [List.map_append, List.nodup_append]
        refine ⟨hwf.nd_shops, by simp, ?_⟩
        intro a ha
        obtain ⟨r, hr, hra⟩ := List.mem_map.mp ha
        have := hib.shops_lt r hr
        simp
        omega
      · show db.next_id < db.next_id + 1
        simp

/-- The parse step only ever fails with a parse error. -/
theorem parsePayload_error_kind {p : CatalogPayload} {e : ImportResult}
    (h : parsePayload p = .error e) : ∃ f, e = .parseError f := by
  unfold parsePayload at h
  repeat' split at h
  all_goals first
    | (injection h with h; exact ⟨_, h.symm⟩)
    | cases h

/-- Building one listing payload only ever fails with the category
matching error or the product parse error. -/
theorem buildGood_error_kind {cats : List (Int × String)} {g : GoodSource}
    {e : ImportResult} (h : buildGood cats g = .error e) :
    isValidationPhaseError e = true := by
  unfold buildGood at h
  repeat' split at h
  all_goals first
    | (injection h with h; subst h; rfl)
    | cases h

/-- The build-and-validate loop only ever fails with one of the documented
validate-phase errors. -/
theorem buildAll_error_kind : ∀ {cats : List (Int × String)} {gs : List GoodSource}
    {e : ImportResult}, buildAll cats gs = .error e →
    isValidationPhaseError e = true := by
  intro cats gs
  induction gs with
  | nil => intro e h; cases h
  | cons g gs ih =>
    intro e h
    simp only [buildAll] at h
    cases hbg : buildGood cats g with
    | error e' =>
      rw [hbg] at h
      injection h with h
      subst h
      exact buildGood_error_kind hbg
    | ok v =>
      rw [hbg] at h
      dsimp only at h
      by_cases hv : productInfoValid true dbEmpty 0 v = true
      · rw [if_pos hv] at h
        cases hba : buildAll cats gs with
        | error e2 =>
          rw [hba] at h
          injection h with h
          subst h
          exact ih hba
        | ok vs =>
          rw [hba] at h
          cases h
      · rw [if_neg hv] at h
        injection h with h
        subst h
        rfl

/-- The commit loops only ever fail with constraint errors, never with a
validate-phase error. -/
theorem createAll_error_kind : ∀ {vs : List ValidatedProductInfo} {db db2 : DB}
    {sid : Nat} {e : ImportResult}, createAll db sid vs = (db2, some e) →
    (∃ c, e = .conflictError c) ∨ (∃ x, e = .integrityError x) := by
  intro vs
  induction vs with
  | nil =>
    intro db db2 sid e h
    simp [createAll] at h
  | cons v vs ih =>
    intro db db2 sid e h
    simp only [createAll] at h
    cases hc : create_product_info db sid v with
    | ok db1 =>
      rw [hc] at h
      exact ih h
    | conflict db1 e' =>
      rw [hc] at h
      simp only [Prod.mk.injEq, Option.some.injEq] at h
      exact Or.inl ⟨e', h.2.symm⟩
    | integrity db1 e' =>
      rw [hc] at h
      simp only [Prod.mk.injEq, Option.some.injEq] at h
      exact Or.inr ⟨e', h.2.symm⟩

/-- The upsert commit loop only ever fails with constraint errors. -/
theorem upsertAll_error_kind : ∀ {vs : List ValidatedProductInfo} {db db2 : DB}
    {sid : Nat} {e : ImportResult}, upsertAll db sid vs = (db2, some e) →
    (∃ c, e = .conflictError c) ∨ (∃ x, e = .integrityError x) := by
  intro vs
  induction vs with
  | nil =>
    intro db db2 sid e h
    simp [upsertAll] at h
  | cons v vs ih =>
    intro db db2 sid e h
    simp only [upsertAll] at h
    cases hc : update_or_create db sid v with
    | ok db1 =>
      rw [hc] at h
      exact ih h
    | conflict db1 e' =>
      rw [hc] at h
      simp only [Prod.mk.injEq, Option.some.injEq] at h
      exact Or.inl ⟨e', h.2.symm⟩
    | integrity db1 e' =>
      rw [hc] at h
      simp only [Prod.mk.injEq, Option.some.injEq] at h
      exact Or.inr ⟨e', h.2.symm⟩

/-- The quantity-zeroing write of the re-import branch keeps the store
well-formed. -/
theorem WF_zero_map {db : DB} {sid : Nat} {keep : List Int} (hwf : WF db) :
    WF { db with
          product_infos :=
            db.product_infos.map
              (fun r =>
                if r.shop_id == sid && !(keep.contains r.external_id) then
                  { r with quantity := 0 }
                else r) } := by
  have hid : (db.product_infos.map
      (fun r => if r.shop_id == sid && !(keep.contains r.external_id) then
        { r with quantity := 0 } else r)).map ProductInfoRow.id =
      db.product_infos.map ProductInfoRow.id := by
    rw [List.map_map]
    apply List.map_congr_left
    intro r hr
    simp only [Function.comp_apply]
    split <;> rfl
  refine ⟨⟨?_, ?_, ?_, ?_, ?_, ?_, ?_, ?_⟩, hwf.nd_shops, hwf.nd_categories,
    hwf.nd_shop_categories, hwf.nd_products, ?_, hwf.nd_parameters,
    hwf.nd_param_values, hwf.nd_product_parameters⟩
  · exact hwf.below.shops_lt
  · exact hwf.below.categories_lt
  · exact hwf.below.shop_categories_lt
  · exact hwf.below.products_lt
  · intro r' hr'
    obtain ⟨r, hr, hrr⟩ := List.mem_map.mp hr'
    have hb := hwf.below.product_infos_lt r hr
    subst hrr
    split
    · exact ⟨hb.1, hb.2.1, hb.2.2.1, hb.2.2.2⟩
    · exact hb
  · exact hwf.below.parameters_lt
  · exact hwf.below.param_values_lt
  · exact hwf.below.product_parameters_lt
  · show (_ : List Nat).Nodup
    rw [hid]
    exact hwf.nd_product_infos

/-- Lookups by shop and external id see through the zeroing write. -/
theorem zero_map_find? {db : DB} {sid : Nat} {keep : List Int}
    (sid' : Nat) (ext' : Int) :
    (db.product_infos.map
      (fun r => if r.shop_id == sid && !(keep.contains r.external_id) then
        { r with quantity := 0 } else r)).find?
      (fun r => r.shop_id == sid' && r.external_id == ext') =
    (db.product_infos.find? (fun r => r.shop_id == sid' && r.external_id == ext')).map
      (fun r => if r.shop_id == sid && !(keep.contains r.external_id) then
        { r with quantity := 0 } else r) := by
  rw [List.find?_map]
  have hp : ((fun r : ProductInfoRow => r.shop_id == sid' && r.external_id == ext') ∘
      (fun r => if r.shop_id == sid && !(keep.contains r.external_id) then
        { r with quantity := 0 } else r)) =
      (fun r : ProductInfoRow => r.shop_id == sid' && r.external_id == ext') := by
    funext r
    simp only [Function.comp_apply]
    split <;> rfl
  rw [hp]

/-- A successfully built listing carries the good's own external id. -/
theorem buildGood_ext {cats : List (Int × String)} {g : GoodSource}
    {v : ValidatedProductInfo} (h : buildGood cats g = .ok v) :
    g.id = some v.external_id := by
  unfold buildGood at h
  repeat' split at h
  all_goals first
    | (injection h with h; subst h; assumption)
    | cases h

/-- The external ids of a successfully built run are exactly the ids the
payload's goods announce, in order. -/
theorem buildAll_exts : ∀ {gs : List GoodSource} {cats : List (Int × String)}
    {vs : List ValidatedProductInfo}, buildAll cats gs = .ok vs →
    vs.map (fun v => v.external_id) = gs.filterMap GoodSource.id := by
  intro gs
  induction gs with
  | nil =>
    intro cats vs h
    simp only [buildAll] at h
    injection h with h
    subst h
    rfl
  | cons g gs ih =>
    intro cats vs h
    simp only [buildAll] at h
    cases hbg : buildGood cats g with
    | error e =>
      rw [hbg] at h
      cases h
    | ok v =>
      rw [hbg] at h
      dsimp only at h
      by_cases hval : productInfoValid true dbEmpty 0 v = true
      · rw [if_pos hval] at h
        cases hba : buildAll cats gs with
        | error e =>
          rw [hba] at h
          cases h
        | ok vs' =>
          rw [hba] at h
          injection h with h
          subst h
          have hext := buildGood_ext hbg
          simp only [List.map_cons, List.filterMap_cons, hext]
          rw [ih hba]
      · rw [if_neg hval] at h
        cases h

/-- A successful parse reads the shop name and the goods straight off the
payload. -/
theorem parsePayload_ok_spec {p : CatalogPayload} {pp : ParsedPayload}
    (h : parsePayload p = .ok pp) :
    p.shop = some pp.shop_name ∧ p.goods = some pp.goods := by
  unfold parsePayload at h
  repeat' split at h
  all_goals first
    | (injection h with h; subst h; exact ⟨by assumption, by assumption⟩)
    | cases h

/-- A shop id at or past every stored listing's shop id has no listing. -/
theorem listingFor_none_of_shop_lt {db : DB} {sid : Nat}
    (hall : ∀ r ∈ db.product_infos, r.shop_id < sid) (ext : Int) :
    listingFor db sid ext = none := by
  apply List.find?_eq_none.mpr
  intro r hr hp
  simp only [Bool.and_eq_true, beq_iff_eq] at hp
  exact absurd hp.1 (Nat.ne_of_lt (hall r hr))

/-- A shop that `any` reports listing-free has no listing at all. -/
theorem listingFor_none_of_any_false {db : DB} {sid : Nat}
    (hany : db.product_infos.any (fun r => r.shop_id == sid) = false) (ext : Int) :
    listingFor db sid ext = none := by
  apply List.find?_eq_none.mpr
  intro r hr hp
  simp only [Bool.and_eq_true, beq_iff_eq] at hp
  have := List.any_eq_false.mp hany r hr
  simp [hp.1] at this

/-- A row of another shop passes through the zeroing write unchanged and
stays in the table. -/
theorem zero_map_mem_of_ne {db : DB} {sid : Nat} {keep : List Int}
    {r : ProductInfoRow} (hr : r ∈ db.product_infos) (hs : r.shop_id ≠ sid) :
    r ∈ db.product_infos.map
      (fun r => if r.shop_id == sid && !(keep.contains r.external_id) then
        { r with quantity := 0 } else r) := by
  have : (if r.shop_id == sid && !(keep.contains r.external_id) then
      { r with quantity := 0 } else r) = r := by
    rw [if_neg]
    simp [hs]
  rw [← this]
  exact List.mem_map_of_mem _ hr

/-- Reference chains of other shops survive the zeroing write. -/
theorem shopGoodRefs_zero_map {db : DB} {sid sid' : Nat} {keep : List Int}
    {w : ValidatedProductInfo} (hne : sid' ≠ sid) (h : ShopGoodRefs db sid' w) :
    ShopGoodRefs
      { db with
          product_infos :=
            db.product_infos.map
              (fun r =>
                if r.shop_id == sid && !(keep.contains r.external_id) then
                  { r with quantity := 0 }
                else r) } sid' w := by
  obtain ⟨r, hr, hs, he, hpr, hcr, hparams⟩ := h
  exact ⟨r, zero_map_mem_of_ne hr (by rw [hs]; exact hne), hs, he, hpr, hcr, hparams⟩

/-- A shop none of whose ids appear among the listings has no listing. -/
theorem listingFor_none_of_shop_ne {db : DB} {sid : Nat}
    (hall : ∀ r ∈ db.product_infos, r.shop_id ≠ sid) (ext : Int) :
    listingFor db sid ext = none := by
  apply List.find?_eq_none.mpr
  intro r hr hp
  simp only [Bool.and_eq_true, beq_iff_eq] at hp
  exact absurd hp.1 (hall r hr)

/-- Shops-table invariance along a commit step. -/
theorem upsertStep_shops {sid : Nat} {exts : List Int} {db db' : DB}
    (h : UpsertStep sid exts db db') : db'.shops = db.shops := h.2.1

/-- Contacts-table invariance along a commit step. -/
theorem upsertStep_contacts {sid : Nat} {exts : List Int} {db db' : DB}
    (h : UpsertStep sid exts db db') : db'.contacts = db.contacts := h.2.2.1

/-- Buyer-orders invariance along a commit step. -/
theorem upsertStep_buyer_orders {sid : Nat} {exts : List Int} {db db' : DB}
    (h : UpsertStep sid exts db db') : db'.buyer_orders = db.buyer_orders :=
  h.2.2.2.1

/-- Seller-orders invariance along a commit step. -/
theorem upsertStep_seller_orders {sid : Nat} {exts : List Int} {db db' : DB}
    (h : UpsertStep sid exts db db') : db'.seller_orders = db.seller_orders :=
  h.2.2.2.2.1

/-- Ordered-items invariance along a commit step. -/
theorem upsertStep_ordered_items {sid : Nat} {exts : List Int} {db db' : DB}
    (h : UpsertStep sid exts db db') : db'.ordered_items = db.ordered_items :=
  h.2.2.2.2.2.1

/-- Name-dedup transport along a commit step. -/
theorem upsertStep_dedup {sid : Nat} {exts : List Int} {db db' : DB}
    (h : UpsertStep sid exts db db') : NamesDedup db → NamesDedup db' :=
  h.2.2.2.2.2.2.2.2.2.2.2

/-- Reference chains only read the seven catalog tables, so they transport
along any store agreeing on those. -/
theorem shopGoodRefs_congr {db db1 : DB}
    (hpi : db1.product_infos = db.product_infos)
    (hprod : db1.products = db.products)
    (hsc : db1.shop_categories = db.shop_categories)
    (hcat : db1.categories = db.categories)
    (hppar : db1.product_parameters = db.product_parameters)
    (hpar : db1.parameters = db.parameters)
    (hpv : db1.param_values = db.param_values)
    {sid' : Nat} {w : ValidatedProductInfo}
    (h : ShopGoodRefs db sid' w) : ShopGoodRefs db1 sid' w := by
  unfold ShopGoodRefs ProductRef CategoryRef ParamRef at h ⊢
  rw [hpi, hprod, hsc, hcat, hppar, hpar, hpv]
  exact h

/-- A successful import run establishes the full post-relation: the shop
resolves to the returned id, orders and contacts are untouched, the shop
row is created with defaults exactly when the owner had none, every
listing of the run matches its payload afterwards, stray listings are
zeroed, all listings are retained, and other shops' reference chains and
the global name dedup survive. -/
theorem run_import_ok_post {db db' : DB} {uid : Nat} {uem : String}
    {p : CatalogPayload} {sid : Nat}
    (h : run_import_products db uid uem p = (db', .ok sid))
    (hwf : WF db) (hnd : (payloadExtIds p).Nodup) :
    RunPost db db' uid uem p sid := by
  unfold run_import_products at h
  cases hpp : parsePayload p with
  | error e =>
    rw [hpp] at h
    obtain ⟨f, rfl⟩ : ∃ f, e = .parseError f := parsePayload_error_kind hpp
    exact absurd (congrArg Prod.snd h) (by simp)
  | ok pp =>
    rw [hpp] at h
    dsimp only at h
    cases hgs : getOrCreateShop db uid pp.shop_name (p.email.getD uem)
        (p.shipping_price.getD 300) with
    | error n =>
      rw [hgs] at h
      exact absurd (congrArg Prod.snd h) (by simp)
    | ok t =>
      obtain ⟨db1, sid1, created⟩ := t
      rw [hgs] at h
      dsimp only at h
      obtain ⟨hcat, hsc, hprod, hpi, hpar, hpv, hppar, hcont, hbo, hso, hoi,
        hnext, hfind, hkept, hcreated, hwfp, hded1⟩ := getOrCreateShop_spec hgs
      obtain ⟨hwf1, hsid1⟩ := hwfp hwf
      obtain ⟨hshopname, hgoods⟩ := parsePayload_ok_spec hpp
      cases hba : buildAll pp.cats pp.goods with
      | error e =>
        rw [hba] at h
        have he : e = .ok sid := congrArg Prod.snd h
        have hk := buildAll_error_kind hba
        rw [he] at hk
        simp [isValidationPhaseError] at hk
      | ok vs =>
        rw [hba] at h
        dsimp only at h
        have hex : vs.map (fun v => v.external_id) = payloadExtIds p := by
          rw [buildAll_exts hba]
          unfold payloadExtIds
          rw [hgoods]
          rfl
        have hnd' : (vs.map (fun v => v.external_id)).Nodup := by
          rw [hex]
          exact hnd
        by_cases hbr :
            (created || !(db1.product_infos.any (fun r => r.shop_id == sid1))) = true
        · rw [if_pos hbr] at h
          have hbr2 : created = true ∨
              (db1.product_infos.any (fun r => r.shop_id == sid1)) = false := by
            cases hc : created
            · right
              rw [hc] at hbr
              simpa using hbr
            · left
              rfl
          have hnoshop : ∀ r ∈ db1.product_infos, r.shop_id ≠ sid1 := by
            rcases hbr2 with hc | hany
            · obtain ⟨hf0, hsid0, hnx, hsh⟩ := hcreated hc
              intro r hr
              rw [hpi] at hr
              have := (hwf.below.product_infos_lt r hr).2.1
              rw [hsid0]
              exact Nat.ne_of_lt this
            · intro r hr
              have := List.any_eq_false.mp hany r hr
              simpa using this
          have hfree : ∀ ext, listingFor db1 sid1 ext = none :=
            listingFor_none_of_shop_ne hnoshop
          have hcu : createAll db1 sid1 vs = upsertAll db1 sid1 vs :=
            createAll_eq_upsertAll hwf1 hsid1 hnd' (fun v _ => hfree v.external_id)
          rw [hcu] at h
          cases hua : upsertAll db1 sid1 vs with
          | mk db2 oe =>
            rw [hua] at h
            cases oe with
            | some e =>
              dsimp only at h
              have he : e = .ok sid := congrArg Prod.snd h
              rcases upsertAll_error_kind hua with ⟨c, hc⟩ | ⟨x, hx⟩
              · rw [he] at hc
                cases hc
              · rw [he] at hx
                cases hx
            | none =>
              dsimp only at h
              have hd : db2 = db' := congrArg Prod.fst h
              have hs : ImportResult.ok sid1 = ImportResult.ok sid :=
                congrArg Prod.snd h
              injection hs with hs
              subst hs
              subst hd
              obtain ⟨hstep, hmatches, hrefs⟩ := upsertAll_spec hua hwf1 hsid1 hnd'
              refine ⟨upsertStep_wf hstep hwf1,
                lt_of_lt_of_le hsid1 (upsertStep_next hstep), ?_, ?_, ?_, ?_, ?_,
                ?_, ?_, ?_, ?_, ?_, ?_, ?_⟩
              · rw [upsertStep_shops hstep]
                exact hfind
              · rw [upsertStep_contacts hstep]
                exact hcont
              · rw [upsertStep_buyer_orders hstep]
                exact hbo
              · rw [upsertStep_seller_orders hstep]
                exact hso
              · rw [upsertStep_ordered_items hstep]
                exact hoi
              · intro hn0
                cases hc : created with
                | false =>
                  obtain ⟨_, s0, hf0, _⟩ := hkept hc
                  rw [hn0] at hf0
                  cases hf0
                | true =>
                  obtain ⟨hf0, hsid0, hnx, hsh⟩ := hcreated hc
                  refine ⟨pp.shop_name, hshopname, hsid0, ?_⟩
                  rw [upsertStep_shops hstep, hsh, hsid0]
              · intro s0 hf0
                cases hc : created with
                | false =>
                  obtain ⟨hdb1, s0', hf0', hid'⟩ := hkept hc
                  rw [hf0'] at hf0
                  injection hf0 with hf0
                  subst hf0
                  constructor
                  · rw [upsertStep_shops hstep, hdb1]
                  · exact hid'.symm
                | true =>
                  obtain ⟨hf1, _, _, _⟩ := hcreated hc
                  rw [hf0] at hf1
                  cases hf1
              · refine ⟨pp, vs, hpp, hba, hex, hmatches, ?_⟩
                intro v hv _
                exact hrefs v hv (hfree v.external_id)
              · intro r hr hrs hne
                rw [← hex] at hne
                rcases upsertStep_new hstep r hr with ⟨_, hin⟩ | hin
                · exact absurd hin hne
                · exact absurd hrs (hnoshop r hin)
              · intro r hr
                rw [← hpi] at hr
                rcases upsertStep_old hstep r hr with
                  ⟨_, _, r', hr', hid, hshop, hext, _⟩ | hin
                · exact ⟨r', hr', hid, hshop, hext⟩
                · exact ⟨r, hin, rfl, rfl, rfl⟩
              · intro sid' w hne hsg
                have hsg1 : ShopGoodRefs db1 sid' w :=
                  shopGoodRefs_congr hpi hprod hsc hcat hppar hpar hpv hsg
                exact upsertStep_refs hstep sid' w (Or.inl hne) hsg1
              · intro hd0
                exact upsertStep_dedup hstep (hded1 hd0)
        · rw [if_neg hbr] at h
          have hcf : created = false := by
            cases hc : created
            · rfl
            · exfalso
              apply hbr
              rw [hc]
              simp
          obtain ⟨hdb1, s0, hf0, hid0⟩ := hkept hcf
          subst hdb1
          cases hua : upsertAll
              { db1 with
                  product_infos :=
                    db1.product_infos.map
                      (fun r =>
                        if r.shop_id == sid1 &&
                            !((vs.map (fun v => v.external_id)).contains r.external_id) then
                          { r with quantity := 0 }
                        else r) } sid1 vs with
          | mk db3 oe =>
            rw [hua] at h
            cases oe with
            | some e =>
              dsimp only at h
              have he : e = .ok sid := congrArg Prod.snd h
              rcases upsertAll_error_kind hua with ⟨c, hc⟩ | ⟨x, hx⟩
              · rw [he] at hc
                cases hc
              · rw [he] at hx
                cases hx
            | none =>
              dsimp only at h
              have hd : db3 = db' := congrArg Prod.fst h
              have hs : ImportResult.ok sid1 = ImportResult.ok sid :=
                congrArg Prod.snd h
              injection hs with hs
              subst hs
              subst hd
              have hwf2 : WF _ :=
                @WF_zero_map _ sid1 (vs.map (fun v => v.external_id)) hwf1
              have hsid2 : sid1 < db1.next_id := hsid1
              obtain ⟨hstep, hmatches, hrefs⟩ := upsertAll_spec hua hwf2 hsid2 hnd'
              have hfr : ∀ r : ProductInfoRow,
                  (if r.shop_id == sid1 &&
                      !((vs.map (fun v => v.external_id)).contains r.external_id) then
                    { r with quantity := 0 }
                  else r).id = r.id ∧
                  (if r.shop_id == sid1 &&
                      !((vs.map (fun v => v.external_id)).contains r.external_id) then
                    { r with quantity := 0 }
                  else r).shop_id = r.shop_id ∧
                  (if r.shop_id == sid1 &&
                      !((vs.map (fun v => v.external_id)).contains r.external_id) then
                    { r with quantity := 0 }
                  else r).external_id = r.external_id := by
                intro r
                split <;> exact ⟨rfl, rfl, rfl⟩
              refine ⟨upsertStep_wf hstep hwf2, ?_, ?_, ?_, ?_, ?_, ?_,
                ?_, ?_, ?_, ?_, ?_, ?_, ?_⟩
              · have h25 := upsertStep_next hstep
                exact lt_of_lt_of_le hsid2 h25
              · rw [upsertStep_shops hstep]
                exact hfind
              · rw [upsertStep_contacts hstep]
              · rw [upsertStep_buyer_orders hstep]
              · rw [upsertStep_seller_orders hstep]
              · rw [upsertStep_ordered_items hstep]
              · intro hn0
                rw [hn0] at hf0
                cases hf0
              · intro s1 hf1
                rw [hf0] at hf1
                injection hf1 with hf1
                subst hf1
                constructor
                · rw [upsertStep_shops hstep]
                · exact hid0.symm
              · refine ⟨pp, vs, hpp, hba, hex, hmatches, ?_⟩
                intro v hv hnone
                apply hrefs v hv
                show (List.map _ _).find? _ = none
                rw [zero_map_find?]
                rw [show db1.product_infos.find?
                    (fun r => r.shop_id == sid1 && r.external_id == v.external_id) =
                    none from hnone]
                rfl
              · intro r hr hrs hne
                rw [← hex] at hne
                rcases upsertStep_new hstep r hr with ⟨_, hin⟩ | hin
                · exact absurd hin hne
                · obtain ⟨r0, hr0, hfr0⟩ := List.mem_map.mp hin
                  by_cases hc0 : (r0.shop_id == sid1 &&
                      !((vs.map (fun v => v.external_id)).contains r0.external_id)) = true
                  · rw [if_pos hc0] at hfr0
                    rw [← hfr0]
                  · rw [if_neg hc0] at hfr0
                    subst hfr0
                    simp only [Bool.and_eq_true, beq_iff_eq, Bool.not_eq_true,
                      Bool.not_eq_true'] at hc0
                    exact absurd (hc0 ⟨hrs, by simpa using hne⟩) (fun f => f)
              · intro r hr
                have hmem : (if r.shop_id == sid1 &&
                    !((vs.map (fun v => v.external_id)).contains r.external_id) then
                      { r with quantity := 0 }
                    else r) ∈
                    db1.product_infos.map
                      (fun r =>
                        if r.shop_id == sid1 &&
                            !((vs.map (fun v => v.external_id)).contains r.external_id) then
                          { r with quantity := 0 }
                        else r) := List.mem_map_of_mem _ hr
                obtain ⟨hfid, hfshop, hfext⟩ := hfr r
                rcases upsertStep_old hstep _ hmem with
                  ⟨_, _, r', hr', hid, hshop, hext, _⟩ | hin
                · exact ⟨r', hr', hid.trans hfid, hshop.trans hfshop,
                    hext.trans hfext⟩
                · exact ⟨_, hin, hfid, hfshop, hfext⟩
              · intro sid' w hne hsg
                have hsg2 := @shopGoodRefs_zero_map _ sid1 sid'
                  (vs.map (fun v => v.external_id)) _ hne hsg
                exact upsertStep_refs hstep sid' w (Or.inl hne) hsg2
              · intro hd0
                apply upsertStep_dedup hstep
                exact ⟨hd0.categories, hd0.products, hd0.parameters, hd0.param_values⟩

/-- Helper: a listing match forces a stored row of the shop, so the
`any`-emptiness test cannot hold for a matched shop. -/
theorem any_shop_of_matches {db : DB} {sid : Nat} {v : ValidatedProductInfo}
    (h : listingMatches db sid v) :
    db.product_infos.any (fun r => r.shop_id == sid) = true := by
  obtain ⟨r, hr, _⟩ := h
  have hmem := List.mem_of_find?_eq_some hr
  have hp := List.find?_some hr
  simp only [Bool.and_eq_true, beq_iff_eq] at hp
  apply List.any_eq_true.mpr
  exact ⟨r, hmem, by simp [hp.1]⟩

/-- Re-running the reconciler on a store it has just produced with the
same payload rewrites nothing: the run returns the same store and id. -/
theorem run_import_idem {db db' : DB} {uid : Nat} {uem : String}
    {p : CatalogPayload} {sid : Nat}
    (h : run_import_products db uid uem p = (db', .ok sid))
    (hwf : WF db) (hnd : (payloadExtIds p).Nodup) :
    run_import_products db' uid uem p = (db', .ok sid) := by
  obtain ⟨hwf', hsid', hfind', _, _, _, _, _, _,
    ⟨pp, vs, hpp, hba, hex, hmatches, _⟩, hzero, _, _, _⟩ :=
    run_import_ok_post h hwf hnd
  obtain ⟨s, hs, hsid⟩ := hfind'
  unfold run_import_products
  rw [hpp]
  dsimp only
  have hgs : getOrCreateShop db' uid pp.shop_name (p.email.getD uem)
      (p.shipping_price.getD 300) = .ok (db', sid, false) := by
    unfold getOrCreateShop
    rw [hs]
    dsimp only
    rw [hsid]
  rw [hgs]
  dsimp only
  rw [hba]
  dsimp only
  by_cases hany : (db'.product_infos.any (fun r => r.shop_id == sid)) = true
  · rw [if_neg (by simp [hany])]
    have hkeepz : zeroedOutside db' sid (vs.map (fun v => v.external_id)) := by
      rw [hex]
      exact hzero
    have hzm := zero_map_id hkeepz
    have hnoop := upsertAll_noop hmatches
    rw [show ({ db' with
        product_infos :=
          db'.product_infos.map
            (fun r =>
              if r.shop_id == sid &&
                  !((vs.map (fun v => v.external_id)).contains r.external_id) then
                { r with quantity := 0 }
              else r) } : DB) = db' by rw [hzm]]
    rw [hnoop]
  · rw [if_pos (by simp [Bool.not_eq_true] at hany ⊢; exact hany)]
    have hvs : vs = [] := by
      cases vs with
      | nil => rfl
      | cons v vs =>
        exact absurd (any_shop_of_matches (hmatches v (List.mem_cons_self v vs))) hany
    subst hvs
    rfl

/-- A run ending in one of the four validate-phase errors mutates no
catalog or order table; at most the owner's missing shop row (step 2) has
been created as a side effect. -/
theorem run_import_error_post {db db' : DB} {uid : Nat} {uem : String}
    {p : CatalogPayload} {e : ImportResult}
    (h : run_import_products db uid uem p = (db', e))
    (he : isValidationPhaseError e = true) :
    db'.categories = db.categories ∧ db'.shop_categories = db.shop_categories ∧
    db'.products = db.products ∧ db'.product_infos = db.product_infos ∧
    db'.parameters = db.parameters ∧ db'.param_values = db.param_values ∧
    db'.product_parameters = db.product_parameters ∧
    db'.contacts = db.contacts ∧ db'.buyer_orders = db.buyer_orders ∧
    db'.seller_orders = db.seller_orders ∧ db'.ordered_items = db.ordered_items ∧
    (db' = db ∨
      (db.shops.find? (fun s => s.owner_id == uid) = none ∧
       ∃ name, p.shop = some name ∧
       db'.shops = db.shops ++
         [⟨db.next_id, uid, name, p.email.getD uem, p.shipping_price.getD 300,
           true⟩])) := by
  unfold run_import_products at h
  cases hpp : parsePayload p with
  | error e0 =>
    rw [hpp] at h
    have hd : db = db' := congrArg Prod.fst h
    subst hd
    exact ⟨rfl, rfl, rfl, rfl, rfl, rfl, rfl, rfl, rfl, rfl, rfl, Or.inl rfl⟩
  | ok pp =>
    rw [hpp] at h
    dsimp only at h
    obtain ⟨hshopname, hgoods⟩ := parsePayload_ok_spec hpp
    cases hgs : getOrCreateShop db uid pp.shop_name (p.email.getD uem)
        (p.shipping_price.getD 300) with
    | error n =>
      rw [hgs] at h
      have hee : ImportResult.nameOccupied n = e := congrArg Prod.snd h
      rw [← hee] at he
      simp [isValidationPhaseError] at he
    | ok t =>
      obtain ⟨db1, sid1, created⟩ := t
      rw [hgs] at h
      dsimp only at h
      obtain ⟨hcat, hsc, hprod, hpi, hpar, hpv, hppar, hcont, hbo, hso, hoi,
        hnext, hfind, hkept, hcreated, hwfp, hded1⟩ := getOrCreateShop_spec hgs
      cases hba : buildAll pp.cats pp.goods with
      | error e0 =>
        rw [hba] at h
        have hd : db1 = db' := congrArg Prod.fst h
        subst hd
        refine ⟨hcat, hsc, hprod, hpi, hpar, hpv, hppar, hcont, hbo, hso, hoi, ?_⟩
        cases hc : created with
        | false =>
          exact Or.inl (hkept hc).1
        | true =>
          obtain ⟨hf0, hsid0, hnx, hsh⟩ := hcreated hc
          refine Or.inr ⟨hf0, pp.shop_name, hshopname, ?_⟩
          rw [hsh, hsid0]
      | ok vs =>
        rw [hba] at h
        dsimp only at h
        by_cases hbr :
            (created || !(db1.product_infos.any (fun r => r.shop_id == sid1))) = true
        · rw [if_pos hbr] at h
          cases hca : createAll db1 sid1 vs with
          | mk db2 oe =>
            rw [hca] at h
            cases oe with
            | some e0 =>
              dsimp only at h
              have hee : e0 = e := congrArg Prod.snd h
              subst hee
              rcases createAll_error_kind hca with ⟨c, hc⟩ | ⟨x, hx⟩
              · rw [hc] at he
                simp [isValidationPhaseError] at he
              · rw [hx] at he
                simp [isValidationPhaseError] at he
            | none =>
              dsimp only at h
              have hee : ImportResult.ok sid1 = e := congrArg Prod.snd h
              rw [← hee] at he
              simp [isValidationPhaseError] at he
        · rw [if_neg hbr] at h
          cases hua : upsertAll
              { db1 with
                  product_infos :=
                    db1.product_infos.map
                      (fun r =>
                        if r.shop_id == sid1 &&
                            !((vs.map (fun v => v.external_id)).contains
                              r.external_id) then
                          { r with quantity := 0 }
                        else r) } sid1 vs with
          | mk db3 oe =>
            rw [hua] at h
            cases oe with
            | some e0 =>
              dsimp only at h
              have hee : e0 = e := congrArg Prod.snd h
              subst hee
              rcases upsertAll_error_kind hua with ⟨c, hc⟩ | ⟨x, hx⟩
              · rw [hc] at he
                simp [isValidationPhaseError] at he
              · rw [hx] at he
                simp [isValidationPhaseError] at he
            | none =>
              dsimp only at h
              have hee : ImportResult.ok sid1 = e := congrArg Prod.snd h
              rw [← hee] at he
              simp [isValidationPhaseError] at he

/-- The checkout scan's acceptability flag: it stays up exactly when it was
up and every remaining item fits the available stock. -/
theorem checkoutScan_flag {db : DB} : ∀ (its : List SellerOrderItemRow) (acc : Bool),
    (checkoutScan db its acc).1 =
      (acc && its.all
        (fun it => 0 ≤ availableQty db it.product_info_id - it.quantity)) := by
  intro its
  induction its with
  | nil =>
    intro acc
    simp [checkoutScan]
  | cons it rest ih =>
    intro acc
    simp only [checkoutScan, List.all_cons]
    by_cases hres : availableQty db it.product_info_id - it.quantity < 0
    · rw [if_pos hres]
      dsimp only
      rw [ih]
      have : decide (0 ≤ availableQty db it.product_info_id - it.quantity) = false := by
        simp
        omega
      rw [this]
      simp
    · rw [if_neg hres]
      have : decide (0 ≤ availableQty db it.product_info_id - it.quantity) = true := by
        simp
        omega
      rw [this]
      cases acc with
      | true =>
        rw [if_pos rfl]
        dsimp only
        rw [ih]
        simp
      | false =>
        rw [if_neg (by simp)]
        rw [ih]
        simp

/-- The checkout scan annotates exactly the shortfall items, in order,
with the documented message. -/
theorem checkoutScan_annotations {db : DB} :
    ∀ (its : List SellerOrderItemRow) (acc : Bool),
    (checkoutScan db its acc).2.2 =
      (its.filter
        (fun it => availableQty db it.product_info_id - it.quantity < 0)).map
        (fun it =>
          (it.id, shortfallMsg it.quantity (availableQty db it.product_info_id))) := by
  intro its
  induction its with
  | nil =>
    intro acc
    simp [checkoutScan]
  | cons it rest ih =>
    intro acc
    simp only [checkoutScan]
    by_cases hres : availableQty db it.product_info_id - it.quantity < 0
    · rw [if_pos hres]
      dsimp only
      rw [ih]
      rw [List.filter_cons_of_pos (by simpa using hres)]
      rfl
    · rw [if_neg hres]
      rw [List.filter_cons_of_neg (by simpa using hres)]
      cases acc with
      | true =>
        rw [if_pos rfl]
        dsimp only
        exact ih true
      | false =>
        rw [if_neg (by simp)]
        exact ih false

/-- C2: a checkout confirmation in which some line item's requested
quantity exceeds the available stock mutates nothing — the store is
returned unchanged, so no listing quantity, seller-order or buyer-order
state, contact or confirmation date changes — and the partial-acceptance
result carries the shortfall annotations of exactly the failing items. -/
theorem c2_checkout_shortfall_mutates_nothing {db : DB} {uid cid now : Nat}
    {order : BuyerOrderRow}
    (hord : db.buyer_orders.find?
      (fun b => b.user_id == uid && b.state == BuyerOrderState.basket) = some order)
    (hc : db.contacts.any
      (fun c => c.id == cid && c.user_id == uid && !c.is_deleted) = true)
    (hbad : ∃ it ∈ basketItems db order.id,
      availableQty db it.product_info_id - it.quantity < 0) :
    order_create db uid cid now =
      (db, .degraded order.id
        (((basketItems db order.id).filter
          (fun it => availableQty db it.product_info_id - it.quantity < 0)).map
          (fun it =>
            (it.id, shortfallMsg it.quantity (availableQty db it.product_info_id))))) := by
  unfold order_create
  rw [hord]
  dsimp only
  rw [hc]
  rw [if_neg (by simp)]
  have hflag : (checkoutScan db (basketItems db order.id) true).1 = false := by
    rw [checkoutScan_flag]
    obtain ⟨it, hit, hlt⟩ := hbad
    simp only [Bool.true_and]
    apply List.all_eq_false.mpr
    exact ⟨it, hit, by simp; omega⟩
  rw [hflag]
  rw [if_neg (by simp)]
  rw [checkoutScan_annotations]

/-- C1 (amended): a run ending in one of the four validate-phase errors
performs no mutation on any catalog or order table — except that the Shop
row get-or-created in step 2, before validation, is retained: the store
is the input store, or the input store plus exactly that one shop row
with the payload defaults. -/
theorem c1_validation_error_leaves_only_shop_row {db db' : DB} {uid : Nat}
    {uem : String} {p : CatalogPayload} {e : ImportResult}
    (h : run_import_products db uid uem p = (db', e))
    (he : isValidationPhaseError e = true) :
    db'.categories = db.categories ∧ db'.shop_categories = db.shop_categories ∧
    db'.products = db.products ∧ db'.product_infos = db.product_infos ∧
    db'.parameters = db.parameters ∧ db'.param_values = db.param_values ∧
    db'.product_parameters = db.product_parameters ∧
    db'.contacts = db.contacts ∧ db'.buyer_orders = db.buyer_orders ∧
    db'.seller_orders = db.seller_orders ∧ db'.ordered_items = db.ordered_items ∧
    (db' = db ∨
      (db.shops.find? (fun s => s.owner_id == uid) = none ∧
       ∃ name, p.shop = some name ∧
       db'.shops = db.shops ++
         [⟨db.next_id, uid, name, p.email.getD uem, p.shipping_price.getD 300,
           true⟩])) :=
  run_import_error_post h he

/-- C1 counterexample: the category-match failure aborts the run with a
structured error, yet the Shop row created in step 2 is retained — the
resulting store differs from the input store. -/
theorem c1_failed_run_retains_shop :
    run_import_products dbEmpty 7 "u@x" payloadBadCat =
      ({ dbEmpty with shops := [⟨1, 7, "A", "u@x", 300, true⟩], next_id := 2 },
       .categoryMatchError "1") ∧
    ({ dbEmpty with shops := [⟨1, 7, "A", "u@x", 300, true⟩], next_id := 2 } : DB)
      ≠ dbEmpty := by
  constructor
  · decide
  · decide

/-- C1 witness: the amended theorem applied to the failing category-match
run — the error is a validate-phase error and the listings table stays
untouched. -/
theorem c1_validation_error_leaves_only_shop_row_witness :
    isValidationPhaseError (run_import_products dbEmpty 7 "u@x" payloadBadCat).2
      = true ∧
    (run_import_products dbEmpty 7 "u@x" payloadBadCat).1.product_infos =
      dbEmpty.product_infos := by
  refine ⟨by decide, ?_⟩
  have h := c1_validation_error_leaves_only_shop_row
    (show run_import_products dbEmpty 7 "u@x" payloadBadCat =
        ((run_import_products dbEmpty 7 "u@x" payloadBadCat).1,
         (run_import_products dbEmpty 7 "u@x" payloadBadCat).2) from rfl)
    (by decide)
  exact h.2.2.2.1

/-- C3 (amended): re-running the reconciler with the identical payload of
the immediately preceding successful run — a payload whose goods carry
pairwise-distinct external ids — rewrites nothing: the second run returns
the same store and the same shop id. -/
theorem c3_identical_rerun_is_noop {db db' : DB} {uid : Nat} {uem : String}
    {p : CatalogPayload} {sid : Nat}
    (h : run_import_products db uid uem p = (db', .ok sid))
    (hwf : WF db) (hnd : (payloadExtIds p).Nodup) :
    run_import_products db' uid uem p = (db', .ok sid) :=
  run_import_idem h hwf hnd

/-- C3 counterexample: with the same external id listed twice in one
payload, re-importing `payloadDup` into shop `A`'s existing catalog
succeeds (the upsert path handles the duplicate), yet running it again
with the identical payload — immediately after that successful run —
succeeds too and still rewrites rows: the duplicate's parameter row is
re-created under a fresh id on every run, so the idempotence sentence
fails without a distinctness proviso. -/
theorem c3_duplicate_ext_ids_rewrite :
    (run_import_products dbShopA 7 "u@x" payloadDup).2 = .ok 1 ∧
    (run_import_products (run_import_products dbShopA 7 "u@x" payloadDup).1
        7 "u@x" payloadDup).2 = .ok 1 ∧
    (run_import_products (run_import_products dbShopA 7 "u@x" payloadDup).1
        7 "u@x" payloadDup).1 ≠
      (run_import_products dbShopA 7 "u@x" payloadDup).1 := by
  refine ⟨by decide, by decide, by decide⟩

/-- C3 witness: the amended theorem applied to the one-good import of
`payloadA` — the second identical run returns `dbShopA` unchanged. -/
theorem c3_identical_rerun_is_noop_witness :
    run_import_products dbShopA 7 "u@x" payloadA = (dbShopA, .ok 1) :=
  c3_identical_rerun_is_noop
    (show run_import_products dbEmpty 7 "u@x" payloadA = (dbShopA, .ok 1)
      from by decide)
    ⟨⟨by decide, by decide, by decide, by decide, by decide, by decide,
      by decide, by decide⟩, by decide, by decide, by decide, by decide,
      by decide, by decide, by decide, by decide⟩
    (by decide)

/-- C4: for a successful import run (distinct external ids), every
pre-existing listing of the shop whose external id is absent from the
run's listing set survives under its own id with quantity 0 — retained,
never deleted — and every listing present in the run is upserted: its
stored row afterwards carries exactly the payload's mutable fields. -/
theorem c4_stray_zeroed_present_upserted {db db' : DB} {uid : Nat}
    {uem : String} {p : CatalogPayload} {sid : Nat}
    (h : run_import_products db uid uem p = (db', .ok sid))
    (hwf : WF db) (hnd : (payloadExtIds p).Nodup) :
    (∀ r ∈ db.product_infos, r.shop_id = sid →
      r.external_id ∉ payloadExtIds p →
      ∃ r' ∈ db'.product_infos, r'.id = r.id ∧ r'.shop_id = sid ∧
        r'.external_id = r.external_id ∧ r'.quantity = 0) ∧
    (∃ pp vs, parsePayload p = .ok pp ∧ buildAll pp.cats pp.goods = .ok vs ∧
      vs.map (fun v => v.external_id) = payloadExtIds p ∧
      ∀ v ∈ vs, listingMatches db' sid v) := by
  have post := run_import_ok_post h hwf hnd
  constructor
  · intro r hr hs hne
    obtain ⟨r', hr', hid, hshop, hext⟩ := post.retained r hr
    refine ⟨r', hr', hid, by rw [hshop, hs], hext, ?_⟩
    exact post.zeroed r' hr' (by rw [hshop, hs]) (by rw [hext]; exact hne)
  · obtain ⟨pp, vs, h1, h2, h3, h4, _⟩ := post.listings
    exact ⟨pp, vs, h1, h2, h3, h4⟩

/-- C4 witness: re-importing shop `A`'s catalog with only the new good
`gCar` leaves the old `gBall` listing in place as row 5 with quantity
zeroed. -/
theorem c4_stray_zeroed_present_upserted_witness :
    ∃ r' ∈ (run_import_products dbShopA 7 "u@x" payloadB).1.product_infos,
      r'.id = 5 ∧ r'.shop_id = 1 ∧ r'.external_id = 10 ∧ r'.quantity = 0 := by
  have h := c4_stray_zeroed_present_upserted
    (show run_import_products dbShopA 7 "u@x" payloadB =
        ((run_import_products dbShopA 7 "u@x" payloadB).1, .ok 1) from by decide)
    ⟨⟨by decide, by decide, by decide, by decide, by decide, by decide,
      by decide, by decide⟩, by decide, by decide, by decide, by decide,
      by decide, by decide, by decide, by decide⟩
    (by decide)
  exact h.1 ⟨5, 1, 3, 4, 10, 5, 100, 150⟩ (by decide) rfl (by decide)

/-- C10: on a successful run, when the owner had no shop, the created Shop
row takes the payload's shop name, the owner's own email when the `email`
key is omitted, and base shipping price 300 when `shipping_price` is
omitted; when the owner already had a shop, the shops table is left
completely unchanged by the run. -/
theorem c10_shop_defaults_and_reimport_kept {db db' : DB} {uid : Nat}
    {uem : String} {p : CatalogPayload} {sid : Nat}
    (h : run_import_products db uid uem p = (db', .ok sid))
    (hwf : WF db) (hnd : (payloadExtIds p).Nodup) :
    (db.shops.find? (fun s => s.owner_id == uid) = none →
      p.email = none → p.shipping_price = none →
      ∃ name, p.shop = some name ∧ sid = db.next_id ∧
        db'.shops = db.shops ++ [⟨sid, uid, name, uem, 300, true⟩]) ∧
    (∀ s0, db.shops.find? (fun s => s.owner_id == uid) = some s0 →
      db'.shops = db.shops ∧ sid = s0.id) := by
  have post := run_import_ok_post h hwf hnd
  constructor
  · intro hn he hs
    obtain ⟨name, hname, hsid, hsh⟩ := post.shop_created hn
    refine ⟨name, hname, hsid, ?_⟩
    rw [hsh, he, hs]
    rfl
  · exact post.shop_kept

/-- C10 witness: owner 7's first import of `payloadA` (no `email`, no
`shipping_price` key) creates the shop with the owner's email `u@x` and
the default shipping price 300. -/
theorem c10_shop_defaults_and_reimport_kept_witness :
    (run_import_products dbEmpty 7 "u@x" payloadA).1.shops =
      dbEmpty.shops ++ [⟨1, 7, "A", "u@x", 300, true⟩] := by
  have h := c10_shop_defaults_and_reimport_kept
    (show run_import_products dbEmpty 7 "u@x" payloadA =
        ((run_import_products dbEmpty 7 "u@x" payloadA).1, .ok 1) from by decide)
    ⟨⟨by decide, by decide, by decide, by decide, by decide, by decide,
      by decide, by decide⟩, by decide, by decide, by decide, by decide,
      by decide, by decide, by decide, by decide⟩
    (by decide)
  obtain ⟨name, hname, hsid, hsh⟩ := h.1 (by decide) rfl rfl
  have hA : "A" = name := by
    injection (show some "A" = some name from hname) with h2
  subst hA
  exact hsh

/-- C6 (amended): the import validates each built listing through the same
serializer as the manual path, but in the importing context the
taken-external-id check is skipped: import-context validation reduces to
the shared field checks, manual-context validation is the shared checks
plus the external-id-free check, and the first listing failing the shared
checks aborts the run with the offending good attached. -/
theorem c6_import_validation_skips_taken_check :
    (∀ (db : DB) (sid : Nat) (v : ValidatedProductInfo),
      productInfoValid true db sid v = sharedFieldChecks v) ∧
    (∀ (db : DB) (sid : Nat) (v : ValidatedProductInfo),
      productInfoValid false db sid v =
        (sharedFieldChecks v && !externalIdTaken db sid v.external_id)) ∧
    (∀ (cats : List (Int × String)) (g : GoodSource) (gs : List GoodSource)
      (v : ValidatedProductInfo), buildGood cats g = .ok v →
      productInfoValid true dbEmpty 0 v = false →
      buildAll cats (g :: gs) = .error (.invalidProductInfo g)) := by
  refine ⟨?_, ?_, ?_⟩
  · intro db sid v
    simp [productInfoValid]
  · intro db sid v
    simp [productInfoValid]
  · intro cats g gs v hg hv
    simp [buildAll, hg, hv]

/-- C6 counterexample: external id 10 is already taken in shop 1 of
`dbShopA`; the manual-path validation rejects the payload while
the importing-context validation accepts it — the two validations
differ. -/
theorem c6_taken_ext_id_import_only :
    externalIdTaken dbShopA 1 10 = true ∧
    productInfoValid true dbShopA 1 vTaken = true ∧
    productInfoValid false dbShopA 1 vTaken = false := by
  refine ⟨by decide, by decide, by decide⟩

/-- C6 witness: the amended theorem's abort clause at a concrete good with
a negative price — the run is rejected with the good echoed. -/
theorem c6_import_validation_skips_taken_check_witness :
    buildAll [(1, "Toys")] [gNegPrice] = .error (.invalidProductInfo gNegPrice) := by
  have h := c6_import_validation_skips_taken_check
  exact h.2.2 [(1, "Toys")] gNegPrice [] ⟨12, 1, "Toys", "X", [], -5, 1, 1⟩
    rfl (by decide)

/-- C2 witness: the claim theorem applied to the shortfall basket — buyer
20 ordered 9 units of listing 5 with only 5 in stock; the store comes back
unchanged with the one annotation. -/
theorem c2_checkout_shortfall_mutates_nothing_witness :
    order_create dbBasketShortfall 20 30 99 =
      (dbBasketShortfall, .degraded 9 [(11, shortfallMsg 9 5)]) := by
  have h := @c2_checkout_shortfall_mutates_nothing dbBasketShortfall 20 30 99
    ⟨9, 20, BuyerOrderState.basket, none, none⟩ (by decide) (by decide)
    ⟨⟨11, 10, 5, 9, 100, 150⟩, by decide, by decide⟩
  exact h.trans (by decide)

/-- C5 (amended): the line-item write of `BasketView.post` —
`update_or_create` with the price snapshot among the defaults — rewrites
quantity, purchase_price and purchase_price_rrc on every add: after the
write the line item for this order and listing carries exactly the values
just passed, whether the item already existed or not, so a re-add
refreshes the snapshot to the listing's current price. -/
theorem c5_snapshot_rewritten_each_add :
    ∀ (db : DB) (oid pid : Nat) (q pr prr : Int),
      ∃ it ∈ (upsertOrderItem db oid pid q pr prr).ordered_items,
        it.order_id = oid ∧ it.product_info_id = pid ∧
        it.quantity = q ∧ it.purchase_price = pr ∧ it.purchase_price_rrc = prr := by
  intro db oid pid q pr prr
  unfold upsertOrderItem
  cases hf : db.ordered_items.find?
      (fun it => it.order_id == oid && it.product_info_id == pid) with
  | some it =>
    have hp := List.find?_some hf
    simp only [Bool.and_eq_true, beq_iff_eq] at hp
    have hmem := List.mem_of_find?_eq_some hf
    have heq : (fun x => if x.id == it.id then { x with quantity := q, purchase_price := pr, purchase_price_rrc := prr } else x) it = { it with quantity := q, purchase_price := pr, purchase_price_rrc := prr } := by
      dsimp only
      rw [if_pos (by simp)]
    have hmem2 : ({ it with quantity := q, purchase_price := pr, purchase_price_rrc := prr } : SellerOrderItemRow) ∈ db.ordered_items.map (fun x => if x.id == it.id then { x with quantity := q, purchase_price := pr, purchase_price_rrc := prr } else x) := by
      rw [← heq]
      exact List.mem_map_of_mem _ hmem
    exact ⟨_, hmem2, hp.1, hp.2, rfl, rfl, rfl⟩
  | none =>
    exact ⟨⟨db.next_id, oid, pid, q, pr, prr⟩,
      List.mem_append_right _ (List.mem_singleton.mpr rfl), rfl, rfl, rfl, rfl, rfl⟩

/-- C5 counterexample: the snapshot is not immutable — after the listing's
price changes from 100 to 120, re-adding the same listing overwrites the
stored purchase_price 100 with 120. -/
theorem c5_readd_overwrites_snapshot :
    dbBasketA.ordered_items.map
      (fun it => (it.product_info_id, it.purchase_price)) = [(5, 100)] ∧
    (basket_post dbPriceBump 20 [(5, 3)]).1.ordered_items.map
      (fun it => (it.product_info_id, it.purchase_price)) = [(5, 120)] := by
  constructor
  · decide
  · decide

/-- Fold invariance: a predicate preserved by each step holds of the
fold's result. -/
theorem foldl_inv {α β : Type} (g : β → α → β) (P : β → Prop)
    (hstep : ∀ b a, P b → P (g b a)) :
    ∀ (l : List α) (b : β), P b → P (l.foldl g b) := by
  intro l
  induction l with
  | nil =>
    intro b hb
    exact hb
  | cons a l ih =>
    intro b hb
    exact ih (g b a) (hstep b a hb)

/-- The line-item upsert never touches the buyer orders. -/
theorem upsertOrderItem_buyer_orders (db : DB) (oid pid : Nat) (q pr prr : Int) :
    (upsertOrderItem db oid pid q pr prr).buyer_orders = db.buyer_orders := by
  unfold upsertOrderItem
  split <;> rfl

/-- The seller-order get-or-create never touches the buyer orders. -/
theorem getOrCreateSellerOrder_buyer_orders (db : DB) (bid : Nat) (s : ShopRow) :
    (getOrCreateSellerOrder db bid s).1.buyer_orders = db.buyer_orders := by
  unfold getOrCreateSellerOrder
  split <;> rfl

/-- C9 (amended): for a buyer with no basket, `BasketView.post` creates the
basket-state BuyerOrder before validating the items, so the new basket row
is persisted whatever happens next: it is there after every request; a
request naming a nonexistent listing is answered with the validation
error — not with the basket — yet leaves the created empty basket behind;
and a request whose listings all belong to closed shops succeeds and
returns the persisted empty basket with zero SellerOrders. -/
theorem c9_basket_persists_through_validation {db : DB} {uid : Nat}
    {items : List (Nat × Int)} (hnb : basketObject db uid = none) :
    (basket_post db uid items).1.buyer_orders =
      db.buyer_orders ++ [⟨db.next_id, uid, BuyerOrderState.basket, none, none⟩] ∧
    (items.all
        (fun it => db.product_infos.any (fun r => r.id == it.1) && 1 ≤ it.2)
        = false →
      basket_post db uid items =
        ({ db with
            buyer_orders := db.buyer_orders ++
              [⟨db.next_id, uid, BuyerOrderState.basket, none, none⟩],
            next_id := db.next_id + 1 },
         .invalidItems)) ∧
    (items.all
        (fun it => db.product_infos.any (fun r => r.id == it.1) && 1 ≤ it.2)
        = true →
     db.shops.filter
        (fun s => s.is_open && db.product_infos.any
          (fun r => r.shop_id == s.id &&
            (items.map (fun it => it.1)).contains r.id)) = [] →
      basket_post db uid items =
        ({ db with
            buyer_orders := db.buyer_orders ++
              [⟨db.next_id, uid, BuyerOrderState.basket, none, none⟩],
            next_id := db.next_id + 1 },
         .ok db.next_id)) := by
  unfold basket_post
  rw [hnb]
  dsimp only
  by_cases hval : items.all
      (fun it => db.product_infos.any (fun r => r.id == it.1) && 1 ≤ it.2) = true
  · rw [if_pos hval]
    refine ⟨?_, ?_, ?_⟩
    · apply foldl_inv _
        (fun d : DB => d.buyer_orders = db.buyer_orders ++
          [(⟨db.next_id, uid, BuyerOrderState.basket, none, none⟩ : BuyerOrderRow)])
      · intro acc s hacc
        dsimp only
        apply foldl_inv _
          (fun d : DB => d.buyer_orders = db.buyer_orders ++
            [(⟨db.next_id, uid, BuyerOrderState.basket, none, none⟩ : BuyerOrderRow)])
        · intro acc2 r h2
          rw [upsertOrderItem_buyer_orders]
          exact h2
        · rw [getOrCreateSellerOrder_buyer_orders]
          exact hacc
      · rfl
    · intro hcontra
      rw [hval] at hcontra
      cases hcontra
    · intro _ hshops
      rw [hshops]
      rfl
  · rw [if_neg hval]
    refine ⟨rfl, fun _ => rfl, fun h1 _ => absurd h1 hval⟩

/-- C9 counterexample for the spec's reading: a request naming only the
nonexistent listing 999 is answered with the validation error rather than
the basket — yet the basket-state BuyerOrder created before validation is
persisted anyway. -/
theorem c9_error_response_but_basket_persisted :
    (basket_post dbShopA 20 [(999, 1)]).2 = .invalidItems ∧
    (basket_post dbShopA 20 [(999, 1)]).1.buyer_orders =
      [⟨9, 20, BuyerOrderState.basket, none, none⟩] := by
  constructor
  · decide
  · decide

/-- C9 witness: the amended theorem applied to a valid request whose only
listing belongs to a closed shop — the persisted empty basket (id 9, no
seller orders) is returned. -/
theorem c9_basket_persists_through_validation_witness :
    basket_post dbShopClosed 20 [(5, 2)] =
      ({ dbShopClosed with
          buyer_orders := [⟨9, 20, BuyerOrderState.basket, none, none⟩],
          next_id := 10 },
       .ok 9) := by
  have h := @c9_basket_persists_through_validation dbShopClosed 20 [(5, 2)]
    (by decide)
  have h3 := h.2.2 (by decide) (by decide)
  exact h3.trans (by decide)

/-- In a list whose elements have pairwise-distinct keys, equal keys force
equal elements: each key names at most one row. -/
theorem pairwise_key_unique {α β : Type} (f : α → β) :
    ∀ {l : List α}, l.Pairwise (fun a b => f a ≠ f b) →
    ∀ a ∈ l, ∀ b ∈ l, f a = f b → a = b := by
  intro l
  induction l with
  | nil =>
    intro _ a ha
    cases ha
  | cons x xs ih =>
    intro h a ha b hb hf
    obtain ⟨hx, hxs⟩ := List.pairwise_cons.mp h
    rcases List.mem_cons.mp ha with rfl | ha2
    · rcases List.mem_cons.mp hb with rfl | hb2
      · rfl
      · exact absurd hf (hx b hb2)
    · rcases List.mem_cons.mp hb with rfl | hb2
      · exact absurd hf.symm (hx a ha2)
      · exact ih hxs a ha2 b hb2 hf

/-- C8 (amended): across two successive successful imports by different
owners, the four global pools stay deduplicated by natural key — each
product, category, parameter name or value names exactly one row — the two
runs resolve to different shops, and every listing *created* by either run
references global rows bearing its payload's product name, category name
and parameter pairs (so two freshly created listings naming the same
product reference the one shared row); a listing merely *updated* by a run
keeps its earlier references. -/
theorem c8_global_dedup_and_fresh_refs {db0 db1 db2 : DB} {u1 u2 : Nat}
    {e1 e2 : String} {p1 p2 : CatalogPayload} {s1 s2 : Nat}
    (h1 : run_import_products db0 u1 e1 p1 = (db1, .ok s1))
    (h2 : run_import_products db1 u2 e2 p2 = (db2, .ok s2))
    (hwf : WF db0) (hdd : NamesDedup db0)
    (hnd1 : (payloadExtIds p1).Nodup) (hnd2 : (payloadExtIds p2).Nodup)
    (hu : u1 ≠ u2) :
    NamesDedup db2 ∧
    (∀ q1 ∈ db2.products, ∀ q2 ∈ db2.products, q1.name = q2.name → q1 = q2) ∧
    (∀ c1 ∈ db2.categories, ∀ c2 ∈ db2.categories, c1.name = c2.name → c1 = c2) ∧
    (∀ a1 ∈ db2.parameters, ∀ a2 ∈ db2.parameters, a1.name = a2.name → a1 = a2) ∧
    (∀ w1 ∈ db2.param_values, ∀ w2 ∈ db2.param_values,
      w1.value = w2.value → w1 = w2) ∧
    s1 ≠ s2 ∧
    (∃ pp1 vs1, parsePayload p1 = .ok pp1 ∧
      buildAll pp1.cats pp1.goods = .ok vs1 ∧
      ∀ v ∈ vs1, listingFor db0 s1 v.external_id = none →
        ShopGoodRefs db2 s1 v) ∧
    (∃ pp2 vs2, parsePayload p2 = .ok pp2 ∧
      buildAll pp2.cats pp2.goods = .ok vs2 ∧
      ∀ v ∈ vs2, listingFor db1 s2 v.external_id = none →
        ShopGoodRefs db2 s2 v) := by
  have post1 := run_import_ok_post h1 hwf hnd1
  have post2 := run_import_ok_post h2 post1.wf hnd2
  have hdd2 : NamesDedup db2 := post2.dedup (post1.dedup hdd)
  have hs12 : s1 ≠ s2 := by
    obtain ⟨sh1, hf1, hid1⟩ := post1.shop_find
    cases hf2 : db1.shops.find? (fun s => s.owner_id == u2) with
    | none =>
      obtain ⟨name, _, hsid2, _⟩ := post2.shop_created hf2
      have hmem1 := List.mem_of_find?_eq_some hf1
      have hlt := post1.wf.below.shops_lt sh1 hmem1
      omega
    | some s0 =>
      obtain ⟨_, hs2id⟩ := post2.shop_kept s0 hf2
      have hmem1 := List.mem_of_find?_eq_some hf1
      have hmem0 := List.mem_of_find?_eq_some hf2
      have ho1 : sh1.owner_id = u1 := by simpa using List.find?_some hf1
      have ho2 : s0.owner_id = u2 := by simpa using List.find?_some hf2
      have hne : sh1 ≠ s0 := by
        intro he
        apply hu
        rw [← ho1, he, ho2]
      intro heq
      apply hne
      apply List.inj_on_of_nodup_map post1.wf.nd_shops hmem1 hmem0
      show sh1.id = s0.id
      rw [hid1, heq, hs2id]
  refine ⟨hdd2, pairwise_key_unique _ hdd2.products,
    pairwise_key_unique _ hdd2.categories, pairwise_key_unique _ hdd2.parameters,
    pairwise_key_unique _ hdd2.param_values, hs12, ?_, ?_⟩
  · obtain ⟨pp1, vs1, hp1, hb1, _, _, hrefs1⟩ := post1.listings
    exact ⟨pp1, vs1, hp1, hb1,
      fun v hv hnone => post2.refs_preserved s1 v hs12 (hrefs1 v hv hnone)⟩
  · obtain ⟨pp2, vs2, hp2, hb2, _, _, hrefs2⟩ := post2.listings
    exact ⟨pp2, vs2, hp2, hb2, hrefs2⟩

/-- C8 counterexample: after shop `S2` re-imports its good 7 renamed from
`Chair` to `Ball`, the update path diffs only the mutable fields, so the
listing keeps referencing the global `Chair` row — the run succeeds but
the two shops do not both reference the `Ball` row. -/
theorem c8_reimport_keeps_stale_product_ref :
    (run_import_products dbTwoShops 2 "b@x" payloadS2Ball).2 = .ok 6 ∧
    ((run_import_products dbTwoShops 2 "b@x" payloadS2Ball).1.product_infos.find?
      (fun r => r.shop_id == 6 && r.external_id == 7)).map
        (fun r => r.product_id) = some 8 ∧
    ((run_import_products dbTwoShops 2 "b@x" payloadS2Ball).1.products.find?
      (fun q => q.id == 8)).map (fun q => q.name) = some "Chair" ∧
    (payloadS2Ball.goods.getD []).map GoodSource.name = [some "Ball"] := by
  refine ⟨by decide, by decide, by decide, by decide⟩

/-- C8 witness: the amended theorem applied to the two concrete imports
building `dbTwoShops` — the global pools come out deduplicated. -/
theorem c8_global_dedup_and_fresh_refs_witness : NamesDedup dbTwoShops := by
  have h := c8_global_dedup_and_fresh_refs
    (show run_import_products dbEmpty 1 "a@x" payloadS1Ball =
        ((run_import_products dbEmpty 1 "a@x" payloadS1Ball).1, .ok 1)
      from by decide)
    (show run_import_products
        (run_import_products dbEmpty 1 "a@x" payloadS1Ball).1 2 "b@x"
        payloadS2Chair = (dbTwoShops, .ok 6) from by decide)
    ⟨⟨by decide, by decide, by decide, by decide, by decide, by decide,
      by decide, by decide⟩, by decide, by decide, by decide, by decide,
      by decide, by decide, by decide, by decide⟩
    ⟨by decide, by decide, by decide, by decide⟩
    (by decide) (by decide) (by decide)
  exact h.1

/-- Filtering keeps a member's lookup: containment in the filtered list is
the predicate's verdict. -/
theorem contains_filter (f : Nat → Bool) {p : Nat} {l : List Nat} (hp : p ∈ l) :
    (l.filter f).contains p = f p := by
  by_cases hf : f p = true
  · rw [hf]
    exact List.elem_eq_true_of_mem (List.mem_filter.mpr ⟨hp, hf⟩)
  · rw [Bool.not_eq_true] at hf
    rw [hf]
    have hnm : p ∉ l.filter f := by
      intro hmem
      have h2 := (List.mem_filter.mp hmem).2
      rw [hf] at h2
      cases h2
    exact Bool.eq_false_iff.mpr (fun hc => hnm (List.mem_of_elem_eq_true hc))

/-- `List.all` only reads the predicate on members. -/
theorem all_congr' {α : Type} {l : List α} {f g : α → Bool}
    (h : ∀ a ∈ l, f a = g a) : l.all f = l.all g := by
  induction l with
  | nil => rfl
  | cons a l ih =>
    simp only [List.all_cons]
    rw [h a (List.mem_cons_self a l),
      ih (fun b hb => h b (List.mem_cons_of_mem a hb))]

/-- `List.flatMap` only reads the function on members. -/
theorem flatMap_congr' {α β : Type} {l : List α} {f g : α → List β}
    (h : ∀ a ∈ l, f a = g a) : l.flatMap f = l.flatMap g := by
  induction l with
  | nil => rfl
  | cons a l ih =>
    rw [List.flatMap_cons, List.flatMap_cons, h a (List.mem_cons_self a l),
      ih (fun b hb => h b (List.mem_cons_of_mem a hb))]

/-- The pruner's verdict on one seller order is determined by the request's
verdict on that order's own listing ids. -/
theorem covers_congr {db : DB} {ids ids2 : List Nat} {so : SellerOrderRow}
    (h : ∀ q ∈ orderedPids db so.id, ids2.contains q = ids.contains q) :
    fullCover db ids2 so = fullCover db ids so ∧
    partCover db ids2 so = partCover db ids so ∧
    db.ordered_items.filter
        (fun it => it.order_id == so.id && ids2.contains it.product_info_id) =
      db.ordered_items.filter
        (fun it => it.order_id == so.id && ids.contains it.product_info_id) := by
  have hfeq : (orderedPids db so.id).filter (fun p => ids2.contains p) =
      (orderedPids db so.id).filter (fun p => ids.contains p) :=
    List.filter_congr h
  have haeq : (orderedPids db so.id).all (fun p => ids2.contains p) =
      (orderedPids db so.id).all (fun p => ids.contains p) := all_congr' h
  refine ⟨?_, ?_, ?_⟩
  · unfold fullCover
    rw [hfeq, haeq]
  · unfold partCover
    rw [hfeq, haeq]
  · apply List.filter_congr
    intro it hit
    by_cases ho : (it.order_id == so.id) = true
    · rw [ho]
      simp only [Bool.true_and]
      apply h
      unfold orderedPids
      exact List.mem_map_of_mem _ (List.mem_filter.mpr ⟨hit, ho⟩)
    · rw [Bool.not_eq_true] at ho
      rw [ho]
      simp

/-- The pruning loop, characterized against the original request when no
listing id is shared between two seller orders of the walk: the marked
seller orders are exactly the fully covered ones, and the marked line
items are exactly the requested items of the partially covered orders. -/
theorem pruneScan_spec (db : DB) : ∀ (sos : List SellerOrderRow) (ids : List Nat),
    sos.Pairwise
      (fun a b => ∀ q, q ∈ orderedPids db a.id → q ∉ orderedPids db b.id) →
    pruneScan db sos ids =
      ((sos.filter (fullCover db ids)).map (fun so => so.id),
       (sos.filter (partCover db ids)).flatMap
         (fun so =>
           (db.ordered_items.filter
             (fun it => it.order_id == so.id &&
               ids.contains it.product_info_id)).map (fun it => it.id))) := by
  intro sos
  induction sos with
  | nil =>
    intro ids _
    rfl
  | cons so rest ih =>
    intro ids hdisj
    obtain ⟨hso, hrest⟩ := List.pairwise_cons.mp hdisj
    simp only [pruneScan]
    by_cases hint :
        ((orderedPids db so.id).filter (fun p => ids.contains p)).isEmpty = true
    · rw [if_pos hint]
      have hfc : fullCover db ids so = false := by
        unfold fullCover
        rw [hint]
        rfl
      have hpc : partCover db ids so = false := by
        unfold partCover
        rw [hint]
        rfl
      rw [List.filter_cons_of_neg (by simp [hfc]),
        List.filter_cons_of_neg (by simp [hpc])]
      exact ih ids hrest
    · rw [if_neg hint]
      have hie : ((orderedPids db so.id).filter
          (fun p => ids.contains p)).isEmpty = false :=
        Bool.eq_false_iff.mpr hint
      have hallconv : (orderedPids db so.id).all
          (fun p => ((orderedPids db so.id).filter
            (fun p => ids.contains p)).contains p) =
          (orderedPids db so.id).all (fun p => ids.contains p) :=
        all_congr' (fun q hq => contains_filter _ hq)
      have hitemsconv : db.ordered_items.filter
          (fun it => it.order_id == so.id &&
            ((orderedPids db so.id).filter
              (fun p => ids.contains p)).contains it.product_info_id) =
          db.ordered_items.filter
            (fun it => it.order_id == so.id &&
              ids.contains it.product_info_id) := by
        apply List.filter_congr
        intro it hit
        by_cases ho : (it.order_id == so.id) = true
        · rw [ho]
          simp only [Bool.true_and]
          apply contains_filter
          unfold orderedPids
          exact List.mem_map_of_mem _ (List.mem_filter.mpr ⟨hit, ho⟩)
        · rw [Bool.not_eq_true] at ho
          rw [ho]
          simp
      have hpoint : ∀ so2 ∈ rest, ∀ q ∈ orderedPids db so2.id,
          (ids.filter (fun i => !((orderedPids db so.id).filter
            (fun p => ids.contains p)).contains i)).contains q =
          ids.contains q := by
        intro so2 hso2 q hq
        have hqnotso : q ∉ orderedPids db so.id := by
          intro hqso
          exact hso so2 hso2 q hqso hq
        by_cases hqids : q ∈ ids
        · rw [contains_filter _ hqids]
          have hcf : ((orderedPids db so.id).filter
              (fun p => ids.contains p)).contains q = false := by
            apply Bool.eq_false_iff.mpr
            intro hc
            exact hqnotso (List.mem_filter.mp (List.mem_of_elem_eq_true hc)).1
          rw [hcf]
          exact (List.elem_eq_true_of_mem hqids).symm
        · have h1 : ids.contains q = false :=
            Bool.eq_false_iff.mpr (fun hc => hqids (List.mem_of_elem_eq_true hc))
          rw [h1]
          apply Bool.eq_false_iff.mpr
          intro hc
          exact hqids (List.mem_filter.mp (List.mem_of_elem_eq_true hc)).1
      by_cases hids2 : (ids.filter (fun i => !((orderedPids db so.id).filter
          (fun p => ids.contains p)).contains i)).isEmpty = true
      · rw [if_pos hids2]
        have hidsall : ∀ i ∈ ids, ((orderedPids db so.id).filter
            (fun p => ids.contains p)).contains i = true := by
          intro i hi
          have := List.filter_eq_nil_iff.mp (List.isEmpty_iff.mp hids2) i hi
          simpa using this
        have hrestnone : ∀ so2 ∈ rest,
            (orderedPids db so2.id).filter (fun p => ids.contains p) = [] := by
          intro so2 hso2
          apply List.filter_eq_nil_iff.mpr
          intro q hq
          simp only [Bool.not_eq_true]
          apply Bool.eq_false_iff.mpr
          intro hc
          have hqids := List.mem_of_elem_eq_true hc
          have hqinter := hidsall q hqids
          have hqso := (List.mem_filter.mp
            (List.mem_of_elem_eq_true hqinter)).1
          exact hso so2 hso2 q hqso hq
        have hrfull : rest.filter (fullCover db ids) = [] := by
          apply List.filter_eq_nil_iff.mpr
          intro a ha
          have hf0 : fullCover db ids a = false := by
            unfold fullCover
            rw [hrestnone a ha]
            rfl
          simp [hf0]
        have hrpart : rest.filter (partCover db ids) = [] := by
          apply List.filter_eq_nil_iff.mpr
          intro a ha
          have hf0 : partCover db ids a = false := by
            unfold partCover
            rw [hrestnone a ha]
            rfl
          simp [hf0]
        by_cases hfull : (orderedPids db so.id).all
            (fun p => ((orderedPids db so.id).filter
              (fun p => ids.contains p)).contains p) = true
        · rw [if_pos hfull]
          have hfc : fullCover db ids so = true := by
            unfold fullCover
            rw [hie, ← hallconv, hfull]
            rfl
          have hpc : partCover db ids so = false := by
            unfold partCover
            rw [← hallconv, hfull]
            simp
          rw [List.filter_cons_of_pos hfc, List.filter_cons_of_neg (by simp [hpc]),
            hrfull, hrpart]
          rfl
        · rw [if_neg hfull]
          have hfc : fullCover db ids so = false := by
            unfold fullCover
            rw [← hallconv]
            rw [Bool.eq_false_iff.mpr hfull]
            simp
          have hpc : partCover db ids so = true := by
            unfold partCover
            rw [hie, ← hallconv, Bool.eq_false_iff.mpr hfull]
            rfl
          rw [List.filter_cons_of_neg (by simp [hfc]),
            List.filter_cons_of_pos hpc, hrfull, hrpart, hitemsconv]
          simp [List.flatMap_cons]
      · rw [if_neg hids2]
        have htail := ih (ids.filter (fun i => !((orderedPids db so.id).filter
          (fun p => ids.contains p)).contains i)) hrest
        rw [htail]
        have hrfull : rest.filter (fullCover db (ids.filter
            (fun i => !((orderedPids db so.id).filter
              (fun p => ids.contains p)).contains i))) =
            rest.filter (fullCover db ids) :=
          List.filter_congr (fun a ha => (covers_congr (hpoint a ha)).1)
        have hrpart : rest.filter (partCover db (ids.filter
            (fun i => !((orderedPids db so.id).filter
              (fun p => ids.contains p)).contains i))) =
            rest.filter (partCover db ids) :=
          List.filter_congr (fun a ha => (covers_congr (hpoint a ha)).2.1)
        have hrflat : (rest.filter (partCover db ids)).flatMap
            (fun so2 => (db.ordered_items.filter
              (fun it => it.order_id == so2.id &&
                (ids.filter (fun i => !((orderedPids db so.id).filter
                  (fun p => ids.contains p)).contains i)).contains
                  it.product_info_id)).map (fun it => it.id)) =
            (rest.filter (partCover db ids)).flatMap
              (fun so2 => (db.ordered_items.filter
                (fun it => it.order_id == so2.id &&
                  ids.contains it.product_info_id)).map (fun it => it.id)) := by
          apply flatMap_congr'
          intro so2 hso2
          rw [(covers_congr (hpoint so2 (List.mem_of_mem_filter hso2))).2.2]
        by_cases hfull : (orderedPids db so.id).all
            (fun p => ((orderedPids db so.id).filter
              (fun p => ids.contains p)).contains p) = true
        · rw [if_pos hfull]
          have hfc : fullCover db ids so = true := by
            unfold fullCover
            rw [hie, ← hallconv, hfull]
            rfl
          have hpc : partCover db ids so = false := by
            unfold partCover
            rw [← hallconv, hfull]
            simp
          rw [List.filter_cons_of_pos hfc, List.filter_cons_of_neg (by simp [hpc]),
            hrfull, hrpart, hrflat]
          rfl
        · rw [if_neg hfull]
          have hfc : fullCover db ids so = false := by
            unfold fullCover
            rw [← hallconv]
            rw [Bool.eq_false_iff.mpr hfull]
            simp
          have hpc : partCover db ids so = true := by
            unfold partCover
            rw [hie, ← hallconv, Bool.eq_false_iff.mpr hfull]
            rfl
          rw [List.filter_cons_of_neg (by simp [hfc]),
            List.filter_cons_of_pos hpc, hrfull, hrpart, hrflat, hitemsconv,
            List.flatMap_cons]

/-- C7: for a pruning request on a basket-state basket naming only ordered
listing ids, where no listing id is shared between two of the basket's
seller orders and row ids are unique: if the requested set equals the full
ordered set, the whole BuyerOrder is deleted — its row, all its seller
orders and all their line items — everything else and all listing
quantities are kept, and the empty result is returned; if it is a proper
subset, the surviving store keeps exactly the line items not requested —
a seller order all of whose listing ids are requested is deleted whole,
a partially covered one loses exactly its requested items — and every
other seller order, line item, buyer order and listing quantity is
unchanged. -/
theorem c7_prune_exact {db : DB} {uid : Nat} {ids : List Nat}
    {basket : BuyerOrderRow}
    (hne : ids.isEmpty = false)
    (hb : db.buyer_orders.find?
      (fun b => b.user_id == uid && b.state == BuyerOrderState.basket)
      = some basket)
    (hknown : (ids.filter (fun i =>
      !((db.seller_orders.filter
          (fun so => so.buyer_order_id == basket.id)).flatMap
        (fun so => orderedPids db so.id)).contains i)).isEmpty = true)
    (hdisj : (db.seller_orders.filter
        (fun so => so.buyer_order_id == basket.id)).Pairwise
      (fun a b => ∀ q, q ∈ orderedPids db a.id → q ∉ orderedPids db b.id))
    (hsoid : (db.seller_orders.map (fun so => so.id)).Nodup)
    (hitid : (db.ordered_items.map (fun it => it.id)).Nodup) :
    (eqAsSets ids ((db.seller_orders.filter
        (fun so => so.buyer_order_id == basket.id)).flatMap
        (fun so => orderedPids db so.id)) = true →
      (basket_delete db uid ids).2 = .emptyOk ∧
      (basket_delete db uid ids).1.product_infos = db.product_infos ∧
      (∀ b ∈ (basket_delete db uid ids).1.buyer_orders, b.id ≠ basket.id) ∧
      (∀ b ∈ db.buyer_orders, b.id ≠ basket.id →
        b ∈ (basket_delete db uid ids).1.buyer_orders) ∧
      (∀ so ∈ (basket_delete db uid ids).1.seller_orders,
        so.buyer_order_id ≠ basket.id) ∧
      (∀ so ∈ db.seller_orders, so.buyer_order_id ≠ basket.id →
        so ∈ (basket_delete db uid ids).1.seller_orders) ∧
      (∀ it ∈ db.ordered_items, it ∈ (basket_delete db uid ids).1.ordered_items ↔
        ¬∃ so ∈ db.seller_orders, so.buyer_order_id = basket.id ∧
          so.id = it.order_id)) ∧
    (eqAsSets ids ((db.seller_orders.filter
        (fun so => so.buyer_order_id == basket.id)).flatMap
        (fun so => orderedPids db so.id)) = false →
      (basket_delete db uid ids).2 = .ok basket.id ∧
      (basket_delete db uid ids).1.product_infos = db.product_infos ∧
      (basket_delete db uid ids).1.buyer_orders = db.buyer_orders ∧
      (∀ so ∈ db.seller_orders,
        so ∈ (basket_delete db uid ids).1.seller_orders ↔
        ¬(so ∈ db.seller_orders.filter
            (fun so2 => so2.buyer_order_id == basket.id) ∧
          fullCover db ids so = true)) ∧
      (∀ it ∈ db.ordered_items,
        it ∈ (basket_delete db uid ids).1.ordered_items ↔
        ¬∃ so ∈ db.seller_orders.filter
            (fun so2 => so2.buyer_order_id == basket.id),
          it.order_id = so.id ∧
          (fullCover db ids so = true ∨
            (partCover db ids so = true ∧
              ids.contains it.product_info_id = true)))) := by
  have hstate : basket.state = BuyerOrderState.basket := by
    have := List.find?_some hb
    simp only [Bool.and_eq_true, beq_iff_eq] at this
    exact this.2
  unfold basket_delete
  rw [if_neg (by simp [hne]), hb]
  dsimp only
  rw [if_neg (by rw [hknown]; simp)]
  by_cases heq : eqAsSets ids ((db.seller_orders.filter
      (fun so => so.buyer_order_id == basket.id)).flatMap
      (fun so => orderedPids db so.id)) = true
  · rw [if_pos (by simp [hstate, heq])]
    constructor
    · intro _
      refine ⟨rfl, rfl, ?_, ?_, ?_, ?_, ?_⟩
      · intro b hbm
        have := (List.mem_filter.mp hbm).2
        simpa using this
      · intro b hbm hbne
        exact List.mem_filter.mpr ⟨hbm, by simpa using hbne⟩
      · intro so hsm
        have := (List.mem_filter.mp hsm).2
        simpa using this
      · intro so hsm hsne
        exact List.mem_filter.mpr ⟨hsm, by simpa using hsne⟩
      · intro it hit
        constructor
        · intro hmem hex
          obtain ⟨so, hsom, hsob, hsoid2⟩ := hex
          have hmf := (List.mem_filter.mp hmem).2
          have hany : (db.seller_orders.filter
              (fun so => so.buyer_order_id == basket.id)).any
              (fun so => so.id == it.order_id) = true := by
            apply List.any_eq_true.mpr
            exact ⟨so, List.mem_filter.mpr ⟨hsom, by simp [hsob]⟩, by simp [hsoid2]⟩
          rw [hany] at hmf
          simp at hmf
        · intro hnex
          apply List.mem_filter.mpr
          refine ⟨hit, ?_⟩
          have hX : (db.seller_orders.filter
              (fun so => so.buyer_order_id == basket.id)).any
              (fun so => so.id == it.order_id) = false := by
            apply Bool.eq_false_iff.mpr
            intro hany
            obtain ⟨so, hsof, hsid⟩ := List.any_eq_true.mp hany
            have hsom := List.mem_filter.mp hsof
            exact hnex ⟨so, hsom.1, by simpa using hsom.2, by simpa using hsid⟩
          rw [hX]
          rfl
    · intro hcontra
      rw [heq] at hcontra
      cases hcontra
  · rw [if_neg (by simp [hstate, heq])]
    rw [pruneScan_spec db _ ids hdisj]
    constructor
    · intro hcontra
      exact absurd hcontra heq
    · intro _
      refine ⟨rfl, rfl, rfl, ?_, ?_⟩
      · intro so hsom
        constructor
        · intro hmem hcond
          obtain ⟨hsos, hfull⟩ := hcond
          have hmf := (List.mem_filter.mp hmem).2
          have hc : ((List.filter (fullCover db ids)
              (db.seller_orders.filter
                (fun so2 => so2.buyer_order_id == basket.id))).map
              (fun so2 => so2.id)).contains so.id = true := by
            apply List.elem_eq_true_of_mem
            exact List.mem_map_of_mem _ (List.mem_filter.mpr ⟨hsos, hfull⟩)
          rw [hc] at hmf
          simp at hmf
        · intro hncond
          apply List.mem_filter.mpr
          refine ⟨hsom, ?_⟩
          have hX : ((List.filter (fullCover db ids)
              (db.seller_orders.filter
                (fun so2 => so2.buyer_order_id == basket.id))).map
              (fun so2 => so2.id)).contains so.id = false := by
            apply Bool.eq_false_iff.mpr
            intro hc
            obtain ⟨so2, hso2f, hso2id⟩ :=
              List.mem_map.mp (List.mem_of_elem_eq_true hc)
            have hso2full := List.mem_filter.mp hso2f
            have hso2sos := hso2full.1
            have hso2db : so2 ∈ db.seller_orders :=
              List.mem_of_mem_filter hso2sos
            have he2 : so2 = so :=
              List.inj_on_of_nodup_map hsoid hso2db hsom hso2id
            subst he2
            exact hncond ⟨hso2sos, hso2full.2⟩
          rw [hX]
          rfl
      · intro it hitm
        constructor
        · intro hmem hex
          obtain ⟨so, hsos, hord, hcase⟩ := hex
          have hmf := (List.mem_filter.mp hmem).2
          rcases hcase with hfull | ⟨hpart, hcont⟩
          · have hc : ((List.filter (fullCover db ids)
                (db.seller_orders.filter
                  (fun so2 => so2.buyer_order_id == basket.id))).map
                (fun so2 => so2.id)).contains it.order_id = true := by
              apply List.elem_eq_true_of_mem
              rw [hord]
              exact List.mem_map_of_mem _ (List.mem_filter.mpr ⟨hsos, hfull⟩)
            rw [hc] at hmf
            simp at hmf
          · have hc : ((List.filter (partCover db ids)
                (db.seller_orders.filter
                  (fun so2 => so2.buyer_order_id == basket.id))).flatMap
                (fun so2 => (db.ordered_items.filter
                  (fun it2 => it2.order_id == so2.id &&
                    ids.contains it2.product_info_id)).map
                  (fun it2 => it2.id))).contains it.id = true := by
              apply List.elem_eq_true_of_mem
              apply List.mem_flatMap.mpr
              refine ⟨so, List.mem_filter.mpr ⟨hsos, hpart⟩, ?_⟩
              apply List.mem_map_of_mem
              exact List.mem_filter.mpr ⟨hitm, by rw [hord, hcont]; simp⟩
            rw [hc] at hmf
            simp at hmf
        · intro hnex
          apply List.mem_filter.mpr
          refine ⟨hitm, ?_⟩
          have h1 : ((List.filter (fullCover db ids)
              (db.seller_orders.filter
                (fun so2 => so2.buyer_order_id == basket.id))).map
              (fun so2 => so2.id)).contains it.order_id = false := by
            apply Bool.eq_false_iff.mpr
            intro hc
            obtain ⟨so2, hso2f, hso2id⟩ :=
              List.mem_map.mp (List.mem_of_elem_eq_true hc)
            have hso2full := List.mem_filter.mp hso2f
            exact hnex ⟨so2, hso2full.1, hso2id.symm, Or.inl hso2full.2⟩
          have h2 : ((List.filter (partCover db ids)
              (db.seller_orders.filter
                (fun so2 => so2.buyer_order_id == basket.id))).flatMap
              (fun so2 => (db.ordered_items.filter
                (fun it2 => it2.order_id == so2.id &&
                  ids.contains it2.product_info_id)).map
                (fun it2 => it2.id))).contains it.id = false := by
            apply Bool.eq_false_iff.mpr
            intro hc
            obtain ⟨so2, hso2f, hidm⟩ :=
              List.mem_flatMap.mp (List.mem_of_elem_eq_true hc)
            obtain ⟨it2, hit2f, hit2id⟩ := List.mem_map.mp hidm
            have hit2m := List.mem_filter.mp hit2f
            have hit2db : it2 ∈ db.ordered_items := hit2m.1
            have : it2 = it :=
              List.inj_on_of_nodup_map hitid hit2db hitm hit2id
            subst this
            have hpred := hit2m.2
            simp only [Bool.and_eq_true, beq_iff_eq] at hpred
            have hso2part := List.mem_filter.mp hso2f
            exact hnex ⟨so2, hso2part.1, hpred.1,
              Or.inr ⟨hso2part.2, hpred.2⟩⟩
          rw [h1, h2]
          rfl

/-- C7 witness: the claim theorem applied to the two-shop basket with the
proper subset `[5]` requested — the request is answered with the surviving
basket and listing quantities untouched. -/
theorem c7_prune_exact_witness :
    (basket_delete dbTwoShopBasket 20 [5]).2 = .ok 9 ∧
    (basket_delete dbTwoShopBasket 20 [5]).1.product_infos =
      dbTwoShopBasket.product_infos := by
  have h := @c7_prune_exact dbTwoShopBasket 20 [5]
    ⟨9, 20, BuyerOrderState.basket, none, none⟩
    (by decide) (by decide) (by decide) (by decide) (by decide) (by decide)
  have h2 := h.2 (by decide)
  exact ⟨h2.1, h2.2.1⟩
